import Mathlib

/-!
# MIDI drum synthesiser (SHARC audio module): decoder, voice pool, sample loop

Shallow embedding of `midi_setup.h`, `callback_midi_message.cpp` and
`callback_audio_processing.cpp`.

Conventions of the embedding.

* `int` and `uint32_t` values are mathematical integers; the two places where
  the source converts between them (`keys[idx].midiNote = midi_note` and
  `keys[idx].midiNote == midi_note`) go through `toInt32` and `toUInt32`.
* A received byte (`uint8_t val`) is a `Fin 256`.
* `float` arithmetic is read as exact arithmetic in a linearly ordered field
  `R`, and `pow(x, 2)` as `x ^ 2`; `sin`, `exp`, `rand`, `PI` and
  `AUDIO_SAMPLE_RATE` come from headers that are not part of the sources and
  are the fields of `Env`.
* The fields of `struct Drums` that every use assigns before it reads them
  (`tau`, `tauf`, `A`, `r`, `TimePeak`, `t_r`, `I_t`, `fc`, `fm`, `I_0`,
  `DrumSynth`, `dither`) are functions of the state named after the field;
  `A_t`, `counter` and `freqShift` are stored.
* `Drums::counter` is a `float` that only ever holds small whole numbers
  (it is zeroed, incremented and compared with whole constants): it is a `Nat`.
* `keys` is defined as `Keyboard keys[5]`, declared in the MIDI unit as
  `extern Keyboard keys[6]`, and indexed with `0 <= j <= 5` by the audio unit.
  The embedding gives the storage designated by `keys[5]` a cell of its own:
  `Keys` has six cells, the voice pool proper is cells `0..4`.
-/

namespace Drum

/-! ## midi_setup.h -/

/-- One polyphony slot, `class Keyboard`. -/
structure Keyboard where
  midiNote : Int
  playing : Bool
deriving DecidableEq, Repr

/-- The method `Keyboard::reset`. -/
def Keyboard.reset (_k : Keyboard) : Keyboard :=
  { midiNote := 0, playing := false }

/-- The array `keys` together with the cell that `keys[5]` designates. -/
abbrev Keys := Fin 6 → Keyboard

/-- A received byte. -/
abbrev Byte := Fin 256

/-- Conversion of an `int` to `uint32_t` (reduction modulo `2^32`). -/
def toUInt32 (x : Int) : Nat := (x % 4294967296).toNat

/-- Conversion of a `uint32_t` to `int` (two's complement). -/
def toInt32 (n : Nat) : Int :=
  if n % 4294967296 < 2147483648 then ((n % 4294967296 : Nat) : Int)
  else ((n % 4294967296 : Nat) : Int) - 4294967296

/-- The values an `int` can hold. -/
def IsInt32 (x : Int) : Prop := -2147483648 ≤ x ∧ x < 2147483648

instance (x : Int) : Decidable (IsInt32 x) := by
  unfold IsInt32; infer_instance

/-! ## callback_midi_message.cpp -/

/-- The static locals of `midi_rx_callback_sharc1`. -/
structure MidiRx where
  midi_state : Nat
  midi_note_start : Bool
  midi_note_stop : Bool
  midi_note : Nat
  midi_vol : Nat
deriving DecidableEq, Repr

/-- Initial values of the static locals. -/
def MidiRx.init : MidiRx :=
  { midi_state := 0, midi_note_start := false, midi_note_stop := false,
    midi_note := 0, midi_vol := 0 }

/-- The allocation scan
`do { if(!keys[idx].playing){...; found = true;} idx++; } while(!found && idx<5);`
entered with the current value of `idx`; `fuel` bounds the number of passes
through the body (`noteOnLoop_fuel`: five passes always suffice). -/
def noteOnLoop (midi_note : Nat) : Nat → Keys → (idx : Nat) → idx < 5 → Keys
  | 0, keys, _, _ => keys
  | fuel + 1, keys, idx, h =>
    if (keys ⟨idx, by omega⟩).playing = false then
      -- playing = true; midiNote = midi_note; found = true; the loop exits
      Function.update keys ⟨idx, by omega⟩
        { midiNote := toInt32 midi_note, playing := true }
    else if h1 : idx + 1 < 5 then
      noteOnLoop midi_note fuel keys (idx + 1) h1
    else
      keys

/-- The release scan
`do { if(keys[idx].playing && keys[idx].midiNote == midi_note){...} idx++; } while(!found && idx<5);`
entered with the current value of `idx`; `fuel` bounds the number of passes
through the body (`noteOffLoop_fuel`: five passes always suffice). -/
def noteOffLoop (midi_note : Nat) : Nat → Keys → (idx : Nat) → idx < 5 → Keys
  | 0, keys, _, _ => keys
  | fuel + 1, keys, idx, h =>
    if (keys ⟨idx, by omega⟩).playing = true ∧
        toUInt32 (keys ⟨idx, by omega⟩).midiNote = midi_note % 4294967296 then
      -- playing = false; found = true; the loop exits
      Function.update keys ⟨idx, by omega⟩
        { midiNote := (keys ⟨idx, by omega⟩).midiNote, playing := false }
    else if h1 : idx + 1 < 5 then
      noteOffLoop midi_note fuel keys (idx + 1) h1
    else
      keys

/-- One run of `midi_rx_callback_sharc1` with one byte `val` in the FIFO. -/
def midi_rx_callback_sharc1 (val : Byte) (st : MidiRx × Keys) : MidiRx × Keys :=
  let rx := st.1
  let keys := st.2
  if rx.midi_state = 0 then
    let rx1 := if val = 0x80 then { rx with midi_note_stop := true } else rx
    let rx2 := if val = 0x90 then { rx1 with midi_note_start := true } else rx1
    ({ rx2 with midi_state := 1 }, keys)
  else if rx.midi_state = 1 then
    ({ rx with midi_note := val.val, midi_state := 2 }, keys)
  else if rx.midi_state = 2 then
    let rx1 := { rx with midi_vol := val.val, midi_state := 0 }
    if rx1.midi_note_start = true then
      ({ rx1 with midi_note_start := false }, noteOnLoop rx1.midi_note 5 keys 0 (by omega))
    else if rx1.midi_note_stop = true then
      ({ rx1 with midi_note_stop := false }, noteOffLoop rx1.midi_note 5 keys 0 (by omega))
    else
      (rx1, keys)
  else
    -- no branch applies: the byte is read and dropped
    (rx, keys)

/-- Feeding a sequence of bytes, one callback run per byte. -/
def feedBytes (bytes : List Byte) (st : MidiRx × Keys) : MidiRx × Keys :=
  bytes.foldl (fun s b => midi_rx_callback_sharc1 b s) st

/-! ## callback_audio_processing.cpp: globals -/

/-- What the C library and the headers outside the sources supply. -/
structure Env (R : Type) where
  AUDIO_SAMPLE_RATE : R
  PI : R
  sin : R → R
  exp : R → R
  /-- The value returned by the `n`-th call of `rand()`. -/
  rand : Nat → Nat

/-- The stored fields of `struct Drums`. -/
structure Drums (R : Type) where
  A_t : R
  counter : Nat
  freqShift : R

/-- The fields of `multicore_data` that the audio unit uses. -/
structure Multicore (R : Type) where
  audioproj_fin_pot_hadc0 : R
  audioproj_fin_pot_hadc1 : R
  audioproj_fin_pot_hadc2 : R
  audioproj_fin_sw_1_core1_pressed : Bool
  audioproj_fin_sw_2_core1_pressed : Bool
  audioproj_fin_sw_3_core1_pressed : Bool
  audioproj_fin_sw_4_core1_pressed : Bool

/-- The globals of the audio unit. `left_out` and `right_out` are the cells
`audiochannel_0_left_out[i]` and `audiochannel_0_right_out[i]` of the sample
being processed; `randCalls` counts the calls of `rand()` made so far. -/
structure Synth (R : Type) where
  keys : Keys
  Kickdrum : Drums R
  SubKick : Drums R
  Snaredrum : Drums R
  Midtom : Drums R
  SubTom : Drums R
  Hightom : Drums R
  Hihat : Drums R
  tempAudio : R
  tempAudio2 : R
  tempAudio3 : R
  tempAudio4 : R
  tempAudio5 : R
  type : Int
  type2 : Int
  type3 : Int
  multicore_data : Multicore R
  left_out : R
  right_out : R
  randCalls : Nat

section Audio

variable {R : Type} [LinearOrderedField R]

/-- Zero-initialised `struct Drums`. -/
def Drums.zero : Drums R := { A_t := 0, counter := 0, freqShift := 0 }

/-- The globals as static initialisation leaves them (all zero, no button
pressed), before `processaudio_setup`. -/
def Synth.zero : Synth R :=
  { keys := fun _ => { midiNote := 0, playing := false },
    Kickdrum := Drums.zero, SubKick := Drums.zero, Snaredrum := Drums.zero,
    Midtom := Drums.zero, SubTom := Drums.zero, Hightom := Drums.zero,
    Hihat := Drums.zero,
    tempAudio := 0, tempAudio2 := 0, tempAudio3 := 0, tempAudio4 := 0,
    tempAudio5 := 0, type := 0, type2 := 0, type3 := 0,
    multicore_data :=
      { audioproj_fin_pot_hadc0 := 0, audioproj_fin_pot_hadc1 := 0,
        audioproj_fin_pot_hadc2 := 0,
        audioproj_fin_sw_1_core1_pressed := false,
        audioproj_fin_sw_2_core1_pressed := false,
        audioproj_fin_sw_3_core1_pressed := false,
        audioproj_fin_sw_4_core1_pressed := false },
    left_out := 0, right_out := 0, randCalls := 0 }

/-- The loop `for(i=0; i<=5; i++){ keys[i].reset(); }`, from index `i` on. -/
def resetKeysFrom (keys : Keys) : Nat → Nat → Keys
  | 0, _ => keys
  | fuel + 1, i =>
    if h : i ≤ 5 then
      resetKeysFrom (Function.update keys ⟨i, by omega⟩ (keys ⟨i, by omega⟩).reset) fuel (i + 1)
    else
      keys

/-- The function `processaudio_setup`. -/
def processaudio_setup (s : Synth R) : Synth R :=
  { s with
    keys := resetKeysFrom s.keys 6 0,
    Kickdrum := { s.Kickdrum with counter := 0 },
    SubKick := { s.SubKick with counter := 0 },
    Snaredrum := { s.Snaredrum with counter := 0 },
    Midtom := { s.Midtom with counter := 0 },
    SubTom := { s.SubTom with counter := 0 },
    Hightom := { s.Hightom with counter := 0 } }

/-! ## processaudio_callback: the Kick branch -/

/-- The value `Kickdrum.t_r = Kickdrum.counter/AUDIO_SAMPLE_RATE`. -/
def Kickdrum_t_r (env : Env R) (s : Synth R) : R :=
  (s.Kickdrum.counter : R) / env.AUDIO_SAMPLE_RATE

/-- The value of `Kickdrum.A_t` after the three envelope statements
(attack, decay, end of decay). -/
def Kickdrum_A_t (env : Env R) (s : Synth R) : R :=
  let A : R := 0.999
  let r : R := 0.3
  let t_r : R := Kickdrum_t_r env s
  let TimePeak : R := 0.005
  let tau : R := 0.065
  let a0 : R := s.Kickdrum.A_t
  let a1 : R := if t_r ≤ TimePeak then 199.826 * t_r else a0
  let a2 : R := if t_r > TimePeak ∧ t_r ≤ r then A * env.exp (-(t_r - TimePeak) / tau) else a1
  if t_r > r then 0 else a2

/-- The value `Kickdrum.I_t = -(1/70)*Kickdrum.t_r + 1`; `1/70` is a division
of two `int` literals. -/
def Kickdrum_I_t (env : Env R) (s : Synth R) : R :=
  let slope : R := -(((1 / 70 : Int) : R))
  slope * Kickdrum_t_r env s + 1

/-- The value assigned to `Kickdrum.DrumSynth`. -/
def Kickdrum_DrumSynth (env : Env R) (s : Synth R) : R :=
  let t_r : R := Kickdrum_t_r env s
  let fc : R := 70 * s.Kickdrum.freqShift
  let fm : R := 30 * s.Kickdrum.freqShift
  let I_0 : R := 1.15 + ((s.type3 * 2 : Int) : R)
  Kickdrum_A_t env s *
    env.sin (2 * env.PI * fc * t_r + I_0 * Kickdrum_I_t env s * env.sin (2 * env.PI * fm * t_r))

/-- The value `SubKick.t_r = SubKick.counter/AUDIO_SAMPLE_RATE`. -/
def SubKick_t_r (env : Env R) (s : Synth R) : R :=
  (s.SubKick.counter : R) / env.AUDIO_SAMPLE_RATE

/-- The value `SubKick.A_t = -(1/SubKick.r)*SubKick.t_r + 1` with
`SubKick.r = 0.03`. -/
def SubKick_A_t (env : Env R) (s : Synth R) : R :=
  let r : R := 0.03
  let slope : R := -(1 / r)
  slope * SubKick_t_r env s + 1

/-- The value assigned to `SubKick.DrumSynth`: the burst while
`Kickdrum.t_r <= SubKick.r`, else 0. -/
def SubKick_DrumSynth (env : Env R) (s : Synth R) : R :=
  let r : R := 0.03
  let t_r : R := SubKick_t_r env s
  let A_t : R := SubKick_A_t env s
  let I_t : R := A_t
  let fc : R := 200
  let fm : R := 350
  let I_0 : R := 5
  if Kickdrum_t_r env s ≤ r then
    A_t * env.sin (2 * env.PI * fc * t_r + I_0 * I_t * env.sin (2 * env.PI * fm * t_r))
  else 0

/-- The body of `if(keys[j].midiNote == 60){ ... }`. -/
def kickBranch (env : Env R) (j : Fin 6) (s : Synth R) : Synth R :=
  if (s.keys j).midiNote = 60 then
    let s1 : Synth R :=
      { s with
        Kickdrum := { s.Kickdrum with A_t := Kickdrum_A_t env s },
        SubKick := { s.SubKick with A_t := SubKick_A_t env s } }
    -- if((Kickdrum.counter)<=14400)
    let s2 : Synth R :=
      if s1.Kickdrum.counter ≤ 14400 then
        { s1 with
          tempAudio := 0.001 * SubKick_DrumSynth env s + Kickdrum_DrumSynth env s,
          Kickdrum := { s1.Kickdrum with counter := s1.Kickdrum.counter + 1 },
          SubKick := { s1.SubKick with counter := s1.SubKick.counter + 1 } }
      else s1
    -- if(Kickdrum.counter == 14401 && keys[j].playing == false)
    let s3 : Synth R :=
      if s2.Kickdrum.counter = 14401 ∧ (s2.keys j).playing = false then
        { s2 with tempAudio := 0, keys := Function.update s2.keys j (s2.keys j).reset }
      else s2
    -- if(Kickdrum.counter == 14401 && keys[j].playing == true)
    if s3.Kickdrum.counter = 14401 ∧ (s3.keys j).playing = true then
      { s3 with
        Kickdrum := { s3.Kickdrum with counter := 0 },
        SubKick := { s3.SubKick with counter := 0 } }
    else s3
  else s

/-! ## processaudio_callback: the Snare branch -/

/-- The value `Snaredrum.t_r`. -/
def Snaredrum_t_r (env : Env R) (s : Synth R) : R :=
  (s.Snaredrum.counter : R) / env.AUDIO_SAMPLE_RATE

/-- The value of `Snaredrum.A_t` after the three envelope statements. -/
def Snaredrum_A_t (env : Env R) (s : Synth R) : R :=
  let A : R := 0.999
  let r : R := 0.25
  let t_r : R := Snaredrum_t_r env s
  let TimePeak : R := 0.00152
  let tau : R := 0.04
  let a0 : R := s.Snaredrum.A_t
  let a1 : R := if t_r ≤ TimePeak then 657.237 * t_r else a0
  let a2 : R := if t_r > TimePeak ∧ t_r ≤ r then A * env.exp (-(t_r - TimePeak) / tau) else a1
  if t_r > r then 0 else a2

/-- The value `Snaredrum.I_t = exp(-Snaredrum.t_r/Snaredrum.tauf)`. -/
def Snaredrum_I_t (env : Env R) (s : Synth R) : R :=
  let tauf : R := 0.03
  env.exp (-Snaredrum_t_r env s / tauf)

/-- The value assigned to `Snaredrum.DrumSynth`. -/
def Snaredrum_DrumSynth (env : Env R) (s : Synth R) : R :=
  let t_r : R := Snaredrum_t_r env s
  let fc : R := 80 * s.Snaredrum.freqShift
  let fm : R := 85 * s.Snaredrum.freqShift
  let I_0 : R := ((1 + s.type2 * 2 : Int) : R)
  Snaredrum_A_t env s *
    env.sin (2 * env.PI * fc * t_r + I_0 * Snaredrum_I_t env s * env.sin (2 * env.PI * fm * t_r))

/-- The `int` value `rand()%2-1` for the call of `rand()` that the state is
about to make. -/
def randFactor (env : Env R) (s : Synth R) : Int :=
  ((env.rand s.randCalls % 2 : Nat) : Int) - 1

/-- The value `Snaredrum.dither = Snaredrum.A_t*(rand()%2-1)*0.035`. -/
def Snaredrum_dither (env : Env R) (s : Synth R) : R :=
  Snaredrum_A_t env s * ((randFactor env s : Int) : R) * 0.035

/-- The body of `if(keys[j].midiNote == 61){ ... }`. -/
def snareBranch (env : Env R) (j : Fin 6) (s : Synth R) : Synth R :=
  if (s.keys j).midiNote = 61 then
    let s1 : Synth R :=
      { s with
        Snaredrum := { s.Snaredrum with A_t := Snaredrum_A_t env s },
        randCalls := s.randCalls + 1 }
    -- if((Snaredrum.counter)<=12000)
    let s2 : Synth R :=
      if s1.Snaredrum.counter ≤ 12000 then
        { s1 with
          tempAudio2 := Snaredrum_DrumSynth env s + Snaredrum_dither env s,
          Snaredrum := { s1.Snaredrum with counter := s1.Snaredrum.counter + 1 } }
      else s1
    -- if(Snaredrum.counter == 12001 && keys[j].playing == false)
    let s3 : Synth R :=
      if s2.Snaredrum.counter = 12001 ∧ (s2.keys j).playing = false then
        { s2 with tempAudio2 := 0, keys := Function.update s2.keys j (s2.keys j).reset }
      else s2
    -- if(Snaredrum.counter == 12001 && keys[j].playing == true)
    if s3.Snaredrum.counter = 12001 ∧ (s3.keys j).playing = true then
      { s3 with Snaredrum := { s3.Snaredrum with counter := 0 } }
    else s3
  else s

/-! ## processaudio_callback: the Tom branches -/

/-- The value `SubTom.t_r = SubTom.counter/AUDIO_SAMPLE_RATE`. -/
def SubTom_t_r (env : Env R) (s : Synth R) : R :=
  (s.SubTom.counter : R) / env.AUDIO_SAMPLE_RATE

/-- The value `SubTom.A_t = -(1/SubTom.r)*SubTom.t_r + 1` with
`SubTom.r = 0.03`. -/
def SubTom_A_t (env : Env R) (s : Synth R) : R :=
  let r : R := 0.03
  let slope : R := -(1 / r)
  slope * SubTom_t_r env s + 1

/-- The value assigned to `SubTom.DrumSynth` in a Tom branch whose
fundamental has elapsed time `t_fund`: the burst while `t_fund <= SubTom.r`,
else 0. -/
def SubTom_DrumSynth (env : Env R) (t_fund : R) (s : Synth R) : R :=
  let r : R := 0.03
  let t_r : R := SubTom_t_r env s
  let A_t : R := SubTom_A_t env s
  let I_t : R := A_t
  let fc : R := 200
  let fm : R := 350
  let I_0 : R := 5
  if t_fund ≤ r then
    A_t * env.sin (2 * env.PI * fc * t_r + I_0 * I_t * env.sin (2 * env.PI * fm * t_r))
  else 0

/-- The value `Midtom.t_r`. -/
def Midtom_t_r (env : Env R) (s : Synth R) : R :=
  (s.Midtom.counter : R) / env.AUDIO_SAMPLE_RATE

/-- The value of `Midtom.A_t` after the three envelope statements. -/
def Midtom_A_t (env : Env R) (s : Synth R) : R :=
  let A : R := 0.999
  let r : R := 0.4
  let t_r : R := Midtom_t_r env s
  let TimePeak : R := 0.00642
  let tau : R := 0.1
  let a0 : R := s.Midtom.A_t
  let a1 : R := if t_r ≤ TimePeak then 155.607 * t_r else a0
  let a2 : R := if t_r > TimePeak ∧ t_r ≤ r then A * env.exp (-(t_r - TimePeak) / tau) else a1
  if t_r > r then 0 else a2

/-- The value
`Midtom.I_t = 18500*pow((Midtom.t_r+0.01),2)*exp(-Midtom.tauf*(Midtom.t_r+0.01))`. -/
def Midtom_I_t (env : Env R) (s : Synth R) : R :=
  let tauf : R := 70
  let t_r : R := Midtom_t_r env s
  18500 * (t_r + 0.01) ^ 2 * env.exp (-tauf * (t_r + 0.01))

/-- The value assigned to `Midtom.DrumSynth`. -/
def Midtom_DrumSynth (env : Env R) (s : Synth R) : R :=
  let t_r : R := Midtom_t_r env s
  let fc : R := 110 * s.Midtom.freqShift
  let fm : R := 113 * s.Midtom.freqShift
  let I_0 : R := 1.5 + ((s.type * 2 : Int) : R)
  Midtom_A_t env s *
    env.sin (2 * env.PI * fc * t_r + I_0 * Midtom_I_t env s * env.sin (2 * env.PI * fm * t_r))

/-- The body of `if(keys[j].midiNote == 62){ ... }`. -/
def midtomBranch (env : Env R) (j : Fin 6) (s : Synth R) : Synth R :=
  if (s.keys j).midiNote = 62 then
    let s1 : Synth R :=
      { s with
        Midtom := { s.Midtom with A_t := Midtom_A_t env s },
        SubTom := { s.SubTom with A_t := SubTom_A_t env s } }
    -- if((Midtom.counter)<=19200)
    let s2 : Synth R :=
      if s1.Midtom.counter ≤ 19200 then
        { s1 with
          tempAudio3 := 0.005 * SubTom_DrumSynth env (Midtom_t_r env s) s + Midtom_DrumSynth env s,
          Midtom := { s1.Midtom with counter := s1.Midtom.counter + 1 },
          SubTom := { s1.SubTom with counter := s1.SubTom.counter + 1 } }
      else s1
    -- if(Midtom.counter == 19201 && keys[j].playing == false)
    let s3 : Synth R :=
      if s2.Midtom.counter = 19201 ∧ (s2.keys j).playing = false then
        { s2 with tempAudio3 := 0, keys := Function.update s2.keys j (s2.keys j).reset }
      else s2
    -- if(Midtom.counter == 19201 && keys[j].playing == true)
    if s3.Midtom.counter = 19201 ∧ (s3.keys j).playing = true then
      { s3 with
        Midtom := { s3.Midtom with counter := 0 },
        SubTom := { s3.SubTom with counter := 0 } }
    else s3
  else s

/-- The value `Hightom.t_r`. -/
def Hightom_t_r (env : Env R) (s : Synth R) : R :=
  (s.Hightom.counter : R) / env.AUDIO_SAMPLE_RATE

/-- The value of `Hightom.A_t` after the three envelope statements. -/
def Hightom_A_t (env : Env R) (s : Synth R) : R :=
  let A : R := 0.999
  let r : R := 0.4
  let t_r : R := Hightom_t_r env s
  let TimePeak : R := 0.0144
  let tau : R := 0.1
  let a0 : R := s.Hightom.A_t
  let a1 : R := if t_r ≤ TimePeak then 69.375 * t_r else a0
  let a2 : R := if t_r > TimePeak ∧ t_r ≤ r then A * env.exp (-(t_r - TimePeak) / tau) else a1
  if t_r > r then 0 else a2

/-- The value
`Hightom.I_t = 18500*pow((Hightom.t_r+0.01),2)*exp(-Hightom.tauf*(Hightom.t_r+0.01))`. -/
def Hightom_I_t (env : Env R) (s : Synth R) : R :=
  let tauf : R := 100
  let t_r : R := Hightom_t_r env s
  18500 * (t_r + 0.01) ^ 2 * env.exp (-tauf * (t_r + 0.01))

/-- The value assigned to `Hightom.DrumSynth`. -/
def Hightom_DrumSynth (env : Env R) (s : Synth R) : R :=
  let t_r : R := Hightom_t_r env s
  let fc : R := 200 * s.Hightom.freqShift
  let fm : R := 400 * s.Hightom.freqShift
  let I_0 : R := 1.5 + ((s.type * 2 : Int) : R)
  Hightom_A_t env s *
    env.sin (2 * env.PI * fc * t_r + I_0 * Hightom_I_t env s * env.sin (2 * env.PI * fm * t_r))

/-- The body of `if(keys[j].midiNote == 63){ ... }`. -/
def hightomBranch (env : Env R) (j : Fin 6) (s : Synth R) : Synth R :=
  if (s.keys j).midiNote = 63 then
    let s1 : Synth R :=
      { s with
        Hightom := { s.Hightom with A_t := Hightom_A_t env s },
        SubTom := { s.SubTom with A_t := SubTom_A_t env s } }
    -- if((Hightom.counter)<=19200)
    let s2 : Synth R :=
      if s1.Hightom.counter ≤ 19200 then
        { s1 with
          tempAudio4 := 0.005 * SubTom_DrumSynth env (Hightom_t_r env s) s + Hightom_DrumSynth env s,
          Hightom := { s1.Hightom with counter := s1.Hightom.counter + 1 },
          SubTom := { s1.SubTom with counter := s1.SubTom.counter + 1 } }
      else s1
    -- if(Hightom.counter == 19201 && keys[j].playing == false)
    let s3 : Synth R :=
      if s2.Hightom.counter = 19201 ∧ (s2.keys j).playing = false then
        { s2 with tempAudio4 := 0, keys := Function.update s2.keys j (s2.keys j).reset }
      else s2
    -- if(Hightom.counter == 19201 && keys[j].playing == true)
    if s3.Hightom.counter = 19201 ∧ (s3.keys j).playing = true then
      { s3 with
        Hightom := { s3.Hightom with counter := 0 },
        SubTom := { s3.SubTom with counter := 0 } }
    else s3
  else s

/-! ## processaudio_callback: the Hi-hat branch -/

/-- The value `Hihat.t_r`. -/
def Hihat_t_r (env : Env R) (s : Synth R) : R :=
  (s.Hihat.counter : R) / env.AUDIO_SAMPLE_RATE

/-- The value of `Hihat.A_t` after the three envelope statements. -/
def Hihat_A_t (env : Env R) (s : Synth R) : R :=
  let A : R := 1
  let r : R := 0.3
  let t_r : R := Hihat_t_r env s
  let TimePeak : R := 0.00122
  let tau : R := 0.045
  let a0 : R := s.Hihat.A_t
  let a1 : R := if t_r ≤ TimePeak then 819.672 * t_r else a0
  let a2 : R := if t_r > TimePeak ∧ t_r ≤ r then A * env.exp (-(t_r - TimePeak) / tau) else a1
  if t_r > r then 0 else a2

/-- The value `Hihat.I_t = exp(-Hihat.t_r/0.2)`. -/
def Hihat_I_t (env : Env R) (s : Synth R) : R :=
  env.exp (-Hihat_t_r env s / 0.2)

/-- The value assigned to `Hihat.DrumSynth`. -/
def Hihat_DrumSynth (env : Env R) (s : Synth R) : R :=
  let t_r : R := Hihat_t_r env s
  let fc : R := 350
  let fm : R := 2 * fc
  let I_0 : R := 20
  Hihat_A_t env s *
    env.sin (2 * env.PI * fc * t_r + I_0 * Hihat_I_t env s * env.sin (2 * env.PI * fm * t_r))

/-- The value `Hihat.dither = Hihat.A_t*(rand()%2-1)*0.2`. -/
def Hihat_dither (env : Env R) (s : Synth R) : R :=
  Hihat_A_t env s * ((randFactor env s : Int) : R) * 0.2

/-- The body of `if(keys[j].midiNote == 64){ ... }`. -/
def hihatBranch (env : Env R) (j : Fin 6) (s : Synth R) : Synth R :=
  if (s.keys j).midiNote = 64 then
    let s1 : Synth R :=
      { s with
        Hihat := { s.Hihat with A_t := Hihat_A_t env s },
        randCalls := s.randCalls + 1 }
    -- if((Hihat.counter)<=14400)
    let s2 : Synth R :=
      if s1.Hihat.counter ≤ 14400 then
        { s1 with
          tempAudio5 := 0.15 * Hihat_DrumSynth env s + Hihat_dither env s,
          Hihat := { s1.Hihat with counter := s1.Hihat.counter + 1 } }
      else s1
    -- if(Hihat.counter == 14401 && keys[j].playing == false)
    let s3 : Synth R :=
      if s2.Hihat.counter = 14401 ∧ (s2.keys j).playing = false then
        { s2 with tempAudio5 := 0, keys := Function.update s2.keys j (s2.keys j).reset }
      else s2
    -- if(Hihat.counter == 14401 && keys[j].playing == true)
    if s3.Hihat.counter = 14401 ∧ (s3.keys j).playing = true then
      { s3 with Hihat := { s3.Hihat with counter := 0 } }
    else s3
  else s

/-! ## processaudio_callback: slot scan, sample loop, block -/

/-- The statements that write `audiochannel_0_left_out[i]` and
`audiochannel_0_right_out[i]`; they stand inside the `j` loop. -/
def writeOut (s : Synth R) : Synth R :=
  { s with
    left_out := 2 * s.tempAudio + 2 * s.tempAudio2 + s.tempAudio3 + s.tempAudio4 + s.tempAudio5,
    right_out := 2 * s.tempAudio + 2 * s.tempAudio2 + s.tempAudio3 + s.tempAudio4 + s.tempAudio5 }

/-- The body of `for(int j=0; j<=5; j++){ ... }` for one `j`: the five drum
branches in source order, then the output statements. -/
def slotBody (env : Env R) (j : Fin 6) (s : Synth R) : Synth R :=
  writeOut (hihatBranch env j (hightomBranch env j (midtomBranch env j
    (snareBranch env j (kickBranch env j s)))))

/-- The loop `for(int j=0; j<=5; j++)`, from index `j` on. -/
def slotScanFrom (env : Env R) : Nat → Nat → Synth R → Synth R
  | 0, _, s => s
  | fuel + 1, j, s =>
    if h : j ≤ 5 then
      slotScanFrom env fuel (j + 1) (slotBody env ⟨j, by omega⟩ s)
    else
      s

/-- The statements `tempAudio = 0; ... tempAudio5 = 0;` that open the body of
the sample loop. -/
def zeroAccumulators (s : Synth R) : Synth R :=
  { s with tempAudio := 0, tempAudio2 := 0, tempAudio3 := 0, tempAudio4 := 0, tempAudio5 := 0 }

/-- The body of `for (int i = 0; i < AUDIO_BLOCK_SIZE; i++)` for one `i`: the
five accumulators are zeroed, then the slots are scanned. -/
def processSample (env : Env R) (s : Synth R) : Synth R :=
  slotScanFrom env 6 0 (zeroAccumulators s)

/-- The four `freqShift` assignments that open `processaudio_callback`. -/
def readPots (s : Synth R) : Synth R :=
  { s with
    Kickdrum := { s.Kickdrum with freqShift := s.multicore_data.audioproj_fin_pot_hadc0 + 1 },
    Snaredrum := { s.Snaredrum with freqShift := s.multicore_data.audioproj_fin_pot_hadc1 + 1 },
    Midtom := { s.Midtom with freqShift := s.multicore_data.audioproj_fin_pot_hadc2 + 1 },
    Hightom := { s.Hightom with freqShift := s.multicore_data.audioproj_fin_pot_hadc2 + 1 } }

/-- The sample loop of `processaudio_callback` for `n` remaining samples:
the state after the block and the samples written to the two output buffers. -/
def sampleLoop (env : Env R) : Nat → Synth R → Synth R × List (R × R)
  | 0, s => (s, [])
  | n + 1, s =>
    let s1 := processSample env s
    let rest := sampleLoop env n s1
    (rest.1, (s1.left_out, s1.right_out) :: rest.2)

/-- The function `processaudio_callback` for a block of `AUDIO_BLOCK_SIZE`
samples. -/
def processaudio_callback (env : Env R) (AUDIO_BLOCK_SIZE : Nat) (s : Synth R) :
    Synth R × List (R × R) :=
  sampleLoop env AUDIO_BLOCK_SIZE (readPots s)

/-! ## processaudio_background_loop -/

/-- The loop `for(int i=0; i<=5; i++){ keys[i].reset(); tempAudio = 0; ... }`
of the fourth switch, from index `i` on. -/
def panicFrom : Nat → Nat → Synth R → Synth R
  | 0, _, s => s
  | fuel + 1, i, s =>
    if h : i ≤ 5 then
      panicFrom fuel (i + 1)
        { s with
          keys := Function.update s.keys ⟨i, by omega⟩ (s.keys ⟨i, by omega⟩).reset,
          tempAudio := 0, tempAudio2 := 0, tempAudio3 := 0, tempAudio4 := 0, tempAudio5 := 0 }
    else
      s

/-- The function `processaudio_background_loop`; `%` on `int` truncates. -/
def processaudio_background_loop (s : Synth R) : Synth R :=
  let s1 : Synth R :=
    if s.multicore_data.audioproj_fin_sw_1_core1_pressed = true then
      { s with
        multicore_data := { s.multicore_data with audioproj_fin_sw_1_core1_pressed := false },
        type := Int.tmod (s.type + 1) 4 }
    else s
  let s2 : Synth R :=
    if s1.multicore_data.audioproj_fin_sw_2_core1_pressed = true then
      { s1 with
        multicore_data := { s1.multicore_data with audioproj_fin_sw_2_core1_pressed := false },
        type2 := Int.tmod (s1.type2 + 1) 4 }
    else s1
  let s3 : Synth R :=
    if s2.multicore_data.audioproj_fin_sw_3_core1_pressed = true then
      { s2 with
        multicore_data := { s2.multicore_data with audioproj_fin_sw_3_core1_pressed := false },
        type3 := Int.tmod (s2.type3 + 1) 4 }
    else s2
  if s3.multicore_data.audioproj_fin_sw_4_core1_pressed = true then
    panicFrom 6 0
      { s3 with
        multicore_data := { s3.multicore_data with audioproj_fin_sw_4_core1_pressed := false } }
  else s3

end Audio

/-! ## The whole program -/

/-- The program state: the decoder's static locals and the audio globals
(the array `keys` is shared by the two units). -/
structure Machine (R : Type) where
  rx : MidiRx
  synth : Synth R

/-- What can happen next: a MIDI byte arrives, one sample of the block loop is
processed, a block starts (the potentiometers are read), the background loop
runs, or the other core rewrites `multicore_data`. -/
inductive Event (R : Type) where
  | midi (val : Byte)
  | sample
  | block
  | background
  | shared (m : Multicore R)

section Program

variable {R : Type} [LinearOrderedField R]

/-- The state after `processaudio_setup`, before any byte or sample. -/
def Machine.init : Machine R :=
  { rx := MidiRx.init, synth := processaudio_setup Synth.zero }

/-- One byte fed to the decoder of the whole program. -/
def Machine.feed (val : Byte) (m : Machine R) : Machine R :=
  let r := midi_rx_callback_sharc1 val (m.rx, m.synth.keys)
  { rx := r.1, synth := { m.synth with keys := r.2 } }

/-- The effect of one event. -/
def Machine.step (env : Env R) (m : Machine R) : Event R → Machine R
  | Event.midi val => m.feed val
  | Event.sample => { m with synth := processSample env m.synth }
  | Event.block => { m with synth := readPots m.synth }
  | Event.background => { m with synth := processaudio_background_loop m.synth }
  | Event.shared d => { m with synth := { m.synth with multicore_data := d } }

/-- The effect of a sequence of events, first event first. -/
def Machine.run (env : Env R) (m : Machine R) (evs : List (Event R)) : Machine R :=
  evs.foldl (Machine.step env) m

/-- The states the program can be in. -/
def Reachable (env : Env R) (m : Machine R) : Prop :=
  ∃ evs : List (Event R), Machine.run env Machine.init evs = m

end Program

/-! ## Drum types

The note number and the counter threshold of each of the five branches of
`processaudio_callback`, as tables. -/

/-- The five drum types. -/
inductive DrumId where
  | kick
  | snare
  | midtom
  | hightom
  | hihat
deriving DecidableEq, Repr

/-- The note number a branch compares `keys[j].midiNote` with. -/
def DrumId.note : DrumId → Int
  | .kick => 60
  | .snare => 61
  | .midtom => 62
  | .hightom => 63
  | .hihat => 64

/-- The constant `N` of the test `counter <= N` of a branch; the boundary
tests compare with `N + 1`. -/
def DrumId.limit : DrumId → Nat
  | .kick => 14400
  | .snare => 12000
  | .midtom => 19200
  | .hightom => 19200
  | .hihat => 14400

/-- The fundamental counter of a drum type, `Kickdrum.counter` etc. -/
def Synth.counter {R : Type} (s : Synth R) : DrumId → Nat
  | .kick => s.Kickdrum.counter
  | .snare => s.Snaredrum.counter
  | .midtom => s.Midtom.counter
  | .hightom => s.Hightom.counter
  | .hihat => s.Hihat.counter

/-! ## Inputs and runs named in the statements -/

/-- The pool after `processaudio_setup`: every cell reset. -/
def resetKeys : Keys := fun _ => { midiNote := 0, playing := false }

/-- The byte stream of a sequence of NoteOn messages `(note, velocity)`. -/
def noteOnBytes : List (Byte × Byte) → List Byte
  | [] => []
  | p :: rest => 0x90 :: p.1 :: p.2 :: noteOnBytes rest

/-- The events of a sequence of received bytes. -/
def midiBytes {R : Type} (bytes : List Byte) : List (Event R) :=
  bytes.map Event.midi

/-- The state after `k` further samples with no other event in between. -/
def Machine.samples {R : Type} [LinearOrderedField R] (env : Env R) (k : Nat)
    (m : Machine R) : Machine R :=
  Machine.run env m (List.replicate k Event.sample)

/-- No sample of the event sequence `evs`, run from the state `m`, is
processed while a cell holds the note of drum `d`. -/
def Machine.Unsounded {R : Type} [LinearOrderedField R] (env : Env R) (d : DrumId) :
    Machine R → List (Event R) → Prop
  | _, [] => True
  | m, Event.sample :: rest =>
    (∀ j : Fin 6, (m.synth.keys j).midiNote ≠ d.note) ∧
      Machine.Unsounded env d (Machine.step env m Event.sample) rest
  | m, e :: rest => Machine.Unsounded env d (Machine.step env m e) rest

/-! ## The control skeleton of the sample loop

The five drum branches of `processaudio_callback` share one shape. `Ctl` keeps
the part of the globals that decides the control flow (the cells of `keys` and
the seven counters) and `Ctl.branch` is that shared shape; the theorems
`ctl_kickBranch` ... `ctl_processSample` show that the embedded source acts on
this part exactly as the skeleton does. -/

/-- The cells of `keys` and the counters. -/
structure Ctl where
  keys : Keys
  kick : Nat
  snare : Nat
  midtom : Nat
  hightom : Nat
  hihat : Nat
  subKick : Nat
  subTom : Nat

/-- The fundamental counter of a drum type. -/
def Ctl.cnt (c : Ctl) : DrumId → Nat
  | .kick => c.kick
  | .snare => c.snare
  | .midtom => c.midtom
  | .hightom => c.hightom
  | .hihat => c.hihat

/-- The `counter++` statements of a branch. -/
def Ctl.bump (d : DrumId) (c : Ctl) : Ctl :=
  match d with
  | .kick => { c with kick := c.kick + 1, subKick := c.subKick + 1 }
  | .snare => { c with snare := c.snare + 1 }
  | .midtom => { c with midtom := c.midtom + 1, subTom := c.subTom + 1 }
  | .hightom => { c with hightom := c.hightom + 1, subTom := c.subTom + 1 }
  | .hihat => { c with hihat := c.hihat + 1 }

/-- The `counter = 0` statements of a branch (key still held at the boundary). -/
def Ctl.restart (d : DrumId) (c : Ctl) : Ctl :=
  match d with
  | .kick => { c with kick := 0, subKick := 0 }
  | .snare => { c with snare := 0 }
  | .midtom => { c with midtom := 0, subTom := 0 }
  | .hightom => { c with hightom := 0, subTom := 0 }
  | .hihat => { c with hihat := 0 }

/-- The statement `if(counter <= N){ ...; counter++; }` of a branch. -/
def Ctl.count (d : DrumId) (c : Ctl) : Ctl :=
  if c.cnt d ≤ d.limit then c.bump d else c

/-- The statement `if(counter == N+1 && keys[j].playing == false){ ...; keys[j].reset(); }`. -/
def Ctl.release (d : DrumId) (j : Fin 6) (c : Ctl) : Ctl :=
  if c.cnt d = d.limit + 1 ∧ (c.keys j).playing = false then
    { c with keys := Function.update c.keys j (c.keys j).reset }
  else c

/-- The statement `if(counter == N+1 && keys[j].playing == true){ counter = 0; ... }`. -/
def Ctl.retrigger (d : DrumId) (j : Fin 6) (c : Ctl) : Ctl :=
  if c.cnt d = d.limit + 1 ∧ (c.keys j).playing = true then c.restart d else c

/-- The shape shared by the five branches `if(keys[j].midiNote == note){...}`. -/
def Ctl.branch (d : DrumId) (j : Fin 6) (c : Ctl) : Ctl :=
  if (c.keys j).midiNote = d.note then
    Ctl.retrigger d j (Ctl.release d j (Ctl.count d c))
  else c

/-- The five branches for one `j`, in source order. -/
def Ctl.slot (j : Fin 6) (c : Ctl) : Ctl :=
  Ctl.branch .hihat j (Ctl.branch .hightom j (Ctl.branch .midtom j
    (Ctl.branch .snare j (Ctl.branch .kick j c))))

/-- The loop over `j`, from index `j` on. -/
def Ctl.scanFrom : Nat → Nat → Ctl → Ctl
  | 0, _, c => c
  | fuel + 1, j, c =>
    if h : j ≤ 5 then Ctl.scanFrom fuel (j + 1) (Ctl.slot ⟨j, by omega⟩ c) else c

/-- One sample. -/
def Ctl.sample (c : Ctl) : Ctl := Ctl.scanFrom 6 0 c

/-- The control part of the audio globals. -/
def Synth.ctl {R : Type} (s : Synth R) : Ctl :=
  { keys := s.keys, kick := s.Kickdrum.counter, snare := s.Snaredrum.counter,
    midtom := s.Midtom.counter, hightom := s.Hightom.counter, hihat := s.Hihat.counter,
    subKick := s.SubKick.counter, subTom := s.SubTom.counter }

/-- The counter after a branch that runs: incremented while it is at most
`limit`, and back to 0 when it then stands at `limit + 1` with the key held. -/
def nextCount (limit n : Nat) (playing : Bool) : Nat :=
  if n < limit then n + 1
  else if n = limit ∨ n = limit + 1 then (if playing = true then 0 else limit + 1)
  else n

/-- The cell after a branch that runs: reset when the counter then stands at
`limit + 1` with the key released. -/
def nextKey (limit n : Nat) (k : Keyboard) : Keyboard :=
  if (n = limit ∨ n = limit + 1) ∧ k.playing = false then k.reset else k

/-- Scan invariant for a drum `d` whose note only cell `i` may hold: the cell
`i` is `K`, the counter of `d` is `N`, and no other cell holds the note. -/
def Ctl.Sole (d : DrumId) (i : Fin 6) (K : Keyboard) (N : Nat) (c : Ctl) : Prop :=
  c.keys i = K ∧ c.cnt d = N ∧ ∀ j : Fin 6, j ≠ i → (c.keys j).midiNote ≠ d.note

/-! ## Invariants used in the proofs -/

/-- The decoder is in the status phase with both flags clear. -/
def MidiRx.Idle (rx : MidiRx) : Prop :=
  rx.midi_state = 0 ∧ rx.midi_note_start = false ∧ rx.midi_note_stop = false

/-- Decoder invariant: in the status phase both flags are clear, in the note
and velocity phases at most one of them is set, and there is no other phase. -/
def MidiRx.Inv (rx : MidiRx) : Prop :=
  rx.Idle ∨ ((rx.midi_state = 1 ∨ rx.midi_state = 2) ∧
    ¬ (rx.midi_note_start = true ∧ rx.midi_note_stop = true))

/-- After `k` NoteOn messages into the reset pool: slots `0..k-1` sound. -/
def Filled (k : Nat) (keys : Keys) : Prop :=
  (∀ j : Fin 6, j.val < 5 → ((keys j).playing = true ↔ j.val < k)) ∧ (keys 5).playing = false

/-! ## Sample data used to instantiate the theorems -/

/-- A pool used to instantiate the decoder theorems: slot 0 sounds note 60,
the other cells are reset. -/
def sampleKeys : Keys := fun j =>
  if j = 0 then { midiNote := 60, playing := true } else { midiNote := 0, playing := false }

/-- An environment used to instantiate the theorems, which hold for every
environment: the functions are stand-ins, not those of the C library. -/
def sampleEnv : Env ℚ :=
  { AUDIO_SAMPLE_RATE := 48000, PI := 355 / 113, sin := fun x => x, exp := fun x => 1 + x,
    rand := fun n => n }

/-- The value both output statements compute from the five accumulators. -/
def Synth.mix {R : Type} [LinearOrderedField R] (s : Synth R) : R :=
  2 * s.tempAudio + 2 * s.tempAudio2 + s.tempAudio3 + s.tempAudio4 + s.tempAudio5

/-- The event is a received MIDI byte. -/
def Event.isMidi {R : Type} : Event R → Bool
  | Event.midi _ => true
  | _ => false

/-- A state used to instantiate the theorems of the background loop: the
fourth switch is pressed, every cell sounds note 60 and the accumulators hold
values. -/
def samplePanic : Synth ℚ :=
  { (Synth.zero : Synth ℚ) with
    keys := fun _ => { midiNote := 60, playing := true },
    tempAudio := 1, tempAudio2 := 2, tempAudio3 := 3, tempAudio4 := 4, tempAudio5 := 5,
    multicore_data :=
      { (Synth.zero : Synth ℚ).multicore_data with audioproj_fin_sw_4_core1_pressed := true } }

/-- The other core sets the first pressed flag and the background loop runs. -/
def press1 {R : Type} [LinearOrderedField R] (s : Synth R) : Synth R :=
  processaudio_background_loop
    { s with multicore_data :=
        { s.multicore_data with audioproj_fin_sw_1_core1_pressed := true } }

/-- The other core sets the second pressed flag and the background loop runs. -/
def press2 {R : Type} [LinearOrderedField R] (s : Synth R) : Synth R :=
  processaudio_background_loop
    { s with multicore_data :=
        { s.multicore_data with audioproj_fin_sw_2_core1_pressed := true } }

/-- The other core sets the third pressed flag and the background loop runs. -/
def press3 {R : Type} [LinearOrderedField R] (s : Synth R) : Synth R :=
  processaudio_background_loop
    { s with multicore_data :=
        { s.multicore_data with audioproj_fin_sw_3_core1_pressed := true } }

/-- A state used to instantiate the theorems of the background loop: the
first switch is pressed and `type` is 3. -/
def samplePress : Synth ℚ :=
  { (Synth.zero : Synth ℚ) with
    type := 3,
    multicore_data :=
      { (Synth.zero : Synth ℚ).multicore_data with audioproj_fin_sw_1_core1_pressed := true } }

/-- The three variant counters are in `{0, 1, 2, 3}`. -/
def Synth.VariantsInRange {R : Type} (s : Synth R) : Prop :=
  (0 ≤ s.type ∧ s.type < 4) ∧ (0 ≤ s.type2 ∧ s.type2 < 4) ∧ (0 ≤ s.type3 ∧ s.type3 < 4)

/-- A state used to instantiate the sample-loop theorems: one second into a
Kick episode at 48 kHz. -/
def sampleKickLate : Synth ℚ :=
  { (Synth.zero : Synth ℚ) with
    Kickdrum := { A_t := 0, counter := 48000, freqShift := 1 } }

/-! ## Indexing of `keys` as the audio unit defines it -/

/-- Indexing of the array as `callback_audio_processing.cpp` defines it,
`Keyboard keys[5]`: an index past the end designates no slot. -/
def slotIndex? (i : Nat) : Option (Fin 5) :=
  if h : i < 5 then some ⟨i, h⟩ else none

/-- The values of `i` for which a loop `for(i=0; i<=5; i++)` runs its body,
from `i` on: the loops of `processaudio_setup`, of the slot scan and of the
fourth switch. -/
def forIndicesFrom : Nat → Nat → List Nat
  | 0, _ => []
  | fuel + 1, i => if i ≤ 5 then i :: forIndicesFrom fuel (i + 1) else []

/-- The values of `idx` for which a scan `do { ...; idx++; } while(!found && idx<5)`
of the decoder runs its body when it finds no slot, from `idx` on. -/
def doWhileIndicesFrom : Nat → Nat → List Nat
  | 0, _ => []
  | fuel + 1, idx => idx :: (if idx + 1 < 5 then doWhileIndicesFrom fuel (idx + 1) else [])

/-- A state used to instantiate the indexing theorems: only the cell that
`keys[5]` designates holds a note. -/
def sampleCell5 : Synth ℚ :=
  { (Synth.zero : Synth ℚ) with
    keys := fun j => if j = 5 then { midiNote := 60, playing := true }
                     else { midiNote := 0, playing := false } }

/-! ## The amplitude envelopes as functions of the elapsed time

The three envelope statements of a branch (attack, decay, end of decay) have
one shape in the five branches. `envelope3` is that shape, with the value `a0`
that `A_t` holds before the statements and the elapsed time `t_r` as
arguments; `Kickdrum_envelope` ... `Hihat_envelope` are the five instances,
and the theorems `Kickdrum_A_t_eq` ... `Hihat_A_t_eq` show that the embedded
branches compute them at `t_r = counter/AUDIO_SAMPLE_RATE`. -/

/-- The statements
`if (t_r <= TimePeak) A_t = slope*t_r;`
`if ((t_r > TimePeak) && (t_r <= r)) A_t = A*exp(-(t_r-TimePeak)/tau);`
`if (t_r > r) A_t = 0;`. -/
def envelope3 {R : Type} [LinearOrderedField R] (slope A TimePeak tau r : R) (exp : R → R)
    (a0 t_r : R) : R :=
  let a1 : R := if t_r ≤ TimePeak then slope * t_r else a0
  let a2 : R := if t_r > TimePeak ∧ t_r ≤ r then A * exp (-(t_r - TimePeak) / tau) else a1
  if t_r > r then 0 else a2

/-- The Kick envelope. -/
def Kickdrum_envelope {R : Type} [LinearOrderedField R] (exp : R → R) (a0 t_r : R) : R :=
  envelope3 199.826 0.999 0.005 0.065 0.3 exp a0 t_r

/-- The Snare envelope. -/
def Snaredrum_envelope {R : Type} [LinearOrderedField R] (exp : R → R) (a0 t_r : R) : R :=
  envelope3 657.237 0.999 0.00152 0.04 0.25 exp a0 t_r

/-- The Mid-tom envelope. -/
def Midtom_envelope {R : Type} [LinearOrderedField R] (exp : R → R) (a0 t_r : R) : R :=
  envelope3 155.607 0.999 0.00642 0.1 0.4 exp a0 t_r

/-- The High-tom envelope. -/
def Hightom_envelope {R : Type} [LinearOrderedField R] (exp : R → R) (a0 t_r : R) : R :=
  envelope3 69.375 0.999 0.0144 0.1 0.4 exp a0 t_r

/-- The Hi-hat envelope. -/
def Hihat_envelope {R : Type} [LinearOrderedField R] (exp : R → R) (a0 t_r : R) : R :=
  envelope3 819.672 1 0.00122 0.045 0.3 exp a0 t_r

/-- Exactly one of the three envelope conditions `t <= TimePeak`,
`t > TimePeak && t <= r` and `t > r` holds at the time `t`. -/
def ExactlyOneBranch {R : Type} [LinearOrderedField R] (TimePeak r t : R) : Prop :=
  (t ≤ TimePeak ∧ ¬ (t > TimePeak ∧ t ≤ r) ∧ ¬ t > r) ∨
  (¬ t ≤ TimePeak ∧ (t > TimePeak ∧ t ≤ r) ∧ ¬ t > r) ∨
  (¬ t ≤ TimePeak ∧ ¬ (t > TimePeak ∧ t ≤ r) ∧ t > r)

/-! ## What the branch of one drum type reads and writes

Accessors that name, for each drum type, the globals its branch of
`processaudio_callback` uses: its accumulator, its `freqShift`, its variant
counter, the counter of its transient layer, and the position in the `rand()`
sequence for the two branches that call `rand()`. -/

/-- The branch of a drum type, `if(keys[j].midiNote == note){ ... }`. -/
def branchOf {R : Type} [LinearOrderedField R] (d : DrumId) (env : Env R) (j : Fin 6)
    (s : Synth R) : Synth R :=
  match d with
  | .kick => kickBranch env j s
  | .snare => snareBranch env j s
  | .midtom => midtomBranch env j s
  | .hightom => hightomBranch env j s
  | .hihat => hihatBranch env j s

/-- The accumulator of a drum type: `tempAudio` ... `tempAudio5`. -/
def Synth.acc {R : Type} (s : Synth R) : DrumId → R
  | .kick => s.tempAudio
  | .snare => s.tempAudio2
  | .midtom => s.tempAudio3
  | .hightom => s.tempAudio4
  | .hihat => s.tempAudio5

/-- The `freqShift` a branch reads (the Hi-hat branch reads none). -/
def Synth.shift {R : Type} [LinearOrderedField R] (s : Synth R) : DrumId → R
  | .kick => s.Kickdrum.freqShift
  | .snare => s.Snaredrum.freqShift
  | .midtom => s.Midtom.freqShift
  | .hightom => s.Hightom.freqShift
  | .hihat => 0

/-- The variant counter a branch reads: `type3` (Kick), `type2` (Snare),
`type` (both Toms), none (Hi-hat). -/
def Synth.variant {R : Type} (s : Synth R) : DrumId → Int
  | .kick => s.type3
  | .snare => s.type2
  | .midtom => s.type
  | .hightom => s.type
  | .hihat => 0

/-- The counter of the transient layer of a drum type: `SubKick.counter`
(Kick), `SubTom.counter` (both Toms), none otherwise. -/
def Synth.subCounter {R : Type} (s : Synth R) : DrumId → Nat
  | .kick => s.SubKick.counter
  | .snare => 0
  | .midtom => s.SubTom.counter
  | .hightom => s.SubTom.counter
  | .hihat => 0

/-- The number of calls of `rand()` made so far, for the two branches that
call it. -/
def Synth.randPos {R : Type} (s : Synth R) : DrumId → Nat
  | .kick => 0
  | .snare => s.randCalls
  | .midtom => 0
  | .hightom => 0
  | .hihat => s.randCalls

/-- The value a branch assigns to its accumulator while its counter is within
the threshold. -/
def Synth.value {R : Type} [LinearOrderedField R] (env : Env R) (s : Synth R) : DrumId → R
  | .kick => 0.001 * SubKick_DrumSynth env s + Kickdrum_DrumSynth env s
  | .snare => Snaredrum_DrumSynth env s + Snaredrum_dither env s
  | .midtom => 0.005 * SubTom_DrumSynth env (Midtom_t_r env s) s + Midtom_DrumSynth env s
  | .hightom => 0.005 * SubTom_DrumSynth env (Hightom_t_r env s) s + Hightom_DrumSynth env s
  | .hihat => 0.15 * Hihat_DrumSynth env s + Hihat_dither env s

/-- Two drum types share state that one of them writes: the two Toms share
`SubTom.counter`, Snare and Hi-hat share the `rand()` sequence. -/
def DrumId.shares : DrumId → DrumId → Bool
  | .midtom, .hightom => true
  | .hightom, .midtom => true
  | .snare, .hihat => true
  | .hihat, .snare => true
  | _, _ => false

/-- What a cell shows to the branch of drum `d`: whether it holds the note of
`d` and, if so, its `playing` flag. -/
def cellOf (d : DrumId) (k : Keyboard) : Option Bool :=
  if k.midiNote = d.note then some k.playing else none

/-- The transient-layer counter of a drum type in the control skeleton. -/
def Ctl.sub (c : Ctl) : DrumId → Nat
  | .kick => c.subKick
  | .snare => 0
  | .midtom => c.subTom
  | .hightom => c.subTom
  | .hihat => 0

/-- The accumulator after a branch that runs, from the counter `n` and flag
`p` it found, the value `v` it computes and the accumulator `a` before: `v`
while the counter is within the threshold, 0 when the key is found released
at the boundary, else unchanged. -/
def accNext {R : Type} [LinearOrderedField R] (L n : Nat) (p : Bool) (v a : R) : R :=
  if n ≤ L then (if n = L ∧ p = false then 0 else v)
  else (if n = L + 1 ∧ p = false then 0 else a)

/-- Two states agree on what the branch of drum type `d` reads: its counter,
the counter of its transient layer, its `freqShift`, its variant counter, the
position in the `rand()` sequence (Snare and Hi-hat) and, for every cell,
whether it holds the note of `d` and with which `playing` flag. The stored
`A_t` is not part of it: the branch overwrites it before use. -/
def Synth.AgreeOn {R : Type} [LinearOrderedField R] (d : DrumId) (s1 s2 : Synth R) : Prop :=
  s1.counter d = s2.counter d ∧ s1.subCounter d = s2.subCounter d ∧
  s1.shift d = s2.shift d ∧ s1.variant d = s2.variant d ∧ s1.randPos d = s2.randPos d ∧
  ∀ j : Fin 6, cellOf d (s1.keys j) = cellOf d (s2.keys j)

/-- No cell holds the note of a drum type that shares state with `d`. -/
def Synth.NoSharer {R : Type} (d : DrumId) (s : Synth R) : Prop :=
  ∀ (j : Fin 6) (e : DrumId), d.shares e = true → (s.keys j).midiNote ≠ e.note

/-- A state used to instantiate the non-interference statements: slot 0 holds
the High-tom note 63 and slot 1 the Mid-tom note 62, both keys held, all
counters 0. -/
def sampleTwoToms : Synth ℚ :=
  { (Synth.zero : Synth ℚ) with
    keys := fun j =>
      if j = 0 then { midiNote := 63, playing := true }
      else if j = 1 then { midiNote := 62, playing := true }
      else { midiNote := 0, playing := false } }

/-- The state `sampleTwoToms` without the High-tom note: slot 1 holds the
Mid-tom note 62 with the key held, all counters 0. -/
def sampleMidtomAlone : Synth ℚ :=
  { (Synth.zero : Synth ℚ) with
    keys := fun j =>
      if j = 1 then { midiNote := 62, playing := true }
      else { midiNote := 0, playing := false } }

/-- The state `sampleMidtomAlone` with the Kick note 60 held in slot 0. -/
def sampleKickAndMidtom : Synth ℚ :=
  { (Synth.zero : Synth ℚ) with
    keys := fun j =>
      if j = 0 then { midiNote := 60, playing := true }
      else if j = 1 then { midiNote := 62, playing := true }
      else { midiNote := 0, playing := false } }

/-- A state used to instantiate the dither statements: 48 samples into a Snare
episode and 48 samples into a Hi-hat episode (1 ms at 48 kHz). -/
def sampleNoise : Synth ℚ :=
  { (Synth.zero : Synth ℚ) with
    Snaredrum := { A_t := 0, counter := 48, freqShift := 1 },
    Hihat := { A_t := 0, counter := 48, freqShift := 0 } }

/-- A state used to instantiate the sample-loop statements: slots 0 and 3 hold
notes outside `60..64`, the other cells are reset, and the accumulators and
output cells hold values left by earlier samples. -/
def sampleOtherNotes : Synth ℚ :=
  { (Synth.zero : Synth ℚ) with
    keys := fun j =>
      if j = 0 then { midiNote := 59, playing := true }
      else if j = 3 then { midiNote := 65, playing := false }
      else { midiNote := 0, playing := false },
    Kickdrum := { A_t := 0, counter := 14401, freqShift := 1 },
    SubKick := { A_t := 0, counter := 14401, freqShift := 0 },
    tempAudio := 1, left_out := 2, right_out := 2 }

/-- 1 when the cell holds the note of drum type `d`, else 0. -/
def holdsNote (d : DrumId) (k : Keyboard) : Nat :=
  if k.midiNote = d.note then 1 else 0

/-- The number of slots `0..4` that hold the note of drum type `d`. -/
def slotsHolding (d : DrumId) (keys : Keys) : Nat :=
  holdsNote d (keys 0) + holdsNote d (keys 1) + holdsNote d (keys 2) + holdsNote d (keys 3)
    + holdsNote d (keys 4)

/-- A state used to instantiate the sample-loop statements: slots 0, 2 and 4
hold note 60, with different `playing` flags, slot 1 holds note 61, and the
Kick counter is 10. -/
def sampleThreeKicks : Synth ℚ :=
  { (Synth.zero : Synth ℚ) with
    keys := fun j =>
      if j = 0 then { midiNote := 60, playing := true }
      else if j = 1 then { midiNote := 61, playing := true }
      else if j = 2 then { midiNote := 60, playing := false }
      else if j = 4 then { midiNote := 60, playing := true }
      else { midiNote := 0, playing := false },
    Kickdrum := { A_t := 0, counter := 10, freqShift := 1 },
    SubKick := { A_t := 0, counter := 10, freqShift := 0 } }

/-- A Kick episode has ended with the key released and the pool is ready for a
new Kick note: the decoder is in the status phase with both flags clear, the
Kick counter and the SubKick counter stand at 14401, no cell holds note 60,
every `midiNote` is an `int`, and slot `i` is the first of the slots `0..4`
with `playing = false`. -/
def Machine.KickParked {R : Type} (i : Fin 6) (m : Machine R) : Prop :=
  m.rx.Idle ∧ m.synth.Kickdrum.counter = 14401 ∧ m.synth.SubKick.counter = 14401 ∧
  (∀ j : Fin 6, (m.synth.keys j).midiNote ≠ 60) ∧
  (∀ j : Fin 6, IsInt32 (m.synth.keys j).midiNote) ∧
  i.val < 5 ∧ (m.synth.keys i).playing = false ∧
  ∀ j : Fin 6, j < i → (m.synth.keys j).playing = true

/-- A machine state used to instantiate the statements about a parked Kick
counter: the decoder is idle, slot 0 sounds note 59, slot 3 holds the released
note 65, and the Kick and SubKick counters stand at 14401. -/
def sampleParked : Machine ℚ :=
  { rx := MidiRx.init, synth := sampleOtherNotes }

/-- The cells and counters while both Toms are held from the initial state:
slot 0 sounds note 62, slot 1 sounds note 63, both Tom counters are `n` and
`SubTom.counter`, which both branches increment, is `2 * n`. -/
def twoTomsCtl (n : Nat) : Ctl :=
  { keys := fun j =>
      if j = 0 then { midiNote := 62, playing := true }
      else if j = 1 then { midiNote := 63, playing := true }
      else { midiNote := 0, playing := false },
    kick := 0, snare := 0, midtom := n, hightom := n, hihat := 0, subKick := 0,
    subTom := 2 * n }

/-- The burst of a transient layer,
`A_t*sin(2*PI*fc*t_r + I_0*I_t*sin(2*PI*fm*t_r))` with `fc = 200`, `fm = 350`,
`I_0 = 5` and `I_t = A_t`, at the amplitude `A` and the elapsed time `t`. -/
def transientBurst {R : Type} [LinearOrderedField R] (env : Env R) (A t : R) : R :=
  A * env.sin (2 * env.PI * 200 * t + 5 * A * env.sin (2 * env.PI * 350 * t))

/-- A transient layer is gated by its own elapsed time, which is its own
counter `counter_sub` divided by the sample rate: the gate, which tests the
elapsed time `t_fund` of the fundamental against the decay window 0.03, is
open exactly when the own elapsed time is at most 0.03; the amplitude `A_sub`
is `1 - t_sub/0.03` and is not negative while the own elapsed time is at most
0.03; and the transient term `term` is the burst at the own elapsed time while
that is at most 0.03 and is 0 otherwise. -/
def OwnTimeGate {R : Type} [LinearOrderedField R] (env : Env R) (t_fund : R)
    (counter_sub : Nat) (A_sub term : R) : Prop :=
  (t_fund ≤ 0.03 ↔ (counter_sub : R) / env.AUDIO_SAMPLE_RATE ≤ 0.03) ∧
  A_sub = 1 - (counter_sub : R) / env.AUDIO_SAMPLE_RATE / 0.03 ∧
  ((counter_sub : R) / env.AUDIO_SAMPLE_RATE ≤ 0.03 → 0 ≤ A_sub) ∧
  term = if (counter_sub : R) / env.AUDIO_SAMPLE_RATE ≤ 0.03 then
      transientBurst env A_sub ((counter_sub : R) / env.AUDIO_SAMPLE_RATE)
    else 0

/-! # Properties -/

/-! ## The decoder and the voice pool -/

theorem toInt32_byte (n : Byte) : toInt32 n.val = (n.val : Int) := by
  have h := n.isLt
  unfold toInt32
  have h1 : n.val % 4294967296 = n.val := Nat.mod_eq_of_lt (by omega)
  rw [h1]; simp; omega

theorem toUInt32_eq_byte (x : Int) (hx : IsInt32 x) (n : Byte) :
    toUInt32 x = n.val % 4294967296 ↔ x = (n.val : Int) := by
  have h := n.isLt
  unfold IsInt32 at hx
  unfold toUInt32
  have h1 : n.val % 4294967296 = n.val := Nat.mod_eq_of_lt (by omega)
  rw [h1]
  constructor
  · intro e; omega
  · intro e; subst e; omega

/-- Extra fuel does not change the allocation scan. -/
theorem noteOnLoop_fuel (n : Nat) (keys : Keys) :
    ∀ (fuel idx : Nat) (h : idx < 5), 5 - idx ≤ fuel →
      noteOnLoop n (fuel + 1) keys idx h = noteOnLoop n fuel keys idx h := by
  intro fuel
  induction fuel with
  | zero => intro idx h hf; omega
  | succ f ih =>
    intro idx h hf
    rw [noteOnLoop, noteOnLoop]
    split
    · rfl
    · split
      · rename_i h1
        exact ih (idx + 1) h1 (by omega)
      · rfl

theorem noteOffLoop_fuel (n : Nat) (keys : Keys) :
    ∀ (fuel idx : Nat) (h : idx < 5), 5 - idx ≤ fuel →
      noteOffLoop n (fuel + 1) keys idx h = noteOffLoop n fuel keys idx h := by
  intro fuel
  induction fuel with
  | zero => intro idx h hf; omega
  | succ f ih =>
    intro idx h hf
    rw [noteOffLoop, noteOffLoop]
    split
    · rfl
    · split
      · rename_i h1
        exact ih (idx + 1) h1 (by omega)
      · rfl

theorem noteOffLoop_found (n : Nat) (keys : Keys) (i : Nat) (hi : i < 5)
    (hm : (keys ⟨i, by omega⟩).playing = true ∧
      toUInt32 (keys ⟨i, by omega⟩).midiNote = n % 4294967296) :
    ∀ (fuel idx : Nat) (h : idx < 5), idx ≤ i → i < idx + fuel →
      (∀ j : Fin 6, idx ≤ j.val → j.val < i →
        ¬ ((keys j).playing = true ∧ toUInt32 (keys j).midiNote = n % 4294967296)) →
      noteOffLoop n fuel keys idx h
        = Function.update keys ⟨i, by omega⟩
            { midiNote := (keys ⟨i, by omega⟩).midiNote, playing := false } := by
  intro fuel
  induction fuel with
  | zero => intro idx h h1 h2; omega
  | succ f ih =>
    intro idx h h1 h2 hb
    rw [noteOffLoop]
    by_cases hidx : idx = i
    · subst hidx
      rw [if_pos hm]
    · have hlt : idx < i := by omega
      have hp := hb ⟨idx, by omega⟩ (le_refl _) hlt
      have h1' : idx + 1 < 5 := by omega
      rw [if_neg hp, dif_pos h1']
      exact ih (idx + 1) h1' (by omega) (by omega) (fun j hj1 hj2 => hb j (by omega) hj2)

theorem noteOffLoop_none (n : Nat) (keys : Keys) :
    ∀ (fuel idx : Nat) (h : idx < 5),
      (∀ j : Fin 6, idx ≤ j.val → j.val < 5 →
        ¬ ((keys j).playing = true ∧ toUInt32 (keys j).midiNote = n % 4294967296)) →
      noteOffLoop n fuel keys idx h = keys := by
  intro fuel
  induction fuel with
  | zero => intro idx h _; rfl
  | succ f ih =>
    intro idx h hb
    rw [noteOffLoop]
    have hp := hb ⟨idx, by omega⟩ (le_refl _) h
    rw [if_neg hp]
    split
    · exact ih _ _ (fun j hj1 hj2 => hb j (by omega) hj2)
    · rfl

theorem noteOnLoop_found (n : Nat) (keys : Keys) (i : Nat) (hi : i < 5)
    (hfree : (keys ⟨i, by omega⟩).playing = false) :
    ∀ (fuel idx : Nat) (h : idx < 5), idx ≤ i → i < idx + fuel →
      (∀ j : Fin 6, idx ≤ j.val → j.val < i → (keys j).playing = true) →
      noteOnLoop n fuel keys idx h
        = Function.update keys ⟨i, by omega⟩ { midiNote := toInt32 n, playing := true } := by
  intro fuel
  induction fuel with
  | zero => intro idx h h1 h2; omega
  | succ f ih =>
    intro idx h h1 h2 hb
    unfold noteOnLoop
    by_cases hidx : idx = i
    · subst hidx
      simp [hfree]
    · have hlt : idx < i := by omega
      have hp := hb ⟨idx, by omega⟩ (le_refl _) hlt
      have h1' : idx + 1 < 5 := by omega
      simp only [hp, h1', dite_true]
      simp only [Bool.true_eq_false, if_false]
      exact ih (idx + 1) h1' (by omega) (by omega) (fun j hj1 hj2 => hb j (by omega) hj2)

theorem noteOnLoop_full (n : Nat) (keys : Keys) :
    ∀ (fuel idx : Nat) (h : idx < 5),
      (∀ j : Fin 6, idx ≤ j.val → j.val < 5 → (keys j).playing = true) →
      noteOnLoop n fuel keys idx h = keys := by
  intro fuel
  induction fuel with
  | zero => intro idx h _; rfl
  | succ f ih =>
    intro idx h hb
    unfold noteOnLoop
    have hp := hb ⟨idx, by omega⟩ (le_refl _) h
    simp only [hp, Bool.true_eq_false, if_false]
    split
    · exact ih _ _ (fun j hj1 hj2 => hb j (by omega) hj2)
    · rfl

/-- A NoteOn frame fed in the status phase with both flags clear. -/
theorem feedBytes_noteOn (rx : MidiRx) (keys : Keys) (n v : Byte)
    (hs : rx.midi_state = 0) (h1 : rx.midi_note_start = false)
    (h2 : rx.midi_note_stop = false) :
    feedBytes [0x90, n, v] (rx, keys)
      = ({ rx with midi_note := n.val, midi_vol := v.val },
          noteOnLoop n.val 5 keys 0 (by omega)) := by
  cases rx with
  | mk st a b c d =>
    simp only at hs h1 h2
    subst hs h1 h2
    simp [feedBytes, midi_rx_callback_sharc1]

theorem feedBytes_noteOff (rx : MidiRx) (keys : Keys) (n v : Byte)
    (hs : rx.midi_state = 0) (h1 : rx.midi_note_start = false)
    (h2 : rx.midi_note_stop = false) :
    feedBytes [0x80, n, v] (rx, keys)
      = ({ rx with midi_note := n.val, midi_vol := v.val },
          noteOffLoop n.val 5 keys 0 (by omega)) := by
  cases rx with
  | mk st a b c d =>
    simp only at hs h1 h2
    subst hs h1 h2
    simp [feedBytes, midi_rx_callback_sharc1]

theorem feedBytes_other (rx : MidiRx) (keys : Keys) (s a b : Byte)
    (hs : rx.midi_state = 0) (h1 : rx.midi_note_start = false)
    (h2 : rx.midi_note_stop = false) (hs1 : s ≠ 0x80) (hs2 : s ≠ 0x90) :
    feedBytes [s, a, b] (rx, keys)
      = ({ rx with midi_note := a.val, midi_vol := b.val }, keys) := by
  cases rx with
  | mk st x y c d =>
    simp only at hs h1 h2
    subst hs h1 h2
    simp [feedBytes, midi_rx_callback_sharc1, hs1, hs2]


/-- C1. NoteOn allocation is first-fit: the bytes `[0x90, n, v]`, fed in the
status phase with both flags clear, make the lowest-indexed slot among `0..4`
with `playing = false` hold `playing = true` and `midiNote = n`, and leave
every other cell as it was. -/
theorem C1_noteOn_first_fit (rx : MidiRx) (keys : Keys) (n v : Byte) (i : Fin 6)
    (hs : rx.midi_state = 0) (hstart : rx.midi_note_start = false)
    (hstop : rx.midi_note_stop = false)
    (hi : i.val < 5) (hfree : (keys i).playing = false)
    (hlow : ∀ j : Fin 6, j < i → (keys j).playing = true) :
    ((feedBytes [0x90, n, v] (rx, keys)).2 i).playing = true ∧
    ((feedBytes [0x90, n, v] (rx, keys)).2 i).midiNote = (n.val : Int) ∧
    ∀ j : Fin 6, j ≠ i → (feedBytes [0x90, n, v] (rx, keys)).2 j = keys j := by
  rw [feedBytes_noteOn rx keys n v hs hstart hstop]
  have hf := noteOnLoop_found n.val keys i.val hi hfree 5 0 (by omega) (by omega) (by omega)
    (fun j _ hj => hlow j hj)
  simp only [Fin.eta] at hf
  simp only [hf, Function.update_same, toInt32_byte, true_and]
  intro j hj
  exact Function.update_noteq hj _ _

theorem C1_noteOn_first_fit_witness :
    ((feedBytes [0x90, 61, 100] (MidiRx.init, sampleKeys)).2 1).playing = true ∧
    ((feedBytes [0x90, 61, 100] (MidiRx.init, sampleKeys)).2 1).midiNote = 61 ∧
    ∀ j : Fin 6, j ≠ 1 → (feedBytes [0x90, 61, 100] (MidiRx.init, sampleKeys)).2 j = sampleKeys j :=
  C1_noteOn_first_fit MidiRx.init sampleKeys 61 100 1 rfl rfl rfl (by decide) (by decide)
    (by decide)

/-- C2. NoteOff release: the bytes `[0x80, n, v]`, fed in the status phase with
both flags clear, clear `playing` on the lowest-indexed slot among `0..4` that
has `playing = true` and `midiNote = n` and leave every other cell as it was;
if no slot is active with that note the pool is unchanged. -/
theorem C2_noteOff_release (rx : MidiRx) (keys : Keys) (n v : Byte)
    (hs : rx.midi_state = 0) (hstart : rx.midi_note_start = false)
    (hstop : rx.midi_note_stop = false)
    (hwf : ∀ j : Fin 6, IsInt32 (keys j).midiNote) :
    (∀ i : Fin 6, i.val < 5 → (keys i).playing = true → (keys i).midiNote = (n.val : Int) →
      (∀ j : Fin 6, j < i → ¬ ((keys j).playing = true ∧ (keys j).midiNote = (n.val : Int))) →
      ((feedBytes [0x80, n, v] (rx, keys)).2 i).playing = false ∧
      ((feedBytes [0x80, n, v] (rx, keys)).2 i).midiNote = (keys i).midiNote ∧
      ∀ j : Fin 6, j ≠ i → (feedBytes [0x80, n, v] (rx, keys)).2 j = keys j) ∧
    ((∀ i : Fin 6, i.val < 5 →
        ¬ ((keys i).playing = true ∧ (keys i).midiNote = (n.val : Int))) →
      (feedBytes [0x80, n, v] (rx, keys)).2 = keys) := by
  rw [feedBytes_noteOff rx keys n v hs hstart hstop]
  constructor
  · intro i hi hp hn hlow
    have hf := noteOffLoop_found n.val keys i.val hi
      ⟨hp, (toUInt32_eq_byte _ (hwf i) n).2 hn⟩ 5 0 (by omega) (by omega) (by omega)
      (fun j _ hj hc => hlow j hj ⟨hc.1, (toUInt32_eq_byte _ (hwf j) n).1 hc.2⟩)
    simp only [Fin.eta] at hf
    simp only [hf, Function.update_same, true_and]
    intro j hj
    exact Function.update_noteq hj _ _
  · intro hnone
    exact noteOffLoop_none n.val keys 5 0 (by omega)
      (fun j _ hj hc => hnone j hj ⟨hc.1, (toUInt32_eq_byte _ (hwf j) n).1 hc.2⟩)

theorem C2_noteOff_release_witness :
    ((feedBytes [0x80, 60, 0] (MidiRx.init, sampleKeys)).2 0).playing = false ∧
    ((feedBytes [0x80, 60, 0] (MidiRx.init, sampleKeys)).2 0).midiNote = 60 ∧
    ∀ j : Fin 6, j ≠ 0 → (feedBytes [0x80, 60, 0] (MidiRx.init, sampleKeys)).2 j = sampleKeys j :=
  (C2_noteOff_release MidiRx.init sampleKeys 60 0 rfl rfl rfl (by decide)).1 0
    (by decide) (by decide) (by decide) (by decide)

theorem feedBytes_append (l1 l2 : List Byte) (st : MidiRx × Keys) :
    feedBytes (l1 ++ l2) st = feedBytes l2 (feedBytes l1 st) := by
  simp [feedBytes, List.foldl_append]

theorem filled_noteOn (k n : Nat) (keys : Keys) (h : Filled k keys) :
    Filled (k + 1) (noteOnLoop n 5 keys 0 (by omega)) := by
  by_cases hk : k < 5
  · have hfree : (keys ⟨k, by omega⟩).playing = false := by
      have := (h.1 ⟨k, by omega⟩ hk)
      simp at this
      simpa using this
    rw [noteOnLoop_found n keys k hk hfree 5 0 (by omega) (by omega) (by omega)
      (fun j _ hj => (h.1 j (by omega)).2 hj)]
    constructor
    · intro j hj
      by_cases hjk : j = ⟨k, by omega⟩
      · rw [hjk, Function.update_same]; simp
      · rw [Function.update_noteq hjk]
        have hne : j.val ≠ k := fun e => hjk (Fin.ext e)
        rw [h.1 j hj]; omega
    · rw [Function.update_noteq (by intro e; have := congrArg Fin.val e; simp at this; omega)]
      exact h.2
  · rw [noteOnLoop_full n keys 5 0 (by omega) (fun j _ hj => (h.1 j hj).2 (by omega))]
    exact ⟨fun j hj => by rw [h.1 j hj]; omega, h.2⟩

theorem filled_noteOnBytes (msgs : List (Byte × Byte)) :
    ∀ (k : Nat) (st : MidiRx × Keys), st.1.Idle → Filled k st.2 →
      (feedBytes (noteOnBytes msgs) st).1.Idle ∧
      Filled (k + msgs.length) (feedBytes (noteOnBytes msgs) st).2 := by
  induction msgs with
  | nil => intro k st h1 h2; exact ⟨h1, h2⟩
  | cons p rest ih =>
    intro k st h1 h2
    have e : noteOnBytes (p :: rest) = [0x90, p.1, p.2] ++ noteOnBytes rest := rfl
    rw [e, feedBytes_append]
    obtain ⟨rx, keys⟩ := st
    rw [feedBytes_noteOn rx keys p.1 p.2 h1.1 h1.2.1 h1.2.2]
    have := ih (k + 1) ({ rx with midi_note := p.1.val, midi_vol := p.2.val },
      noteOnLoop p.1.val 5 keys 0 (by omega)) ⟨h1.1, h1.2.1, h1.2.2⟩
      (filled_noteOn k _ keys h2)
    simp only [List.length_cons]
    rw [show k + (rest.length + 1) = k + 1 + rest.length by omega]
    exact this

theorem filled_zero : Filled 0 resetKeys := by
  constructor
  · intro j _; simp [resetKeys]
  · rfl

theorem filled_card (k : Nat) (keys : Keys) (h : Filled k keys) :
    (Finset.univ.filter (fun j : Fin 6 => (keys j).playing = true)).card ≤ 5 := by
  have hsub : Finset.univ.filter (fun j : Fin 6 => (keys j).playing = true)
      ⊆ Finset.univ.erase (5 : Fin 6) := by
    intro j hj
    simp only [Finset.mem_filter, Finset.mem_univ, true_and] at hj
    simp only [Finset.mem_erase, Finset.mem_univ, and_true]
    intro e; subst e
    rw [h.2] at hj; exact absurd hj (by decide)
  calc _ ≤ (Finset.univ.erase (5 : Fin 6)).card := Finset.card_le_card hsub
    _ = 5 := by decide

/-- C3. Pool exhaustion is a no-op: with all five slots `0..4` active a NoteOn
frame leaves every cell unchanged; hence after any sequence of NoteOn
messages into the reset pool at most five cells are active, and once five
messages have been taken every further NoteOn changes nothing. -/
theorem C3_noteOn_full_pool :
    (∀ (rx : MidiRx) (keys : Keys) (n v : Byte), rx.midi_state = 0 →
      rx.midi_note_start = false → rx.midi_note_stop = false →
      (∀ j : Fin 6, j.val < 5 → (keys j).playing = true) →
      (feedBytes [0x90, n, v] (rx, keys)).2 = keys) ∧
    (∀ msgs : List (Byte × Byte),
      (Finset.univ.filter (fun j : Fin 6 =>
        ((feedBytes (noteOnBytes msgs) (MidiRx.init, resetKeys)).2 j).playing = true)).card ≤ 5) ∧
    (∀ (msgs : List (Byte × Byte)) (n v : Byte), 5 ≤ msgs.length →
      (∀ j : Fin 6, j.val < 5 →
        ((feedBytes (noteOnBytes msgs) (MidiRx.init, resetKeys)).2 j).playing = true) ∧
      (feedBytes (noteOnBytes (msgs ++ [(n, v)])) (MidiRx.init, resetKeys)).2
        = (feedBytes (noteOnBytes msgs) (MidiRx.init, resetKeys)).2) := by
  have full : ∀ (rx : MidiRx) (keys : Keys) (n v : Byte), rx.midi_state = 0 →
      rx.midi_note_start = false → rx.midi_note_stop = false →
      (∀ j : Fin 6, j.val < 5 → (keys j).playing = true) →
      (feedBytes [0x90, n, v] (rx, keys)).2 = keys := by
    intro rx keys n v hs h1 h2 hall
    rw [feedBytes_noteOn rx keys n v hs h1 h2]
    exact noteOnLoop_full n.val keys 5 0 (by omega) (fun j _ hj => hall j hj)
  refine ⟨full, ?_, ?_⟩
  · intro msgs
    have h := filled_noteOnBytes msgs 0 (MidiRx.init, resetKeys) ⟨rfl, rfl, rfl⟩ filled_zero
    exact filled_card _ _ h.2
  · intro msgs n v hlen
    have h := filled_noteOnBytes msgs 0 (MidiRx.init, resetKeys) ⟨rfl, rfl, rfl⟩ filled_zero
    have hall : ∀ j : Fin 6, j.val < 5 →
        ((feedBytes (noteOnBytes msgs) (MidiRx.init, resetKeys)).2 j).playing = true :=
      fun j hj => (h.2.1 j hj).2 (by omega)
    refine ⟨hall, ?_⟩
    have e : ∀ l : List (Byte × Byte), noteOnBytes (l ++ [(n, v)]) = noteOnBytes l ++ [0x90, n, v] := by
      intro l
      induction l with
      | nil => rfl
      | cons p rest ih => simp [noteOnBytes, ih]
    rw [e, feedBytes_append]
    exact full _ _ n v h.1.1 h.1.2.1 h.1.2.2 hall

theorem C3_noteOn_full_pool_witness :
    (feedBytes [0x90, 64, 100]
      (MidiRx.init, fun _ => { midiNote := 60, playing := true })).2
      = fun _ => { midiNote := 60, playing := true } :=
  C3_noteOn_full_pool.1 MidiRx.init (fun _ => { midiNote := 60, playing := true }) 64 100
    rfl rfl rfl (by decide)

/-- C5. Frame alignment: after any `n` bytes fed from the initial decoder
state the phase `midi_state` is `n mod 3`, whatever the bytes are. -/
theorem C5_frame_alignment (bytes : List Byte) (keys : Keys) :
    (feedBytes bytes (MidiRx.init, keys)).1.midi_state = bytes.length % 3 := by
  have gen : ∀ (l : List Byte) (st : MidiRx × Keys), st.1.midi_state < 3 →
      (feedBytes l st).1.midi_state = (st.1.midi_state + l.length) % 3 := by
    intro l
    induction l with
    | nil => intro st h; simp [feedBytes]; omega
    | cons b rest ih =>
      intro st h
      have e : feedBytes (b :: rest) st = feedBytes rest (midi_rx_callback_sharc1 b st) := rfl
      rw [e]
      have hstep : (midi_rx_callback_sharc1 b st).1.midi_state = (st.1.midi_state + 1) % 3 := by
        unfold midi_rx_callback_sharc1
        have : st.1.midi_state = 0 ∨ st.1.midi_state = 1 ∨ st.1.midi_state = 2 := by omega
        rcases this with h0 | h0 | h0
        · rw [if_pos h0]; simp only [h0]
        · rw [if_neg (by omega), if_pos h0]; simp only [h0]
        · rw [if_neg (by omega), if_neg (by omega), if_pos h0]
          dsimp only
          split_ifs <;> simp only [h0]
      rw [ih _ (by rw [hstep]; omega), hstep, List.length_cons]
      omega
  have := gen bytes (MidiRx.init, keys) (by simp [MidiRx.init])
  simpa [MidiRx.init] using this

section
variable {R : Type} [LinearOrderedField R]

theorem run_append (env : Env R) (m : Machine R) (l1 l2 : List (Event R)) :
    Machine.run env m (l1 ++ l2) = Machine.run env (Machine.run env m l1) l2 := by
  simp [Machine.run, List.foldl_append]

theorem run_cons (env : Env R) (m : Machine R) (e : Event R) (l : List (Event R)) :
    Machine.run env m (e :: l) = Machine.run env (Machine.step env m e) l := rfl

theorem run_nil (env : Env R) (m : Machine R) : Machine.run env m [] = m := rfl

/-- An invariant of every event holds in every reachable state. -/
theorem reachable_induction (env : Env R) (P : Machine R → Prop) (h0 : P Machine.init)
    (hstep : ∀ (m : Machine R) (e : Event R), P m → P (Machine.step env m e))
    (m : Machine R) (hr : Reachable env m) : P m := by
  obtain ⟨evs, rfl⟩ := hr
  have gen : ∀ (l : List (Event R)) (m0 : Machine R), P m0 → P (Machine.run env m0 l) := by
    intro l
    induction l with
    | nil => intro m0 h; exact h
    | cons e rest ih => intro m0 h; exact ih _ (hstep m0 e h)
  exact gen evs _ h0

theorem callback_rx_inv (val : Byte) (st : MidiRx × Keys) (h : st.1.Inv) :
    (midi_rx_callback_sharc1 val st).1.Inv := by
  obtain ⟨⟨ms, a, b, c, d⟩, keys⟩ := st
  unfold MidiRx.Inv MidiRx.Idle at h ⊢
  unfold midi_rx_callback_sharc1
  simp only at h ⊢
  rcases h with ⟨h0, ha, hb⟩ | ⟨h12, hab⟩
  · subst h0 ha hb
    simp only [if_true]
    split_ifs <;> simp_all
  · rcases h12 with h1 | h2
    · subst h1
      simp_all
    · subst h2
      cases a <;> cases b <;> simp_all

theorem reachable_rx_inv (env : Env R) (m : Machine R) (hr : Reachable env m) : m.rx.Inv := by
  refine reachable_induction env (fun m => m.rx.Inv) ?_ ?_ m hr
  · exact Or.inl ⟨rfl, rfl, rfl⟩
  · intro m e h
    cases e with
    | midi val => exact callback_rx_inv val (m.rx, m.synth.keys) h
    | sample => exact h
    | block => exact h
    | background => exact h
    | shared d => exact h

theorem run_midi3 (env : Env R) (m : Machine R) (s a b : Byte) :
    (Machine.run env m [Event.midi s, Event.midi a, Event.midi b]).rx
        = (feedBytes [s, a, b] (m.rx, m.synth.keys)).1 ∧
    (Machine.run env m [Event.midi s, Event.midi a, Event.midi b]).synth
        = { m.synth with keys := (feedBytes [s, a, b] (m.rx, m.synth.keys)).2 } := by
  constructor <;> rfl

/-- C4. Unrecognised status is discarded: in every reachable state that is in
the status phase, a frame `[s, a, b]` whose status byte is neither `0x80` nor
`0x90` leaves the voice pool unchanged and the decoder in the status phase. -/
theorem C4_unrecognised_status_discarded (env : Env R) (m : Machine R) (s a b : Byte)
    (hr : Reachable env m) (hs : m.rx.midi_state = 0) (h80 : s ≠ 0x80) (h90 : s ≠ 0x90) :
    (Machine.run env m [Event.midi s, Event.midi a, Event.midi b]).synth.keys = m.synth.keys ∧
    (Machine.run env m [Event.midi s, Event.midi a, Event.midi b]).rx.midi_state = 0 := by
  have hinv := reachable_rx_inv env m hr
  have hidle : m.rx.Idle := by
    rcases hinv with h | ⟨h, _⟩
    · exact h
    · omega
  have h3 := run_midi3 env m s a b
  rw [h3.1, h3.2, feedBytes_other m.rx m.synth.keys s a b hidle.1 hidle.2.1 hidle.2.2 h80 h90]
  exact ⟨rfl, hs⟩

end

theorem C4_unrecognised_status_discarded_witness :
    (Machine.run sampleEnv Machine.init
      [Event.midi 0xF0, Event.midi 10, Event.midi 20]).synth.keys
        = (Machine.init : Machine ℚ).synth.keys ∧
    (Machine.run sampleEnv Machine.init
      [Event.midi 0xF0, Event.midi 10, Event.midi 20]).rx.midi_state = 0 :=
  C4_unrecognised_status_discarded sampleEnv Machine.init 0xF0 10 20 ⟨[], rfl⟩ rfl
    (by decide) (by decide)

/-- C6 (as stated) fails: NoteOn then NoteOff of the same note does not return
the pool to its prior state. From the reset pool the allocated slot keeps
`midiNote = 60`; with slot 0 already sounding note 60 the pair releases slot 0
and leaves slot 1 sounding; with all five slots sounding note 60 the NoteOn is
dropped and the NoteOff releases slot 0. -/
theorem C6_roundtrip_counterexample :
    (feedBytes [0x90, 60, 100, 0x80, 60, 0] (MidiRx.init, resetKeys)).2 ≠ resetKeys ∧
    (feedBytes [0x90, 60, 100, 0x80, 60, 0] (MidiRx.init, sampleKeys)).2 ≠ sampleKeys ∧
    (feedBytes [0x90, 60, 100, 0x80, 60, 0]
      (MidiRx.init, fun _ => { midiNote := 60, playing := true })).2
        ≠ (fun _ => { midiNote := 60, playing := true }) := by
  refine ⟨?_, ?_, ?_⟩
  · intro h
    have := congrFun h 0
    revert this; decide
  · intro h
    have := congrFun h 0
    revert this; decide
  · intro h
    have := congrFun h 0
    revert this; decide

/-- C6 (amended). When some slot among `0..4` is free and no slot below the
lowest free one holds note `n`, NoteOn `[0x90, n, v]` followed by NoteOff
`[0x80, n, w]` returns every cell's `playing` flag to its prior value and
leaves every cell as it was except the lowest free slot, whose `midiNote` is
now `n`. -/
theorem C6_roundtrip_playing_restored (rx : MidiRx) (keys : Keys) (n v w : Byte) (i : Fin 6)
    (hs : rx.midi_state = 0) (hstart : rx.midi_note_start = false)
    (hstop : rx.midi_note_stop = false)
    (hwf : ∀ j : Fin 6, IsInt32 (keys j).midiNote)
    (hi : i.val < 5) (hfree : (keys i).playing = false)
    (hlow : ∀ j : Fin 6, j < i → (keys j).playing = true ∧ (keys j).midiNote ≠ (n.val : Int)) :
    (∀ j : Fin 6, ((feedBytes [0x90, n, v, 0x80, n, w] (rx, keys)).2 j).playing
        = (keys j).playing) ∧
    ((feedBytes [0x90, n, v, 0x80, n, w] (rx, keys)).2 i).midiNote = (n.val : Int) ∧
    ∀ j : Fin 6, j ≠ i → (feedBytes [0x90, n, v, 0x80, n, w] (rx, keys)).2 j = keys j := by
  have e : ([0x90, n, v, 0x80, n, w] : List Byte) = [0x90, n, v] ++ [0x80, n, w] := rfl
  rw [e, feedBytes_append, feedBytes_noteOn rx keys n v hs hstart hstop,
    feedBytes_noteOff { rx with midi_note := n.val, midi_vol := v.val } _ n w hs hstart hstop]
  have hon := noteOnLoop_found n.val keys i.val hi hfree 5 0 (by omega) (by omega) (by omega)
    (fun j _ hj => (hlow j hj).1)
  simp only [Fin.eta] at hon
  simp only [hon]
  have hoff := noteOffLoop_found n.val
    (Function.update keys i { midiNote := toInt32 n.val, playing := true }) i.val hi
    (by
      simp only [Fin.eta, Function.update_same, true_and, toInt32_byte]
      exact (toUInt32_eq_byte _ (by have := n.isLt; unfold IsInt32; omega) n).2 rfl)
    5 0 (by omega) (by omega) (by omega)
    (by
      intro j _ hj hc
      have hne : j ≠ i := fun e => by subst e; omega
      rw [Function.update_noteq hne] at hc
      exact (hlow j hj).2 ((toUInt32_eq_byte _ (hwf j) n).1 hc.2))
  simp only [Fin.eta, Function.update_same] at hoff
  simp only [hoff, Function.update_idem]
  refine ⟨?_, ?_, ?_⟩
  · intro j
    by_cases hj : j = i
    · rw [hj, Function.update_same, hfree]
    · rw [Function.update_noteq hj]
  · rw [Function.update_same]; exact toInt32_byte n
  · intro j hj
    exact Function.update_noteq hj _ _

theorem C6_roundtrip_playing_restored_witness :
    (∀ j : Fin 6, ((feedBytes [0x90, 61, 100, 0x80, 61, 0] (MidiRx.init, sampleKeys)).2 j).playing
        = (sampleKeys j).playing) ∧
    ((feedBytes [0x90, 61, 100, 0x80, 61, 0] (MidiRx.init, sampleKeys)).2 1).midiNote = 61 ∧
    ∀ j : Fin 6, j ≠ 1 →
      (feedBytes [0x90, 61, 100, 0x80, 61, 0] (MidiRx.init, sampleKeys)).2 j = sampleKeys j :=
  C6_roundtrip_playing_restored MidiRx.init sampleKeys 61 100 0 1 rfl rfl rfl (by decide)
    (by decide) (by decide) (by decide)

section
variable {R : Type} [LinearOrderedField R]

theorem ctl_kickBranch (env : Env R) (j : Fin 6) (s : Synth R) :
    (kickBranch env j s).ctl = Ctl.branch .kick j s.ctl := by
  unfold kickBranch Ctl.branch Ctl.retrigger Ctl.release Ctl.count
  simp only [Synth.ctl, Ctl.cnt, Ctl.bump, Ctl.restart, DrumId.note, DrumId.limit]
  split_ifs <;> rfl

theorem ctl_snareBranch (env : Env R) (j : Fin 6) (s : Synth R) :
    (snareBranch env j s).ctl = Ctl.branch .snare j s.ctl := by
  unfold snareBranch Ctl.branch Ctl.retrigger Ctl.release Ctl.count
  simp only [Synth.ctl, Ctl.cnt, Ctl.bump, Ctl.restart, DrumId.note, DrumId.limit]
  split_ifs <;> rfl

theorem ctl_midtomBranch (env : Env R) (j : Fin 6) (s : Synth R) :
    (midtomBranch env j s).ctl = Ctl.branch .midtom j s.ctl := by
  unfold midtomBranch Ctl.branch Ctl.retrigger Ctl.release Ctl.count
  simp only [Synth.ctl, Ctl.cnt, Ctl.bump, Ctl.restart, DrumId.note, DrumId.limit]
  split_ifs <;> rfl

theorem ctl_hightomBranch (env : Env R) (j : Fin 6) (s : Synth R) :
    (hightomBranch env j s).ctl = Ctl.branch .hightom j s.ctl := by
  unfold hightomBranch Ctl.branch Ctl.retrigger Ctl.release Ctl.count
  simp only [Synth.ctl, Ctl.cnt, Ctl.bump, Ctl.restart, DrumId.note, DrumId.limit]
  split_ifs <;> rfl

theorem ctl_hihatBranch (env : Env R) (j : Fin 6) (s : Synth R) :
    (hihatBranch env j s).ctl = Ctl.branch .hihat j s.ctl := by
  unfold hihatBranch Ctl.branch Ctl.retrigger Ctl.release Ctl.count
  simp only [Synth.ctl, Ctl.cnt, Ctl.bump, Ctl.restart, DrumId.note, DrumId.limit]
  split_ifs <;> rfl

theorem ctl_slotBody (env : Env R) (j : Fin 6) (s : Synth R) :
    (slotBody env j s).ctl = Ctl.slot j s.ctl := by
  unfold slotBody Ctl.slot
  rw [← ctl_kickBranch env, ← ctl_snareBranch env, ← ctl_midtomBranch env,
    ← ctl_hightomBranch env, ← ctl_hihatBranch env]
  rfl

theorem ctl_slotScanFrom (env : Env R) :
    ∀ (fuel j : Nat) (s : Synth R),
      (slotScanFrom env fuel j s).ctl = Ctl.scanFrom fuel j s.ctl := by
  intro fuel
  induction fuel with
  | zero => intro j s; rfl
  | succ f ih =>
    intro j s
    rw [slotScanFrom, Ctl.scanFrom]
    split
    · rw [ih, ctl_slotBody]
    · rfl

theorem ctl_processSample (env : Env R) (s : Synth R) :
    (processSample env s).ctl = Ctl.sample s.ctl := by
  unfold processSample Ctl.sample
  rw [ctl_slotScanFrom]
  rfl

end

/-! ## The control skeleton: frame and step lemmas -/

theorem DrumId.note_ne_zero (d : DrumId) : d.note ≠ 0 := by
  cases d <;> decide

theorem DrumId.note_injective (d e : DrumId) (h : d.note = e.note) : d = e := by
  cases d <;> cases e <;> first | rfl | (exfalso; revert h; decide)

theorem Ctl.keys_bump (d : DrumId) (c : Ctl) : (c.bump d).keys = c.keys := by
  cases d <;> rfl

theorem Ctl.keys_restart (d : DrumId) (c : Ctl) : (c.restart d).keys = c.keys := by
  cases d <;> rfl

theorem Ctl.cnt_bump_self (d : DrumId) (c : Ctl) : (c.bump d).cnt d = c.cnt d + 1 := by
  cases d <;> rfl

theorem Ctl.cnt_restart_self (d : DrumId) (c : Ctl) : (c.restart d).cnt d = 0 := by
  cases d <;> rfl

theorem Ctl.cnt_bump_other (d e : DrumId) (c : Ctl) (h : e ≠ d) : (c.bump d).cnt e = c.cnt e := by
  cases d <;> cases e <;> first | rfl | exact absurd rfl h

theorem Ctl.cnt_restart_other (d e : DrumId) (c : Ctl) (h : e ≠ d) :
    (c.restart d).cnt e = c.cnt e := by
  cases d <;> cases e <;> first | rfl | exact absurd rfl h

theorem Ctl.keys_count (d : DrumId) (c : Ctl) : (Ctl.count d c).keys = c.keys := by
  unfold Ctl.count; split
  · exact Ctl.keys_bump d c
  · rfl

theorem Ctl.cnt_count_self (d : DrumId) (c : Ctl) :
    (Ctl.count d c).cnt d = if c.cnt d ≤ d.limit then c.cnt d + 1 else c.cnt d := by
  unfold Ctl.count; split
  · exact Ctl.cnt_bump_self d c
  · rfl

theorem Ctl.cnt_count_other (d e : DrumId) (c : Ctl) (h : e ≠ d) :
    (Ctl.count d c).cnt e = c.cnt e := by
  unfold Ctl.count; split
  · exact Ctl.cnt_bump_other d e c h
  · rfl

theorem Ctl.cnt_release (d e : DrumId) (j : Fin 6) (c : Ctl) :
    (Ctl.release d j c).cnt e = c.cnt e := by
  unfold Ctl.release; split
  · cases e <;> rfl
  · rfl

theorem Ctl.keys_release (d : DrumId) (j : Fin 6) (c : Ctl) :
    (Ctl.release d j c).keys
      = if c.cnt d = d.limit + 1 ∧ (c.keys j).playing = false then
          Function.update c.keys j (c.keys j).reset
        else c.keys := by
  unfold Ctl.release; split <;> rfl

theorem Ctl.keys_retrigger (d : DrumId) (j : Fin 6) (c : Ctl) :
    (Ctl.retrigger d j c).keys = c.keys := by
  unfold Ctl.retrigger; split
  · exact Ctl.keys_restart d c
  · rfl

theorem Ctl.cnt_retrigger_self (d : DrumId) (j : Fin 6) (c : Ctl) :
    (Ctl.retrigger d j c).cnt d
      = if c.cnt d = d.limit + 1 ∧ (c.keys j).playing = true then 0 else c.cnt d := by
  unfold Ctl.retrigger; split
  · exact Ctl.cnt_restart_self d c
  · rfl

theorem Ctl.cnt_retrigger_other (d e : DrumId) (j : Fin 6) (c : Ctl) (h : e ≠ d) :
    (Ctl.retrigger d j c).cnt e = c.cnt e := by
  unfold Ctl.retrigger; split
  · exact Ctl.cnt_restart_other d e c h
  · rfl

/-- A branch whose note the cell does not hold does nothing. -/
theorem Ctl.branch_of_ne (d : DrumId) (j : Fin 6) (c : Ctl)
    (h : (c.keys j).midiNote ≠ d.note) : Ctl.branch d j c = c := by
  unfold Ctl.branch
  rw [if_neg h]

/-- The cells after a branch that runs. -/
theorem Ctl.branch_keys (d : DrumId) (j : Fin 6) (c : Ctl)
    (h : (c.keys j).midiNote = d.note) :
    (Ctl.branch d j c).keys = Function.update c.keys j (nextKey d.limit (c.cnt d) (c.keys j)) := by
  unfold Ctl.branch
  rw [if_pos h, Ctl.keys_retrigger, Ctl.keys_release, Ctl.cnt_count_self, Ctl.keys_count]
  unfold nextKey
  by_cases hle : c.cnt d ≤ d.limit
  · rw [if_pos hle]
    by_cases hb : c.cnt d + 1 = d.limit + 1 ∧ (c.keys j).playing = false
    · rw [if_pos hb, if_pos ⟨Or.inl (by omega), hb.2⟩]
    · rw [if_neg hb, if_neg (by intro hc; exact hb ⟨by omega, hc.2⟩), Function.update_eq_self]
  · rw [if_neg hle]
    by_cases hb : c.cnt d = d.limit + 1 ∧ (c.keys j).playing = false
    · rw [if_pos hb, if_pos ⟨Or.inr hb.1, hb.2⟩]
    · rw [if_neg hb, if_neg (by intro hc; exact hb ⟨by omega, hc.2⟩), Function.update_eq_self]

theorem nextCount_spec (L n : Nat) (p q : Bool)
    (hq : q = if (if n ≤ L then n + 1 else n) = L + 1 ∧ p = false then false else p) :
    (if (if n ≤ L then n + 1 else n) = L + 1 ∧ q = true then 0
      else if n ≤ L then n + 1 else n) = nextCount L n p := by
  subst hq
  unfold nextCount
  cases p
  · by_cases h1 : n ≤ L
    · by_cases h2 : n < L
      · have h3 : ¬ (n + 1 = L + 1) := by omega
        simp [h1, h2, h3]
      · have h3 : n = L := by omega
        subst h3; simp
    · by_cases h2 : n = L + 1
      · subst h2; simp
      · have h3 : ¬ n < L := by omega
        have h4 : ¬ n = L := by omega
        simp [h1, h2, h3, h4]
  · by_cases h1 : n ≤ L
    · by_cases h2 : n < L
      · have h3 : ¬ (n + 1 = L + 1) := by omega
        simp [h1, h2, h3]
      · have h3 : n = L := by omega
        subst h3; simp
    · by_cases h2 : n = L + 1
      · subst h2; simp
      · have h3 : ¬ n < L := by omega
        have h4 : ¬ n = L := by omega
        simp [h1, h2, h3, h4]

/-- The counter after a branch that runs. -/
theorem Ctl.branch_cnt_self (d : DrumId) (j : Fin 6) (c : Ctl)
    (h : (c.keys j).midiNote = d.note) :
    (Ctl.branch d j c).cnt d = nextCount d.limit (c.cnt d) (c.keys j).playing := by
  unfold Ctl.branch
  rw [if_pos h, Ctl.cnt_retrigger_self, Ctl.cnt_release, Ctl.keys_release, Ctl.cnt_count_self,
    Ctl.keys_count]
  apply nextCount_spec
  by_cases hb : (if c.cnt d ≤ d.limit then c.cnt d + 1 else c.cnt d) = d.limit + 1 ∧
      (c.keys j).playing = false
  · rw [if_pos hb, if_pos hb, Function.update_same]; rfl
  · rw [if_neg hb, if_neg hb]

/-- A branch never touches a cell other than `keys[j]`. -/
theorem Ctl.branch_keys_other (d : DrumId) (j i : Fin 6) (c : Ctl) (h : i ≠ j) :
    (Ctl.branch d j c).keys i = c.keys i := by
  by_cases hn : (c.keys j).midiNote = d.note
  · rw [Ctl.branch_keys d j c hn, Function.update_noteq h]
  · rw [Ctl.branch_of_ne d j c hn]

/-- A branch leaves `keys[j]` as it is or resets it. -/
theorem Ctl.branch_keys_self (d : DrumId) (j : Fin 6) (c : Ctl) :
    (Ctl.branch d j c).keys j = c.keys j ∨
      (Ctl.branch d j c).keys j = { midiNote := 0, playing := false } := by
  by_cases hn : (c.keys j).midiNote = d.note
  · rw [Ctl.branch_keys d j c hn, Function.update_same]
    unfold nextKey
    split
    · exact Or.inr rfl
    · exact Or.inl rfl
  · rw [Ctl.branch_of_ne d j c hn]; exact Or.inl rfl

/-- A branch changes no fundamental counter but its own. -/
theorem Ctl.branch_cnt_other (d e : DrumId) (j : Fin 6) (c : Ctl) (h : e ≠ d) :
    (Ctl.branch d j c).cnt e = c.cnt e := by
  unfold Ctl.branch
  split
  · rw [Ctl.cnt_retrigger_other d e j _ h, Ctl.cnt_release, Ctl.cnt_count_other d e c h]
  · rfl

/-- Once a branch has run, no later branch of the same `j` runs: the cell
holds the same note or has been reset. -/
theorem Ctl.branch_then_ne (d e : DrumId) (j : Fin 6) (c : Ctl)
    (h : (c.keys j).midiNote ≠ e.note) : ((Ctl.branch d j c).keys j).midiNote ≠ e.note := by
  rcases Ctl.branch_keys_self d j c with h1 | h1
  · rw [h1]; exact h
  · rw [h1]; exact fun hc => DrumId.note_ne_zero e hc.symm

/-- For a cell holding the note of drum `d` the five branches amount to the
branch of `d`. -/
theorem Ctl.slot_of_note (d : DrumId) (j : Fin 6) (c : Ctl)
    (h : (c.keys j).midiNote = d.note) : Ctl.slot j c = Ctl.branch d j c := by
  have hne : ∀ e : DrumId, e ≠ d → (c.keys j).midiNote ≠ e.note :=
    fun e he hc => he (DrumId.note_injective e d (hc.symm.trans h))
  have hafter : ∀ e : DrumId, e ≠ d → Ctl.branch e j (Ctl.branch d j c) = Ctl.branch d j c :=
    fun e he => Ctl.branch_of_ne e j _ (Ctl.branch_then_ne d e j c (hne e he))
  unfold Ctl.slot
  cases d
  · rw [hafter .snare (by decide), hafter .midtom (by decide), hafter .hightom (by decide),
      hafter .hihat (by decide)]
  · rw [Ctl.branch_of_ne .kick j c (hne _ (by decide)),
      hafter .midtom (by decide), hafter .hightom (by decide), hafter .hihat (by decide)]
  · rw [Ctl.branch_of_ne .kick j c (hne _ (by decide)),
      Ctl.branch_of_ne .snare j c (hne _ (by decide)),
      hafter .hightom (by decide), hafter .hihat (by decide)]
  · rw [Ctl.branch_of_ne .kick j c (hne _ (by decide)),
      Ctl.branch_of_ne .snare j c (hne _ (by decide)),
      Ctl.branch_of_ne .midtom j c (hne _ (by decide)), hafter .hihat (by decide)]
  · rw [Ctl.branch_of_ne .kick j c (hne _ (by decide)),
      Ctl.branch_of_ne .snare j c (hne _ (by decide)),
      Ctl.branch_of_ne .midtom j c (hne _ (by decide)),
      Ctl.branch_of_ne .hightom j c (hne _ (by decide))]

/-- For a cell holding no drum note the five branches do nothing. -/
theorem Ctl.slot_idle (j : Fin 6) (c : Ctl)
    (h : ∀ d : DrumId, (c.keys j).midiNote ≠ d.note) : Ctl.slot j c = c := by
  unfold Ctl.slot
  rw [Ctl.branch_of_ne .kick j c (h _), Ctl.branch_of_ne .snare j c (h _),
    Ctl.branch_of_ne .midtom j c (h _), Ctl.branch_of_ne .hightom j c (h _),
    Ctl.branch_of_ne .hihat j c (h _)]

/-- Every cell holds a drum note or none. -/
theorem DrumId.note_cases (x : Int) : (∃ d : DrumId, x = d.note) ∨ ∀ d : DrumId, x ≠ d.note := by
  by_cases h : ∃ d : DrumId, x = d.note
  · exact Or.inl h
  · exact Or.inr (fun d hd => h ⟨d, hd⟩)

/-- The slot step never touches a cell other than `keys[j]`. -/
theorem Ctl.slot_keys_other (j i : Fin 6) (c : Ctl) (h : i ≠ j) :
    (Ctl.slot j c).keys i = c.keys i := by
  rcases DrumId.note_cases (c.keys j).midiNote with ⟨d, hd⟩ | hn
  · rw [Ctl.slot_of_note d j c hd, Ctl.branch_keys_other d j i c h]
  · rw [Ctl.slot_idle j c hn]

/-- The slot step leaves `keys[j]` as it is or resets it. -/
theorem Ctl.slot_keys_self (j : Fin 6) (c : Ctl) :
    (Ctl.slot j c).keys j = c.keys j ∨
      (Ctl.slot j c).keys j = { midiNote := 0, playing := false } := by
  rcases DrumId.note_cases (c.keys j).midiNote with ⟨d, hd⟩ | hn
  · rw [Ctl.slot_of_note d j c hd]; exact Ctl.branch_keys_self d j c
  · rw [Ctl.slot_idle j c hn]; exact Or.inl rfl

/-- A cell that does not hold the note of `d` does not hold it after a slot
step either. -/
theorem Ctl.slot_note_ne (d : DrumId) (j i : Fin 6) (c : Ctl)
    (h : (c.keys i).midiNote ≠ d.note) : ((Ctl.slot j c).keys i).midiNote ≠ d.note := by
  by_cases hij : i = j
  · subst hij
    rcases Ctl.slot_keys_self i c with h1 | h1
    · rw [h1]; exact h
    · rw [h1]; exact fun hc => DrumId.note_ne_zero d hc.symm
  · rw [Ctl.slot_keys_other j i c hij]; exact h

/-- A slot step on a cell that does not hold the note of `d` leaves the
counter of `d`. -/
theorem Ctl.slot_cnt_of_ne (d : DrumId) (j : Fin 6) (c : Ctl)
    (h : (c.keys j).midiNote ≠ d.note) : (Ctl.slot j c).cnt d = c.cnt d := by
  rcases DrumId.note_cases (c.keys j).midiNote with ⟨e, he⟩ | hn
  · rw [Ctl.slot_of_note e j c he]
    exact Ctl.branch_cnt_other e d j c (fun hde => h (by rw [he, hde]))
  · rw [Ctl.slot_idle j c hn]

/-- The scan is the six slot steps in order. -/
theorem Ctl.sample_eq (c : Ctl) :
    Ctl.sample c = Ctl.slot 5 (Ctl.slot 4 (Ctl.slot 3 (Ctl.slot 2 (Ctl.slot 1 (Ctl.slot 0 c))))) :=
  rfl

/-! ## The control skeleton: one sample -/

/-- A sample in which no cell holds the note of `d` leaves the counter of `d`,
and still no cell holds the note afterwards. -/
theorem Ctl.scanFrom_absent (d : DrumId) :
    ∀ (fuel j : Nat) (c : Ctl), (∀ i : Fin 6, (c.keys i).midiNote ≠ d.note) →
      (Ctl.scanFrom fuel j c).cnt d = c.cnt d ∧
      ∀ i : Fin 6, ((Ctl.scanFrom fuel j c).keys i).midiNote ≠ d.note := by
  intro fuel
  induction fuel with
  | zero => intro j c h; exact ⟨rfl, h⟩
  | succ f ih =>
    intro j c h
    rw [Ctl.scanFrom]
    split
    · rename_i hj
      have h1 := ih (j + 1) (Ctl.slot ⟨j, by omega⟩ c)
        (fun i => Ctl.slot_note_ne d _ i c (h i))
      rw [Ctl.slot_cnt_of_ne d _ c (h _)] at h1
      exact h1
    · exact ⟨rfl, h⟩

theorem Ctl.sample_absent (d : DrumId) (c : Ctl)
    (h : ∀ i : Fin 6, (c.keys i).midiNote ≠ d.note) :
    (Ctl.sample c).cnt d = c.cnt d ∧ ∀ i : Fin 6, ((Ctl.sample c).keys i).midiNote ≠ d.note :=
  Ctl.scanFrom_absent d 6 0 c h

/-- A sample in which no cell holds any drum note changes nothing. -/
theorem Ctl.scanFrom_idle :
    ∀ (fuel j : Nat) (c : Ctl), (∀ (i : Fin 6) (d : DrumId), (c.keys i).midiNote ≠ d.note) →
      Ctl.scanFrom fuel j c = c := by
  intro fuel
  induction fuel with
  | zero => intro j c _; rfl
  | succ f ih =>
    intro j c h
    rw [Ctl.scanFrom]
    split
    · rw [Ctl.slot_idle _ c (h _)]
      exact ih (j + 1) c h
    · rfl

theorem Ctl.sole_slot_other (d : DrumId) (i j : Fin 6) (K : Keyboard) (N : Nat) (c : Ctl)
    (hj : j ≠ i) (h : Ctl.Sole d i K N c) : Ctl.Sole d i K N (Ctl.slot j c) := by
  obtain ⟨h1, h2, h3⟩ := h
  refine ⟨?_, ?_, ?_⟩
  · rw [Ctl.slot_keys_other j i c (Ne.symm hj)]; exact h1
  · rw [Ctl.slot_cnt_of_ne d j c (h3 j hj)]; exact h2
  · intro k hk
    exact Ctl.slot_note_ne d j k c (h3 k hk)

theorem Ctl.sole_slot_self (d : DrumId) (i : Fin 6) (K : Keyboard) (N : Nat) (c : Ctl)
    (hK : K.midiNote = d.note) (h : Ctl.Sole d i K N c) :
    Ctl.Sole d i (nextKey d.limit N K) (nextCount d.limit N K.playing) (Ctl.slot i c) := by
  obtain ⟨h1, h2, h3⟩ := h
  have hn : (c.keys i).midiNote = d.note := by rw [h1]; exact hK
  rw [Ctl.slot_of_note d i c hn]
  refine ⟨?_, ?_, ?_⟩
  · rw [Ctl.branch_keys d i c hn, Function.update_same, h1, h2]
  · rw [Ctl.branch_cnt_self d i c hn, h1, h2]
  · intro k hk
    rw [Ctl.branch_keys_other d i k c hk]
    exact h3 k hk

theorem Ctl.sole_scan_after (d : DrumId) (i : Fin 6) (K : Keyboard) (N : Nat) :
    ∀ (fuel j : Nat) (c : Ctl), i.val < j → Ctl.Sole d i K N c →
      Ctl.Sole d i K N (Ctl.scanFrom fuel j c) := by
  intro fuel
  induction fuel with
  | zero => intro j c _ h; exact h
  | succ f ih =>
    intro j c hj h
    rw [Ctl.scanFrom]
    split
    · exact ih (j + 1) _ (by omega)
        (Ctl.sole_slot_other d i _ K N c (fun e => by rw [← e] at hj; simp at hj) h)
    · exact h

theorem Ctl.sole_scan_through (d : DrumId) (i : Fin 6) (K : Keyboard) (N : Nat)
    (hK : K.midiNote = d.note) :
    ∀ (fuel j : Nat) (c : Ctl), j ≤ i.val → i.val < j + fuel → Ctl.Sole d i K N c →
      Ctl.Sole d i (nextKey d.limit N K) (nextCount d.limit N K.playing)
        (Ctl.scanFrom fuel j c) := by
  intro fuel
  induction fuel with
  | zero => intro j c h1 h2; omega
  | succ f ih =>
    intro j c h1 h2 h
    rw [Ctl.scanFrom]
    have hj5 : j ≤ 5 := by have := i.isLt; omega
    rw [dif_pos hj5]
    by_cases hji : j = i.val
    · have e : (⟨j, by omega⟩ : Fin 6) = i := Fin.ext hji
      rw [e]
      exact Ctl.sole_scan_after d i _ _ f (j + 1) _ (by omega)
        (Ctl.sole_slot_self d i K N c hK h)
    · exact ih (j + 1) _ (by omega) (by omega)
        (Ctl.sole_slot_other d i _ K N c (fun e => hji (by rw [← e])) h)

/-- One sample when exactly the cell `i` holds the note of `d`. -/
theorem Ctl.sample_sole (d : DrumId) (i : Fin 6) (c : Ctl)
    (hi : (c.keys i).midiNote = d.note)
    (ho : ∀ j : Fin 6, j ≠ i → (c.keys j).midiNote ≠ d.note) :
    (Ctl.sample c).keys i = nextKey d.limit (c.cnt d) (c.keys i) ∧
    (Ctl.sample c).cnt d = nextCount d.limit (c.cnt d) (c.keys i).playing ∧
    ∀ j : Fin 6, j ≠ i → ((Ctl.sample c).keys j).midiNote ≠ d.note :=
  Ctl.sole_scan_through d i (c.keys i) (c.cnt d) hi 6 0 c (by omega)
    (by have := i.isLt; omega) ⟨rfl, rfl, ho⟩

/-- The two Kick counters move together. -/
theorem Ctl.branch_subKick (d : DrumId) (j : Fin 6) (c : Ctl) (h : c.subKick = c.kick) :
    (Ctl.branch d j c).subKick = (Ctl.branch d j c).kick := by
  unfold Ctl.branch Ctl.retrigger Ctl.release Ctl.count
  cases d <;> simp only [Ctl.cnt, Ctl.bump, Ctl.restart] <;> split_ifs <;> simp [h]

theorem Ctl.slot_subKick (j : Fin 6) (c : Ctl) (h : c.subKick = c.kick) :
    (Ctl.slot j c).subKick = (Ctl.slot j c).kick := by
  unfold Ctl.slot
  exact Ctl.branch_subKick _ j _ (Ctl.branch_subKick _ j _ (Ctl.branch_subKick _ j _
    (Ctl.branch_subKick _ j _ (Ctl.branch_subKick _ j _ h))))

theorem Ctl.sample_subKick (c : Ctl) (h : c.subKick = c.kick) :
    (Ctl.sample c).subKick = (Ctl.sample c).kick := by
  rw [Ctl.sample_eq]
  exact Ctl.slot_subKick _ _ (Ctl.slot_subKick _ _ (Ctl.slot_subKick _ _
    (Ctl.slot_subKick _ _ (Ctl.slot_subKick _ _ (Ctl.slot_subKick _ _ h)))))

/-! ## The sample loop: counters, cells and accumulators -/

section
variable {R : Type} [LinearOrderedField R]

omit [LinearOrderedField R] in
theorem Synth.counter_eq_ctl (s : Synth R) (d : DrumId) : s.counter d = s.ctl.cnt d := by
  cases d <;> rfl

theorem processSample_keys (env : Env R) (s : Synth R) :
    (processSample env s).keys = (Ctl.sample s.ctl).keys :=
  congrArg Ctl.keys (ctl_processSample env s)

theorem processSample_counter (env : Env R) (s : Synth R) (d : DrumId) :
    (processSample env s).counter d = (Ctl.sample s.ctl).cnt d := by
  rw [Synth.counter_eq_ctl, ctl_processSample]

theorem slotBody_keys (env : Env R) (j : Fin 6) (s : Synth R) :
    (slotBody env j s).keys = (Ctl.slot j s.ctl).keys :=
  congrArg Ctl.keys (ctl_slotBody env j s)

theorem snareBranch_tempAudio (env : Env R) (j : Fin 6) (s : Synth R) :
    (snareBranch env j s).tempAudio = s.tempAudio := by
  unfold snareBranch
  dsimp only
  split_ifs <;> rfl

theorem midtomBranch_tempAudio (env : Env R) (j : Fin 6) (s : Synth R) :
    (midtomBranch env j s).tempAudio = s.tempAudio := by
  unfold midtomBranch
  dsimp only
  split_ifs <;> rfl

theorem hightomBranch_tempAudio (env : Env R) (j : Fin 6) (s : Synth R) :
    (hightomBranch env j s).tempAudio = s.tempAudio := by
  unfold hightomBranch
  dsimp only
  split_ifs <;> rfl

theorem hihatBranch_tempAudio (env : Env R) (j : Fin 6) (s : Synth R) :
    (hihatBranch env j s).tempAudio = s.tempAudio := by
  unfold hihatBranch
  dsimp only
  split_ifs <;> rfl

/-- The Kick accumulator after the slot step is the one the Kick branch left. -/
theorem slotBody_tempAudio (env : Env R) (j : Fin 6) (s : Synth R) :
    (slotBody env j s).tempAudio = (kickBranch env j s).tempAudio := by
  unfold slotBody writeOut
  simp only [hihatBranch_tempAudio, hightomBranch_tempAudio, midtomBranch_tempAudio,
    snareBranch_tempAudio]

theorem slotBody_tempAudio_of_ne (env : Env R) (j : Fin 6) (s : Synth R)
    (h : (s.keys j).midiNote ≠ 60) : (slotBody env j s).tempAudio = s.tempAudio := by
  rw [slotBody_tempAudio]
  unfold kickBranch
  rw [if_neg h]

/-- At the boundary with the key released the Kick accumulator is forced to 0. -/
theorem slotBody_tempAudio_release (env : Env R) (j : Fin 6) (s : Synth R)
    (hn : (s.keys j).midiNote = 60) (hp : (s.keys j).playing = false)
    (hc : s.Kickdrum.counter = 14400) : (slotBody env j s).tempAudio = 0 := by
  rw [slotBody_tempAudio]
  unfold kickBranch
  simp [hn, hp, hc, Keyboard.reset]

/-- While no cell holds note 60 the scan leaves the Kick accumulator. -/
theorem slotScanFrom_tempAudio (env : Env R) :
    ∀ (fuel j : Nat) (s : Synth R), (∀ i : Fin 6, (s.keys i).midiNote ≠ 60) →
      (slotScanFrom env fuel j s).tempAudio = s.tempAudio := by
  intro fuel
  induction fuel with
  | zero => intro j s _; rfl
  | succ f ih =>
    intro j s h
    rw [slotScanFrom]
    split
    · rw [ih (j + 1) _ (fun i => by
        rw [slotBody_keys]
        exact Ctl.slot_note_ne .kick _ i s.ctl (h i))]
      exact slotBody_tempAudio_of_ne env _ s (h _)
    · rfl

/-- A sample in which no cell holds note 60 leaves the Kick accumulator at 0. -/
theorem processSample_tempAudio_absent (env : Env R) (s : Synth R)
    (h : ∀ i : Fin 6, (s.keys i).midiNote ≠ 60) : (processSample env s).tempAudio = 0 :=
  slotScanFrom_tempAudio env 6 0 (zeroAccumulators s) h

/-- The sample that reaches the boundary with the key of slot 0 released
leaves the Kick accumulator at 0. -/
theorem processSample_tempAudio_release (env : Env R) (s : Synth R)
    (h0 : s.keys 0 = { midiNote := 60, playing := false })
    (ho : ∀ i : Fin 6, i ≠ 0 → (s.keys i).midiNote ≠ 60)
    (hc : s.Kickdrum.counter = 14400) : (processSample env s).tempAudio = 0 := by
  have e : processSample env s
      = slotScanFrom env 5 1 (slotBody env 0 (zeroAccumulators s)) := rfl
  have hkey : (zeroAccumulators s).ctl.keys 0 = { midiNote := 60, playing := false } := h0
  have hn : ((zeroAccumulators s).ctl.keys 0).midiNote = DrumId.kick.note := by
    rw [hkey]; rfl
  have hk : (zeroAccumulators s).ctl.cnt .kick = 14400 := hc
  rw [e, slotScanFrom_tempAudio]
  · exact slotBody_tempAudio_release env 0 _ (by rw [show (zeroAccumulators s).keys 0 = _ from h0])
      (by rw [show (zeroAccumulators s).keys 0 = _ from h0]) hc
  · intro i
    rw [slotBody_keys]
    by_cases hi : i = 0
    · subst hi
      rw [Ctl.slot_of_note .kick 0 _ hn, Ctl.branch_keys .kick 0 _ hn, Function.update_same,
        hk, hkey]
      decide
    · exact Ctl.slot_note_ne .kick 0 i _ (ho i hi)

theorem slotBody_idle (env : Env R) (j : Fin 6) (s : Synth R)
    (h : ∀ d : DrumId, (s.keys j).midiNote ≠ d.note) : slotBody env j s = writeOut s := by
  unfold slotBody
  have h0 : kickBranch env j s = s := if_neg (h .kick)
  have h1 : snareBranch env j s = s := if_neg (h .snare)
  have h2 : midtomBranch env j s = s := if_neg (h .midtom)
  have h3 : hightomBranch env j s = s := if_neg (h .hightom)
  have h4 : hihatBranch env j s = s := if_neg (h .hihat)
  rw [h0, h1, h2, h3, h4]

/-- While no cell holds a drum note the scan only rewrites the output cells. -/
theorem slotScanFrom_idle (env : Env R) :
    ∀ (fuel j : Nat) (s : Synth R), (∀ (i : Fin 6) (d : DrumId), (s.keys i).midiNote ≠ d.note) →
      slotScanFrom env fuel j s = s ∨ slotScanFrom env fuel j s = writeOut s := by
  intro fuel
  induction fuel with
  | zero => intro j s _; exact Or.inl rfl
  | succ f ih =>
    intro j s h
    rw [slotScanFrom]
    split
    · rw [slotBody_idle env _ s (h _)]
      rcases ih (j + 1) (writeOut s) h with h1 | h1
      · rw [h1]; exact Or.inr rfl
      · rw [h1]; exact Or.inr rfl
    · exact Or.inl rfl

end

section
variable {R : Type} [LinearOrderedField R]

theorem Machine.samples_zero (env : Env R) (m : Machine R) : Machine.samples env 0 m = m := rfl

theorem Machine.samples_succ (env : Env R) (k : Nat) (m : Machine R) :
    Machine.samples env (k + 1) m
      = { Machine.samples env k m with
          synth := processSample env (Machine.samples env k m).synth } := by
  unfold Machine.samples
  rw [List.replicate_succ', run_append]
  rfl

/-- The state after NoteOn(60), NoteOff(60) from the initial state: slot 0
holds the released note, every other cell is reset, the Kick counter is 0. -/
theorem noteOnOff60_state (env : Env R) (v w : Byte) :
    Ctl.Sole .kick 0 { midiNote := 60, playing := false } 0
      (Machine.run env Machine.init (midiBytes [0x90, 60, v, 0x80, 60, w])).synth.ctl := by
  refine ⟨rfl, rfl, ?_⟩
  intro j hj
  have h0 : ∀ i : Fin 6, i ≠ 0 →
      (Machine.run env Machine.init (midiBytes [0x90, 60, v, 0x80, 60, w])).synth.ctl.keys i
        = { midiNote := 0, playing := false } := by
    intro i hi
    fin_cases i
    · exact absurd rfl hi
    all_goals rfl
  rw [h0 j hj]
  decide

/-- While the released note decays the counter counts the samples. -/
theorem release_decay (env : Env R) (m : Machine R)
    (h : Ctl.Sole .kick 0 { midiNote := 60, playing := false } 0 m.synth.ctl) :
    ∀ k : Nat, k ≤ 14400 →
      Ctl.Sole .kick 0 { midiNote := 60, playing := false } k
        (Machine.samples env k m).synth.ctl := by
  intro k
  induction k with
  | zero => intro _; exact h
  | succ n ih =>
    intro hk
    have h1 := ih (by omega)
    rw [Machine.samples_succ]
    show Ctl.Sole _ _ _ _ (processSample env (Machine.samples env n m).synth).ctl
    rw [ctl_processSample]
    have h2 := Ctl.sole_scan_through .kick 0 { midiNote := 60, playing := false } n rfl 6 0
      _ (by omega) (by decide) h1
    have e1 : nextKey DrumId.kick.limit n { midiNote := 60, playing := false }
        = { midiNote := 60, playing := false } := by
      unfold nextKey
      rw [if_neg]
      intro hc
      have : DrumId.kick.limit = 14400 := rfl
      omega
    have e2 : nextCount DrumId.kick.limit n false = n + 1 := by
      unfold nextCount
      have : DrumId.kick.limit = 14400 := rfl
      rw [if_pos (by omega)]
    rw [e1] at h2
    simp only [e2] at h2
    exact h2

/-- The boundary sample of a released note: slot 0 is reset, no cell holds
note 60 any more and the Kick accumulator is 0. -/
theorem release_boundary (env : Env R) (m : Machine R)
    (h : Ctl.Sole .kick 0 { midiNote := 60, playing := false } 0 m.synth.ctl)
    (k : Nat) (hk : k = 14401) :
    (Machine.samples env k m).synth.keys 0 = { midiNote := 0, playing := false } ∧
    (∀ i : Fin 6, ((Machine.samples env k m).synth.keys i).midiNote ≠ 60) ∧
    (Machine.samples env k m).synth.tempAudio = 0 := by
  obtain ⟨n, rfl⟩ : ∃ n, k = n + 1 := ⟨k - 1, by omega⟩
  have hn : n = 14400 := by omega
  have hb := release_decay env m h n (by omega)
  rw [Machine.samples_succ]
  have h2 := Ctl.sole_scan_through .kick 0 { midiNote := 60, playing := false } n rfl 6 0
    _ (by omega) (by decide) hb
  have e1 : nextKey DrumId.kick.limit n { midiNote := 60, playing := false }
      = { midiNote := 0, playing := false } := by
    subst hn; decide
  rw [e1] at h2
  have hkeys : (processSample env (Machine.samples env n m).synth).keys
      = (Ctl.sample (Machine.samples env n m).synth.ctl).keys := processSample_keys env _
  refine ⟨?_, ?_, ?_⟩
  · show (processSample env (Machine.samples env n m).synth).keys 0 = _
    rw [hkeys]; exact h2.1
  · intro i
    show ((processSample env (Machine.samples env n m).synth).keys i).midiNote ≠ 60
    rw [hkeys]
    by_cases hi : i = 0
    · rw [hi, show (Ctl.sample (Machine.samples env n m).synth.ctl).keys 0 = _ from h2.1]
      decide
    · exact h2.2.2 i hi
  · exact processSample_tempAudio_release env _ hb.1 hb.2.2 (hb.2.1.trans hn)

/-- From the boundary sample on, no cell holds note 60 and the Kick
accumulator is 0 after every sample. -/
theorem release_done (env : Env R) (m : Machine R)
    (h : Ctl.Sole .kick 0 { midiNote := 60, playing := false } 0 m.synth.ctl)
    (n : Nat) (hn : n = 14401) :
    ∀ k : Nat, n ≤ k →
      (∀ i : Fin 6, ((Machine.samples env k m).synth.keys i).midiNote ≠ 60) ∧
      (Machine.samples env k m).synth.tempAudio = 0 := by
  intro k hk
  induction k, hk using Nat.le_induction with
  | base => exact (release_boundary env m h n hn).2
  | succ k _ ih =>
    rw [Machine.samples_succ]
    have hkeys : (processSample env (Machine.samples env k m).synth).keys
        = (Ctl.sample (Machine.samples env k m).synth.ctl).keys := processSample_keys env _
    have habs := Ctl.sample_absent .kick (Machine.samples env k m).synth.ctl ih.1
    refine ⟨?_, ?_⟩
    · intro i
      show ((processSample env (Machine.samples env k m).synth).keys i).midiNote ≠ 60
      rw [hkeys]; exact habs.2 i
    · exact processSample_tempAudio_absent env _ ih.1

/-- C7. Release at the decay boundary: from the initial state, after
NoteOn(60) and NoteOff(60), the Kick counter after the `k`-th sample is `k` and
slot 0 still holds note 60 for every `k` in `1..14400`; the 14401st sample
leaves the Kick accumulator `tempAudio` at 0 and slot 0 reset; the Kick
accumulator is 0 after every later sample. -/
theorem C7_release_at_decay_boundary (env : Env R) (v w : Byte) :
    (∀ k : Nat, 1 ≤ k → k ≤ 14400 →
      (Machine.samples env k
        (Machine.run env Machine.init (midiBytes [0x90, 60, v, 0x80, 60, w]))).synth.Kickdrum.counter
          = k ∧
      ((Machine.samples env k
        (Machine.run env Machine.init (midiBytes [0x90, 60, v, 0x80, 60, w]))).synth.keys 0).midiNote
          = 60) ∧
    (Machine.samples env 14401
      (Machine.run env Machine.init (midiBytes [0x90, 60, v, 0x80, 60, w]))).synth.tempAudio = 0 ∧
    (Machine.samples env 14401
      (Machine.run env Machine.init (midiBytes [0x90, 60, v, 0x80, 60, w]))).synth.keys 0
        = { midiNote := 0, playing := false } ∧
    (∀ k : Nat, 14401 ≤ k →
      (Machine.samples env k
        (Machine.run env Machine.init (midiBytes [0x90, 60, v, 0x80, 60, w]))).synth.tempAudio
          = 0) := by
  have h0 := noteOnOff60_state env v w
  refine ⟨?_, ?_, ?_, ?_⟩
  · intro k _ hk
    have h := release_decay env _ h0 k hk
    exact ⟨h.2.1, by rw [show (Machine.samples env k _).synth.keys 0 = _ from h.1]⟩
  · exact (release_boundary env _ h0 14401 rfl).2.2
  · exact (release_boundary env _ h0 14401 rfl).1
  · intro k hk
    exact (release_done env _ h0 14401 rfl k hk).2

end

theorem C7_release_at_decay_boundary_witness :
    (Machine.samples sampleEnv 3
      (Machine.run sampleEnv Machine.init (midiBytes [0x90, 60, 100, 0x80, 60, 0]))).synth.Kickdrum.counter
        = 3 ∧
    ((Machine.samples sampleEnv 3
      (Machine.run sampleEnv Machine.init (midiBytes [0x90, 60, 100, 0x80, 60, 0]))).synth.keys 0).midiNote
        = 60 :=
  (C7_release_at_decay_boundary sampleEnv 100 0).1 3 (by decide) (by decide)

section
variable {R : Type} [LinearOrderedField R]

end

section
variable {R : Type} [LinearOrderedField R]

theorem panicFrom_counter (d : DrumId) :
    ∀ (fuel i : Nat) (s : Synth R), (panicFrom fuel i s).counter d = s.counter d := by
  intro fuel
  induction fuel with
  | zero => intro i s; rfl
  | succ f ih =>
    intro i s
    rw [panicFrom]
    split
    · rw [ih]; cases d <;> rfl
    · rfl

theorem background_counter (d : DrumId) (s : Synth R) :
    (processaudio_background_loop s).counter d = s.counter d := by
  unfold processaudio_background_loop
  dsimp only
  split_ifs <;> first | (rw [panicFrom_counter]; cases d <;> rfl) | (cases d <;> rfl)

/-- Only a sample processed while a cell holds the note of `d` can change the
counter of `d`. -/
theorem step_counter (env : Env R) (d : DrumId) (m : Machine R) (e : Event R)
    (h : e = Event.sample → ∀ j : Fin 6, (m.synth.keys j).midiNote ≠ d.note) :
    (Machine.step env m e).synth.counter d = m.synth.counter d := by
  cases e with
  | midi val => cases d <;> rfl
  | sample =>
    show (processSample env m.synth).counter d = _
    rw [processSample_counter, (Ctl.sample_absent d m.synth.ctl (h rfl)).1,
      Synth.counter_eq_ctl]
  | block => cases d <;> rfl
  | background => exact background_counter d m.synth
  | shared x => cases d <;> rfl

theorem unsounded_counter (env : Env R) (d : DrumId) (evs : List (Event R)) :
    ∀ m : Machine R, Machine.Unsounded env d m evs →
      (Machine.run env m evs).synth.counter d = m.synth.counter d := by
  induction evs with
  | nil => intro m _; rfl
  | cons e rest ih =>
    intro m h
    rw [run_cons]
    cases e with
    | sample =>
      rw [ih _ h.2]
      exact step_counter env d m _ (fun _ => h.1)
    | midi val => rw [ih _ h]; exact step_counter env d m _ (fun hc => by cases hc)
    | block => rw [ih _ h]; exact step_counter env d m _ (fun hc => by cases hc)
    | background => rw [ih _ h]; exact step_counter env d m _ (fun hc => by cases hc)
    | shared x => rw [ih _ h]; exact step_counter env d m _ (fun hc => by cases hc)

/-- C9 (amended). In every execution from the initial state, a sample that is
processed while some cell holds a drum's note, when no earlier sample of the
execution was processed while a cell held that note, starts with that drum's
counter at 0. -/
theorem C9_first_episode_counter_zero (env : Env R) (d : DrumId) (evs : List (Event R))
    (h : Machine.Unsounded env d Machine.init evs) :
    (Machine.run env Machine.init evs).synth.counter d = 0 := by
  rw [unsounded_counter env d evs _ h]
  cases d <;> rfl

end

set_option maxRecDepth 100000 in
/-- C9 (as stated) fails: NoteOn(60), one sample, NoteOff(60), NoteOn(61)
(which takes slot 0 over while the Kick is still decaying), one sample (no
cell holds note 60), NoteOn(60) (slot 1). The next sample would be processed
with slot 1 holding note 60 and `playing = true` although the Kick counter
is 1. -/
theorem C9_counter_zero_counterexample :
    (∀ j : Fin 6,
      ((Machine.run sampleEnv Machine.init
        (midiBytes [0x90, 60, 100] ++ [Event.sample]
          ++ midiBytes [0x80, 60, 0, 0x90, 61, 100])).synth.keys j).midiNote ≠ 60) ∧
    (Machine.run sampleEnv Machine.init
      (midiBytes [0x90, 60, 100] ++ [Event.sample] ++ midiBytes [0x80, 60, 0, 0x90, 61, 100]
        ++ [Event.sample] ++ midiBytes [0x90, 60, 100])).synth.keys 1
      = { midiNote := 60, playing := true } ∧
    (Machine.run sampleEnv Machine.init
      (midiBytes [0x90, 60, 100] ++ [Event.sample] ++ midiBytes [0x80, 60, 0, 0x90, 61, 100]
        ++ [Event.sample] ++ midiBytes [0x90, 60, 100])).synth.Kickdrum.counter = 1 := by
  decide

set_option maxRecDepth 100000 in
theorem C9_first_episode_counter_zero_witness :
    Machine.Unsounded sampleEnv DrumId.kick Machine.init
      (midiBytes [0x90, 61, 100] ++ [Event.sample] ++ midiBytes [0x90, 60, 100]) ∧
    (Machine.run sampleEnv Machine.init
      (midiBytes [0x90, 61, 100] ++ [Event.sample]
        ++ midiBytes [0x90, 60, 100])).synth.counter DrumId.kick = 0 :=
  ⟨⟨by decide, trivial⟩,
    C9_first_episode_counter_zero sampleEnv DrumId.kick _ ⟨by decide, trivial⟩⟩

/-- The counter after a branch that runs with the key released. -/
theorem nextCount_released (L n : Nat) :
    nextCount L n false = if n ≤ L then n + 1 else n := by
  unfold nextCount
  simp only [Bool.false_eq_true, if_false]
  split_ifs <;> omega

section
variable {R : Type} [LinearOrderedField R]

/-- A sample in which no cell holds a drum note writes 0 to both output
cells. -/
theorem processSample_out_idle (env : Env R) (s : Synth R)
    (h : ∀ (i : Fin 6) (d : DrumId), (s.keys i).midiNote ≠ d.note) :
    (processSample env s).left_out = 0 ∧ (processSample env s).right_out = 0 := by
  have e : processSample env s
      = slotScanFrom env 5 1 (slotBody env 0 (zeroAccumulators s)) := rfl
  rw [e, slotBody_idle env 0 (zeroAccumulators s) (h 0)]
  rcases slotScanFrom_idle env 5 1 (writeOut (zeroAccumulators s)) h with h1 | h1
  · rw [h1]
    simp [writeOut, zeroAccumulators]
  · rw [h1]
    simp [writeOut, zeroAccumulators]

/-- C10 (amended). Dispatch is gated on the note number, not on the active
flag. In a state in which every cell has `playing = false`, one sample leaves
the counter of a drum whose note no cell holds, advances by one the counter
(while it is at most its threshold) of a drum whose note exactly one cell
holds, and, when no cell holds any of the notes 60..64, leaves every counter
and cell unchanged and writes 0 to both output channels. -/
theorem C10_dispatch_gated_on_note (env : Env R) (s : Synth R)
    (hp : ∀ j : Fin 6, (s.keys j).playing = false) :
    (∀ d : DrumId, (∀ j : Fin 6, (s.keys j).midiNote ≠ d.note) →
      (processSample env s).counter d = s.counter d) ∧
    (∀ (d : DrumId) (i : Fin 6), (s.keys i).midiNote = d.note →
      (∀ j : Fin 6, j ≠ i → (s.keys j).midiNote ≠ d.note) →
      (processSample env s).counter d
        = if s.counter d ≤ d.limit then s.counter d + 1 else s.counter d) ∧
    ((∀ (j : Fin 6) (d : DrumId), (s.keys j).midiNote ≠ d.note) →
      (processSample env s).ctl = s.ctl ∧
      (processSample env s).left_out = 0 ∧ (processSample env s).right_out = 0) := by
  refine ⟨?_, ?_, ?_⟩
  · intro d hd
    rw [processSample_counter, (Ctl.sample_absent d s.ctl hd).1, Synth.counter_eq_ctl]
  · intro d i hi ho
    rw [processSample_counter, (Ctl.sample_sole d i s.ctl hi ho).2.1, Synth.counter_eq_ctl,
      show (s.ctl.keys i).playing = false from hp i, nextCount_released]
  · intro hall
    refine ⟨?_, processSample_out_idle env s hall⟩
    rw [ctl_processSample]
    exact Ctl.scanFrom_idle 6 0 s.ctl hall

end

set_option maxRecDepth 100000 in
/-- C10 (as stated) fails: after NoteOn(60), NoteOff(60) from the initial
state every cell has `playing = false`, yet the next sample runs the Kick
step: the Kick and SubKick counters go from 0 to 1. -/
theorem C10_dispatch_counterexample :
    (∀ j : Fin 6,
      ((Machine.run sampleEnv Machine.init
        (midiBytes [0x90, 60, 100, 0x80, 60, 0])).synth.keys j).playing = false) ∧
    (Machine.run sampleEnv Machine.init
      (midiBytes [0x90, 60, 100, 0x80, 60, 0])).synth.Kickdrum.counter = 0 ∧
    (processSample sampleEnv (Machine.run sampleEnv Machine.init
      (midiBytes [0x90, 60, 100, 0x80, 60, 0])).synth).Kickdrum.counter = 1 ∧
    (processSample sampleEnv (Machine.run sampleEnv Machine.init
      (midiBytes [0x90, 60, 100, 0x80, 60, 0])).synth).SubKick.counter = 1 := by
  decide

set_option maxRecDepth 100000 in
theorem C10_dispatch_gated_on_note_witness :
    (processSample sampleEnv (Machine.run sampleEnv Machine.init
      (midiBytes [0x90, 62, 100, 0x80, 62, 0])).synth).counter DrumId.midtom
        = if (Machine.run sampleEnv Machine.init
              (midiBytes [0x90, 62, 100, 0x80, 62, 0])).synth.counter DrumId.midtom
              ≤ DrumId.midtom.limit
          then (Machine.run sampleEnv Machine.init
              (midiBytes [0x90, 62, 100, 0x80, 62, 0])).synth.counter DrumId.midtom + 1
          else (Machine.run sampleEnv Machine.init
              (midiBytes [0x90, 62, 100, 0x80, 62, 0])).synth.counter DrumId.midtom :=
  (C10_dispatch_gated_on_note sampleEnv
    (Machine.run sampleEnv Machine.init (midiBytes [0x90, 62, 100, 0x80, 62, 0])).synth
    (by decide)).2.1 DrumId.midtom 0 (by decide) (by decide)

/-! ## The bounded loops of the audio unit run to completion -/

section
variable {R : Type} [LinearOrderedField R]

/-- Extra fuel does not change the slot scan: six passes always suffice. -/
theorem slotScanFrom_fuel (env : Env R) :
    ∀ (fuel j : Nat) (s : Synth R), 6 - j ≤ fuel →
      slotScanFrom env (fuel + 1) j s = slotScanFrom env fuel j s := by
  intro fuel
  induction fuel with
  | zero =>
    intro j s hf
    rw [slotScanFrom, slotScanFrom, dif_neg (by omega)]
  | succ f ih =>
    intro j s hf
    rw [slotScanFrom, slotScanFrom]
    split
    · exact ih (j + 1) _ (by omega)
    · rfl

/-- The scan of one sample is the six slot steps `j = 0, ..., 5` in order. -/
theorem processSample_eq (env : Env R) (s : Synth R) :
    processSample env s
      = slotBody env 5 (slotBody env 4 (slotBody env 3 (slotBody env 2 (slotBody env 1
          (slotBody env 0 (zeroAccumulators s)))))) :=
  rfl

/-- Extra fuel does not change the reset loop of `processaudio_setup`. -/
theorem resetKeysFrom_fuel :
    ∀ (fuel i : Nat) (keys : Keys), 6 - i ≤ fuel →
      resetKeysFrom keys (fuel + 1) i = resetKeysFrom keys fuel i := by
  intro fuel
  induction fuel with
  | zero =>
    intro i keys hf
    rw [resetKeysFrom, resetKeysFrom, dif_neg (by omega)]
  | succ f ih =>
    intro i keys hf
    rw [resetKeysFrom, resetKeysFrom]
    split
    · exact ih (i + 1) _ (by omega)
    · rfl

/-- Extra fuel does not change the loop of the fourth switch. -/
theorem panicFrom_fuel :
    ∀ (fuel i : Nat) (s : Synth R), 6 - i ≤ fuel →
      panicFrom (fuel + 1) i s = panicFrom fuel i s := by
  intro fuel
  induction fuel with
  | zero =>
    intro i s hf
    rw [panicFrom, panicFrom, dif_neg (by omega)]
  | succ f ih =>
    intro i s hf
    rw [panicFrom, panicFrom]
    split
    · exact ih (i + 1) _ (by omega)
    · rfl

/-- The initial state: every cell reset, every counter 0. -/
theorem init_ctl :
    (Machine.init : Machine R).synth.ctl
      = { keys := resetKeys, kick := 0, snare := 0, midtom := 0, hightom := 0, hihat := 0,
          subKick := 0, subTom := 0 } := by
  have hk : (Machine.init : Machine R).synth.keys = resetKeys := by
    funext j
    fin_cases j <;> rfl
  show Ctl.mk (Machine.init : Machine R).synth.keys 0 0 0 0 0 0 0 = _
  rw [hk]

end

/-! ## Mixdown -/

section
variable {R : Type} [LinearOrderedField R]

theorem processSample_out (env : Env R) (s : Synth R) :
    (processSample env s).left_out = (processSample env s).mix ∧
    (processSample env s).right_out = (processSample env s).mix := by
  rw [processSample_eq]
  exact ⟨rfl, rfl⟩

theorem sampleLoop_length (env : Env R) :
    ∀ (n : Nat) (s : Synth R), (sampleLoop env n s).2.length = n := by
  intro n
  induction n with
  | zero => intro s; rfl
  | succ k ih => intro s; simp [sampleLoop, ih]

theorem sampleLoop_get (env : Env R) :
    ∀ (n : Nat) (s : Synth R) (i : Nat), i < n →
      (sampleLoop env n s).2[i]?
        = some (((processSample env)^[i + 1] s).mix, ((processSample env)^[i + 1] s).mix) := by
  intro n
  induction n with
  | zero => intro s i hi; omega
  | succ k ih =>
    intro s i hi
    cases i with
    | zero =>
      simp only [sampleLoop, List.getElem?_cons_zero, Function.iterate_succ,
        Function.iterate_zero, Function.comp_apply, id_eq]
      rw [(processSample_out env s).1, (processSample_out env s).2]
    | succ i' =>
      simp only [sampleLoop, List.getElem?_cons_succ]
      rw [ih (processSample env s) i' (by omega)]
      rfl

/-- C11. Mixdown: after a sample is processed the left and right outputs are
equal and both are `2*tempAudio + 2*tempAudio2 + tempAudio3 + tempAudio4 +
tempAudio5`, the accumulators being those at the end of the slot scan of that
sample; this holds for every sample index `i` of a block. -/
theorem C11_mixdown (env : Env R) (s : Synth R) :
    (processSample env s).left_out = (processSample env s).right_out ∧
    (processSample env s).left_out
      = 2 * (processSample env s).tempAudio + 2 * (processSample env s).tempAudio2
        + (processSample env s).tempAudio3 + (processSample env s).tempAudio4
        + (processSample env s).tempAudio5 ∧
    ∀ (AUDIO_BLOCK_SIZE : Nat),
      (processaudio_callback env AUDIO_BLOCK_SIZE s).2.length = AUDIO_BLOCK_SIZE ∧
      ∀ i : Nat, i < AUDIO_BLOCK_SIZE →
        (processaudio_callback env AUDIO_BLOCK_SIZE s).2[i]?
          = some (((processSample env)^[i + 1] (readPots s)).mix,
                  ((processSample env)^[i + 1] (readPots s)).mix) := by
  refine ⟨?_, ?_, ?_⟩
  · rw [(processSample_out env s).1, (processSample_out env s).2]
  · exact (processSample_out env s).1
  · intro n
    exact ⟨sampleLoop_length env n _, fun i hi => sampleLoop_get env n _ i hi⟩

end

theorem C11_mixdown_witness :
    (processaudio_callback sampleEnv 32 (Synth.zero : Synth ℚ)).2[7]?
      = some (((processSample sampleEnv)^[7 + 1] (readPots (Synth.zero : Synth ℚ))).mix,
              ((processSample sampleEnv)^[7 + 1] (readPots (Synth.zero : Synth ℚ))).mix) :=
  ((C11_mixdown sampleEnv (Synth.zero : Synth ℚ)).2.2 32).2 7 (by decide)

/-! ## The background loop: panic -/

section
variable {R : Type} [LinearOrderedField R]

/-- The loop of the fourth switch resets all six cells and zeroes the five
accumulators. -/
theorem panicFrom_all (s : Synth R) :
    (∀ j : Fin 6, (panicFrom 6 0 s).keys j = { midiNote := 0, playing := false }) ∧
    (panicFrom 6 0 s).tempAudio = 0 ∧ (panicFrom 6 0 s).tempAudio2 = 0 ∧
    (panicFrom 6 0 s).tempAudio3 = 0 ∧ (panicFrom 6 0 s).tempAudio4 = 0 ∧
    (panicFrom 6 0 s).tempAudio5 = 0 ∧
    (panicFrom 6 0 s).multicore_data = s.multicore_data := by
  refine ⟨?_, rfl, rfl, rfl, rfl, rfl, rfl⟩
  intro j
  fin_cases j <;> rfl

/-- What the background loop does to the cells: nothing, or all reset. -/
theorem background_keys (s : Synth R) :
    (processaudio_background_loop s).keys
      = if s.multicore_data.audioproj_fin_sw_4_core1_pressed = true
        then fun _ => { midiNote := 0, playing := false } else s.keys := by
  unfold processaudio_background_loop
  dsimp only
  by_cases h4 : s.multicore_data.audioproj_fin_sw_4_core1_pressed = true
  · rw [if_pos h4]
    split_ifs <;> (funext j; exact (panicFrom_all _).1 j)
  · rw [if_neg h4]
    split_ifs <;> rfl

omit [LinearOrderedField R] in
/-- The cells hold no drum note. -/
theorem idle_of_reset (s : Synth R)
    (h : ∀ j : Fin 6, s.keys j = { midiNote := 0, playing := false }) :
    ∀ (j : Fin 6) (d : DrumId), (s.keys j).midiNote ≠ d.note := by
  intro j d
  rw [h j]
  exact fun hc => DrumId.note_ne_zero d hc.symm

/-- Without a MIDI byte, cells that are all reset stay reset. -/
theorem step_keeps_reset (env : Env R) (m : Machine R) (e : Event R) (he : e.isMidi = false)
    (h : ∀ j : Fin 6, m.synth.keys j = { midiNote := 0, playing := false }) :
    ∀ j : Fin 6, (Machine.step env m e).synth.keys j = { midiNote := 0, playing := false } := by
  cases e with
  | midi val => exact Bool.noConfusion he
  | sample =>
    intro j
    show (processSample env m.synth).keys j = _
    rw [processSample_keys]
    have hidle := Ctl.scanFrom_idle 6 0 m.synth.ctl (idle_of_reset m.synth h)
    show (Ctl.sample m.synth.ctl).keys j = _
    unfold Ctl.sample
    rw [hidle]
    exact h j
  | block => exact h
  | background =>
    intro j
    show (processaudio_background_loop m.synth).keys j = _
    rw [background_keys]
    split
    · rfl
    · exact h j
  | shared d => exact h

theorem run_keeps_reset (env : Env R) (evs : List (Event R)) :
    ∀ m : Machine R, (∀ e ∈ evs, e.isMidi = false) →
      (∀ j : Fin 6, m.synth.keys j = { midiNote := 0, playing := false }) →
      ∀ j : Fin 6, (Machine.run env m evs).synth.keys j = { midiNote := 0, playing := false } := by
  induction evs with
  | nil => intro m _ h; exact h
  | cons e rest ih =>
    intro m he h
    rw [run_cons]
    exact ih _ (fun x hx => he x (List.mem_cons_of_mem _ hx))
      (step_keeps_reset env m e (he e (List.mem_cons_self _ _)) h)

/-- C12. Panic: a run of `processaudio_background_loop` with the fourth
pressed flag set leaves every cell with `playing = false` and `midiNote = 0`,
clears the flag and zeroes the five accumulators, whatever the prior state;
if no MIDI byte arrives afterwards, every sample processed next writes 0 to
both output channels. -/
theorem C12_panic (env : Env R) (m : Machine R)
    (h4 : m.synth.multicore_data.audioproj_fin_sw_4_core1_pressed = true) :
    (∀ j : Fin 6, (processaudio_background_loop m.synth).keys j
        = { midiNote := 0, playing := false }) ∧
    (processaudio_background_loop m.synth).multicore_data.audioproj_fin_sw_4_core1_pressed
        = false ∧
    ((processaudio_background_loop m.synth).tempAudio = 0 ∧
      (processaudio_background_loop m.synth).tempAudio2 = 0 ∧
      (processaudio_background_loop m.synth).tempAudio3 = 0 ∧
      (processaudio_background_loop m.synth).tempAudio4 = 0 ∧
      (processaudio_background_loop m.synth).tempAudio5 = 0) ∧
    ∀ evs : List (Event R), (∀ e ∈ evs, e.isMidi = false) →
      (Machine.run env m (Event.background :: evs ++ [Event.sample])).synth.left_out = 0 ∧
      (Machine.run env m (Event.background :: evs ++ [Event.sample])).synth.right_out = 0 := by
  have hkeys : ∀ j : Fin 6, (processaudio_background_loop m.synth).keys j
      = { midiNote := 0, playing := false } := by
    intro j
    rw [background_keys, if_pos h4]
  have hrest : (processaudio_background_loop m.synth).multicore_data.audioproj_fin_sw_4_core1_pressed
        = false ∧
      ((processaudio_background_loop m.synth).tempAudio = 0 ∧
      (processaudio_background_loop m.synth).tempAudio2 = 0 ∧
      (processaudio_background_loop m.synth).tempAudio3 = 0 ∧
      (processaudio_background_loop m.synth).tempAudio4 = 0 ∧
      (processaudio_background_loop m.synth).tempAudio5 = 0) := by
    unfold processaudio_background_loop
    dsimp only
    split_ifs <;> exact ⟨rfl, rfl, rfl, rfl, rfl, rfl⟩
  refine ⟨hkeys, hrest.1, hrest.2, ?_⟩
  intro evs hev
  have e1 : Machine.run env m (Event.background :: evs ++ [Event.sample])
      = Machine.step env (Machine.run env (Machine.step env m Event.background) evs)
          Event.sample := by
    rw [List.cons_append, run_cons, run_append]
    rfl
  rw [e1]
  have hk := run_keeps_reset env evs (Machine.step env m Event.background) hev hkeys
  exact processSample_out_idle env _ (idle_of_reset _ hk)

end

theorem C12_panic_witness :
    ((∀ j : Fin 6, (processaudio_background_loop samplePanic).keys j
        = { midiNote := 0, playing := false }) ∧
      (processaudio_background_loop samplePanic).multicore_data.audioproj_fin_sw_4_core1_pressed
        = false ∧
      (processaudio_background_loop samplePanic).tempAudio = 0) ∧
    (Machine.run sampleEnv { rx := MidiRx.init, synth := samplePanic }
        (Event.background :: [Event.block] ++ [Event.sample])).synth.left_out = 0 ∧
    (Machine.run sampleEnv { rx := MidiRx.init, synth := samplePanic }
        (Event.background :: [Event.block] ++ [Event.sample])).synth.right_out = 0 :=
  ⟨⟨(C12_panic sampleEnv { rx := MidiRx.init, synth := samplePanic } rfl).1,
    (C12_panic sampleEnv { rx := MidiRx.init, synth := samplePanic } rfl).2.1,
    (C12_panic sampleEnv { rx := MidiRx.init, synth := samplePanic } rfl).2.2.1.1⟩,
   (C12_panic sampleEnv { rx := MidiRx.init, synth := samplePanic } rfl).2.2.2 [Event.block]
    (by simp [Event.isMidi])⟩

/-! ## The background loop: variant counters -/

theorem tmod_succ_four (c : Int) (h : 0 ≤ c) : Int.tmod (c + 1) 4 = (c + 1) % 4 := by
  rw [Int.tmod_eq_emod (by omega) (by decide)]

section
variable {R : Type} [LinearOrderedField R]

/-- The loop of the fourth switch leaves the variant counters and
`multicore_data`. -/
theorem panicFrom_frame :
    ∀ (fuel i : Nat) (s : Synth R),
      (panicFrom fuel i s).type = s.type ∧ (panicFrom fuel i s).type2 = s.type2 ∧
      (panicFrom fuel i s).type3 = s.type3 ∧
      (panicFrom fuel i s).multicore_data = s.multicore_data := by
  intro fuel
  induction fuel with
  | zero => intro i s; exact ⟨rfl, rfl, rfl, rfl⟩
  | succ f ih =>
    intro i s
    rw [panicFrom]
    split
    · exact ih _ _
    · exact ⟨rfl, rfl, rfl, rfl⟩

theorem bg_type (s : Synth R) :
    (processaudio_background_loop s).type
      = (if s.multicore_data.audioproj_fin_sw_1_core1_pressed = true
          then Int.tmod (s.type + 1) 4 else s.type) := by
  unfold processaudio_background_loop
  dsimp only
  split_ifs <;> simp only [(panicFrom_frame _ _ _).1]

theorem bg_type2 (s : Synth R) :
    (processaudio_background_loop s).type2
      = (if s.multicore_data.audioproj_fin_sw_2_core1_pressed = true
          then Int.tmod (s.type2 + 1) 4 else s.type2) := by
  unfold processaudio_background_loop
  dsimp only
  split_ifs <;> simp only [(panicFrom_frame _ _ _).2.1]

theorem bg_type3 (s : Synth R) :
    (processaudio_background_loop s).type3
      = (if s.multicore_data.audioproj_fin_sw_3_core1_pressed = true
          then Int.tmod (s.type3 + 1) 4 else s.type3) := by
  unfold processaudio_background_loop
  dsimp only
  split_ifs <;> simp only [(panicFrom_frame _ _ _).2.2.1]

theorem bg_flags (s : Synth R) :
    (processaudio_background_loop s).multicore_data.audioproj_fin_sw_1_core1_pressed = false ∧
    (processaudio_background_loop s).multicore_data.audioproj_fin_sw_2_core1_pressed = false ∧
    (processaudio_background_loop s).multicore_data.audioproj_fin_sw_3_core1_pressed = false := by
  unfold processaudio_background_loop
  dsimp only
  split_ifs <;> (try simp only [(panicFrom_frame _ _ _).2.2.2]) <;> simp_all

theorem kickBranch_variants (env : Env R) (j : Fin 6) (s : Synth R) :
    (kickBranch env j s).type = s.type ∧ (kickBranch env j s).type2 = s.type2 ∧
    (kickBranch env j s).type3 = s.type3 := by
  unfold kickBranch
  dsimp only
  split_ifs <;> exact ⟨rfl, rfl, rfl⟩

theorem snareBranch_variants (env : Env R) (j : Fin 6) (s : Synth R) :
    (snareBranch env j s).type = s.type ∧ (snareBranch env j s).type2 = s.type2 ∧
    (snareBranch env j s).type3 = s.type3 := by
  unfold snareBranch
  dsimp only
  split_ifs <;> exact ⟨rfl, rfl, rfl⟩

theorem midtomBranch_variants (env : Env R) (j : Fin 6) (s : Synth R) :
    (midtomBranch env j s).type = s.type ∧ (midtomBranch env j s).type2 = s.type2 ∧
    (midtomBranch env j s).type3 = s.type3 := by
  unfold midtomBranch
  dsimp only
  split_ifs <;> exact ⟨rfl, rfl, rfl⟩

theorem hightomBranch_variants (env : Env R) (j : Fin 6) (s : Synth R) :
    (hightomBranch env j s).type = s.type ∧ (hightomBranch env j s).type2 = s.type2 ∧
    (hightomBranch env j s).type3 = s.type3 := by
  unfold hightomBranch
  dsimp only
  split_ifs <;> exact ⟨rfl, rfl, rfl⟩

theorem hihatBranch_variants (env : Env R) (j : Fin 6) (s : Synth R) :
    (hihatBranch env j s).type = s.type ∧ (hihatBranch env j s).type2 = s.type2 ∧
    (hihatBranch env j s).type3 = s.type3 := by
  unfold hihatBranch
  dsimp only
  split_ifs <;> exact ⟨rfl, rfl, rfl⟩

theorem slotBody_variants (env : Env R) (j : Fin 6) (s : Synth R) :
    (slotBody env j s).type = s.type ∧ (slotBody env j s).type2 = s.type2 ∧
    (slotBody env j s).type3 = s.type3 := by
  unfold slotBody writeOut
  simp only [(hihatBranch_variants env j _).1, (hihatBranch_variants env j _).2.1,
    (hihatBranch_variants env j _).2.2, (hightomBranch_variants env j _).1,
    (hightomBranch_variants env j _).2.1, (hightomBranch_variants env j _).2.2,
    (midtomBranch_variants env j _).1, (midtomBranch_variants env j _).2.1,
    (midtomBranch_variants env j _).2.2, (snareBranch_variants env j _).1,
    (snareBranch_variants env j _).2.1, (snareBranch_variants env j _).2.2,
    (kickBranch_variants env j _).1, (kickBranch_variants env j _).2.1,
    (kickBranch_variants env j _).2.2, and_self]

/-- A sample leaves the three variant counters. -/
theorem processSample_variants (env : Env R) (s : Synth R) :
    (processSample env s).type = s.type ∧ (processSample env s).type2 = s.type2 ∧
    (processSample env s).type3 = s.type3 := by
  rw [processSample_eq]
  simp only [(slotBody_variants env _ _).1, (slotBody_variants env _ _).2.1,
    (slotBody_variants env _ _).2.2]
  exact ⟨rfl, rfl, rfl⟩

/-- What one run of the background loop does to each variant counter and
each pressed flag. -/
theorem background_variants (s : Synth R) :
    (processaudio_background_loop s).type
      = (if s.multicore_data.audioproj_fin_sw_1_core1_pressed = true
          then Int.tmod (s.type + 1) 4 else s.type) ∧
    (processaudio_background_loop s).type2
      = (if s.multicore_data.audioproj_fin_sw_2_core1_pressed = true
          then Int.tmod (s.type2 + 1) 4 else s.type2) ∧
    (processaudio_background_loop s).type3
      = (if s.multicore_data.audioproj_fin_sw_3_core1_pressed = true
          then Int.tmod (s.type3 + 1) 4 else s.type3) ∧
    (processaudio_background_loop s).multicore_data.audioproj_fin_sw_1_core1_pressed = false ∧
    (processaudio_background_loop s).multicore_data.audioproj_fin_sw_2_core1_pressed = false ∧
    (processaudio_background_loop s).multicore_data.audioproj_fin_sw_3_core1_pressed = false :=
  ⟨bg_type s, bg_type2 s, bg_type3 s, bg_flags s⟩

/-- C14. Control variant counters: one run of `processaudio_background_loop`
replaces each of `type`, `type2`, `type3` whose pressed flag is set by
`(c + 1) mod 4` and clears the flag, and leaves a counter whose flag is clear;
what happens to a counter depends on its own flag only, and the voice pool is
untouched unless the fourth flag is set; hence in every reachable state the
three counters are in `{0, 1, 2, 3}`, and four presses return a counter to its
value. -/
theorem C14_variant_counters (env : Env R) :
    (∀ s : Synth R, s.VariantsInRange →
      ((processaudio_background_loop s).type
          = (if s.multicore_data.audioproj_fin_sw_1_core1_pressed = true
              then (s.type + 1) % 4 else s.type) ∧
        (processaudio_background_loop s).type2
          = (if s.multicore_data.audioproj_fin_sw_2_core1_pressed = true
              then (s.type2 + 1) % 4 else s.type2) ∧
        (processaudio_background_loop s).type3
          = (if s.multicore_data.audioproj_fin_sw_3_core1_pressed = true
              then (s.type3 + 1) % 4 else s.type3)) ∧
      ((processaudio_background_loop s).multicore_data.audioproj_fin_sw_1_core1_pressed
          = false ∧
        (processaudio_background_loop s).multicore_data.audioproj_fin_sw_2_core1_pressed
          = false ∧
        (processaudio_background_loop s).multicore_data.audioproj_fin_sw_3_core1_pressed
          = false) ∧
      (s.multicore_data.audioproj_fin_sw_4_core1_pressed = false →
        (processaudio_background_loop s).keys = s.keys)) ∧
    (∀ m : Machine R, Reachable env m → m.synth.VariantsInRange) ∧
    (∀ m : Machine R, Reachable env m →
      (press1^[4] m.synth).type = m.synth.type ∧
      (press2^[4] m.synth).type2 = m.synth.type2 ∧
      (press3^[4] m.synth).type3 = m.synth.type3) := by
  have hrun : ∀ s : Synth R, s.VariantsInRange →
      ((processaudio_background_loop s).type
          = (if s.multicore_data.audioproj_fin_sw_1_core1_pressed = true
              then (s.type + 1) % 4 else s.type) ∧
        (processaudio_background_loop s).type2
          = (if s.multicore_data.audioproj_fin_sw_2_core1_pressed = true
              then (s.type2 + 1) % 4 else s.type2) ∧
        (processaudio_background_loop s).type3
          = (if s.multicore_data.audioproj_fin_sw_3_core1_pressed = true
              then (s.type3 + 1) % 4 else s.type3)) := by
    intro s hv
    have hb := background_variants s
    rw [tmod_succ_four _ hv.1.1, tmod_succ_four _ hv.2.1.1, tmod_succ_four _ hv.2.2.1] at hb
    exact ⟨hb.1, hb.2.1, hb.2.2.1⟩
  have hrange : ∀ s : Synth R, s.VariantsInRange →
      (processaudio_background_loop s).VariantsInRange := by
    intro s hv
    have hb := hrun s hv
    unfold Synth.VariantsInRange at hv ⊢
    rw [hb.1, hb.2.1, hb.2.2]
    refine ⟨?_, ?_, ?_⟩ <;> split_ifs <;> omega
  have hreach : ∀ m : Machine R, Reachable env m → m.synth.VariantsInRange := by
    intro m hr
    refine reachable_induction env (fun m => m.synth.VariantsInRange) ?_ ?_ m hr
    · have h04 : (0 : Int) < 4 := by decide
      exact ⟨⟨le_refl _, h04⟩, ⟨le_refl _, h04⟩, ⟨le_refl _, h04⟩⟩
    · intro m e h
      cases e with
      | midi val => exact h
      | sample =>
        show (processSample env m.synth).VariantsInRange
        unfold Synth.VariantsInRange
        rw [(processSample_variants env m.synth).1, (processSample_variants env m.synth).2.1,
          (processSample_variants env m.synth).2.2]
        exact h
      | block => exact h
      | background => exact hrange m.synth h
      | shared d => exact h
  refine ⟨?_, hreach, ?_⟩
  · intro s hv
    refine ⟨hrun s hv, ?_, ?_⟩
    · have hb := background_variants s
      exact ⟨hb.2.2.2.1, hb.2.2.2.2.1, hb.2.2.2.2.2⟩
    · intro h4
      rw [background_keys, if_neg (by rw [h4]; decide)]
  · intro m hr
    have hv := hreach m hr
    have hp1 : ∀ s : Synth R, s.VariantsInRange →
        (press1 s).VariantsInRange ∧ (press1 s).type = (s.type + 1) % 4 := by
      intro s hs
      have hs' : Synth.VariantsInRange { s with multicore_data :=
          { s.multicore_data with audioproj_fin_sw_1_core1_pressed := true } } := hs
      exact ⟨hrange _ hs', ((hrun _ hs').1).trans (if_pos rfl)⟩
    have hp2 : ∀ s : Synth R, s.VariantsInRange →
        (press2 s).VariantsInRange ∧ (press2 s).type2 = (s.type2 + 1) % 4 := by
      intro s hs
      have hs' : Synth.VariantsInRange { s with multicore_data :=
          { s.multicore_data with audioproj_fin_sw_2_core1_pressed := true } } := hs
      exact ⟨hrange _ hs', ((hrun _ hs').2.1).trans (if_pos rfl)⟩
    have hp3 : ∀ s : Synth R, s.VariantsInRange →
        (press3 s).VariantsInRange ∧ (press3 s).type3 = (s.type3 + 1) % 4 := by
      intro s hs
      have hs' : Synth.VariantsInRange { s with multicore_data :=
          { s.multicore_data with audioproj_fin_sw_3_core1_pressed := true } } := hs
      exact ⟨hrange _ hs', ((hrun _ hs').2.2).trans (if_pos rfl)⟩
    refine ⟨?_, ?_, ?_⟩
    · have a1 := hp1 _ hv
      have a2 := hp1 _ a1.1
      have a3 := hp1 _ a2.1
      have a4 := hp1 _ a3.1
      show (press1 (press1 (press1 (press1 m.synth)))).type = m.synth.type
      rw [a4.2, a3.2, a2.2, a1.2]
      have := hv.1
      omega
    · have a1 := hp2 _ hv
      have a2 := hp2 _ a1.1
      have a3 := hp2 _ a2.1
      have a4 := hp2 _ a3.1
      show (press2 (press2 (press2 (press2 m.synth)))).type2 = m.synth.type2
      rw [a4.2, a3.2, a2.2, a1.2]
      have := hv.2.1
      omega
    · have a1 := hp3 _ hv
      have a2 := hp3 _ a1.1
      have a3 := hp3 _ a2.1
      have a4 := hp3 _ a3.1
      show (press3 (press3 (press3 (press3 m.synth)))).type3 = m.synth.type3
      rw [a4.2, a3.2, a2.2, a1.2]
      have := hv.2.2
      omega

end

theorem C14_variant_counters_witness :
    (processaudio_background_loop samplePress).type = 0 ∧
    (processaudio_background_loop samplePress).type2 = samplePress.type2 ∧
    (processaudio_background_loop samplePress).keys = samplePress.keys ∧
    (Machine.init : Machine ℚ).synth.VariantsInRange :=
  ⟨((C14_variant_counters sampleEnv).1 samplePress
      ⟨⟨by decide, by decide⟩, ⟨by decide, by decide⟩, ⟨by decide, by decide⟩⟩).1.1,
   ((C14_variant_counters sampleEnv).1 samplePress
      ⟨⟨by decide, by decide⟩, ⟨by decide, by decide⟩, ⟨by decide, by decide⟩⟩).1.2.1,
   ((C14_variant_counters sampleEnv).1 samplePress
      ⟨⟨by decide, by decide⟩, ⟨by decide, by decide⟩, ⟨by decide, by decide⟩⟩).2.2 rfl,
   (C14_variant_counters sampleEnv).2.1 Machine.init ⟨[], rfl⟩⟩

/-! ## The decoder: velocity and flags -/

/-- C15. Velocity is ignored: in the velocity phase the voice pool, the decoder
phase, the two flags and the pending note after feeding a byte `v1` are those
after feeding any other byte `v2`; only `midi_vol` records the byte. -/
theorem C15_velocity_ignored (rx : MidiRx) (keys : Keys) (v1 v2 : Byte)
    (hs : rx.midi_state = 2) :
    (midi_rx_callback_sharc1 v1 (rx, keys)).2 = (midi_rx_callback_sharc1 v2 (rx, keys)).2 ∧
    (midi_rx_callback_sharc1 v1 (rx, keys)).1.midi_state
      = (midi_rx_callback_sharc1 v2 (rx, keys)).1.midi_state ∧
    (midi_rx_callback_sharc1 v1 (rx, keys)).1.midi_note_start
      = (midi_rx_callback_sharc1 v2 (rx, keys)).1.midi_note_start ∧
    (midi_rx_callback_sharc1 v1 (rx, keys)).1.midi_note_stop
      = (midi_rx_callback_sharc1 v2 (rx, keys)).1.midi_note_stop ∧
    (midi_rx_callback_sharc1 v1 (rx, keys)).1.midi_note
      = (midi_rx_callback_sharc1 v2 (rx, keys)).1.midi_note := by
  obtain ⟨st, a, b, c, d⟩ := rx
  simp only at hs
  subst hs
  unfold midi_rx_callback_sharc1
  cases a <;> cases b <;> simp

theorem C15_velocity_ignored_witness :
    (midi_rx_callback_sharc1 0
        ({ MidiRx.init with midi_state := 2, midi_note_start := true, midi_note := 61 },
          sampleKeys)).2
      = (midi_rx_callback_sharc1 100
        ({ MidiRx.init with midi_state := 2, midi_note_start := true, midi_note := 61 },
          sampleKeys)).2 :=
  (C15_velocity_ignored
    { MidiRx.init with midi_state := 2, midi_note_start := true, midi_note := 61 }
    sampleKeys 0 100 rfl).1

section
variable {R : Type} [LinearOrderedField R]

/-- C16. Flags are clear for an unsupported message: in every reachable state
that is in the status phase both `midi_note_start` and `midi_note_stop` are
false, so they are still false after a status byte other than `0x80` and
`0x90`; and in no reachable state are the two flags both true. -/
theorem C16_flags_clear (env : Env R) (m : Machine R) (hr : Reachable env m) :
    (m.rx.midi_state = 0 → m.rx.midi_note_start = false ∧ m.rx.midi_note_stop = false) ∧
    (∀ s : Byte, m.rx.midi_state = 0 → s ≠ 0x80 → s ≠ 0x90 →
      (Machine.step env m (Event.midi s)).rx.midi_note_start = false ∧
      (Machine.step env m (Event.midi s)).rx.midi_note_stop = false ∧
      (Machine.step env m (Event.midi s)).rx.midi_state = 1) ∧
    ¬ (m.rx.midi_note_start = true ∧ m.rx.midi_note_stop = true) := by
  have hinv := reachable_rx_inv env m hr
  have hidle : m.rx.midi_state = 0 → m.rx.Idle := by
    intro h0
    rcases hinv with h | ⟨h, _⟩
    · exact h
    · omega
  refine ⟨fun h0 => (hidle h0).2, ?_, ?_⟩
  · intro s h0 h80 h90
    have hi := hidle h0
    show (midi_rx_callback_sharc1 s (m.rx, m.synth.keys)).1.midi_note_start = false ∧
      (midi_rx_callback_sharc1 s (m.rx, m.synth.keys)).1.midi_note_stop = false ∧
      (midi_rx_callback_sharc1 s (m.rx, m.synth.keys)).1.midi_state = 1
    unfold midi_rx_callback_sharc1
    simp only [h0, if_true, if_neg h80, if_neg h90]
    exact ⟨hi.2.1, hi.2.2, trivial⟩
  · rcases hinv with h | ⟨_, h⟩
    · intro hc
      rw [h.2.1] at hc
      exact absurd hc.1 (by decide)
    · exact h

/-- The Kick modulation-index envelope as computed: `1/70` is a division of
two `int` literals, so the slope is 0 and the value is 1 at every time. -/
theorem Kickdrum_I_t_const (env : Env R) (s : Synth R) : Kickdrum_I_t env s = 1 := by
  unfold Kickdrum_I_t
  have h : ((1 / 70 : Int) : R) = 0 := by
    have : (1 / 70 : Int) = 0 := by decide
    rw [this]; exact Int.cast_zero
  simp only [h, neg_zero, zero_mul, zero_add]

end

theorem C16_flags_clear_witness :
    (Machine.step sampleEnv Machine.init (Event.midi 0xF0)).rx.midi_note_start = false ∧
    (Machine.step sampleEnv Machine.init (Event.midi 0xF0)).rx.midi_note_stop = false ∧
    (Machine.step sampleEnv Machine.init (Event.midi 0xF0)).rx.midi_state = 1 :=
  (C16_flags_clear sampleEnv Machine.init ⟨[], rfl⟩).2.1 0xF0 rfl (by decide) (by decide)

/-- C19 (code). In `processaudio_callback` the Kick modulation index is 1 at
every elapsed time, not `1 - t/70`: one second into an episode (counter 48000
at 48 kHz) it is 1 where the linear decay would give `69/70`, and it is the
same at counter 0 and at counter 48000, so it does not decrease. -/
theorem C19_kick_index_is_constant :
    Kickdrum_I_t sampleEnv sampleKickLate = 1 ∧
    Kickdrum_t_r sampleEnv sampleKickLate = 1 ∧
    Kickdrum_I_t sampleEnv sampleKickLate ≠ 1 - Kickdrum_t_r sampleEnv sampleKickLate / 70 ∧
    Kickdrum_I_t sampleEnv (Synth.zero : Synth ℚ) = Kickdrum_I_t sampleEnv sampleKickLate := by
  have h1 : Kickdrum_t_r sampleEnv sampleKickLate = 1 := by
    unfold Kickdrum_t_r sampleKickLate sampleEnv
    norm_num
  refine ⟨Kickdrum_I_t_const _ _, h1, ?_, ?_⟩
  · rw [Kickdrum_I_t_const, h1]
    norm_num
  · rw [Kickdrum_I_t_const, Kickdrum_I_t_const]

/-! ## Indexing of `keys` -/

section
variable {R : Type} [LinearOrderedField R]

/-- The slot scan runs its body at exactly the indices of `forIndicesFrom`. -/
theorem slotScanFrom_indices (env : Env R) :
    ∀ (fuel j : Nat) (s : Synth R),
      slotScanFrom env fuel j s
        = (forIndicesFrom fuel j).foldl
            (fun s i => if h : i ≤ 5 then slotBody env ⟨i, by omega⟩ s else s) s := by
  intro fuel
  induction fuel with
  | zero => intro j s; rfl
  | succ f ih =>
    intro j s
    rw [slotScanFrom, forIndicesFrom]
    by_cases h : j ≤ 5
    · rw [dif_pos h, if_pos h, List.foldl_cons, dif_pos h]
      exact ih _ _
    · rw [dif_neg h, if_neg h]
      rfl

/-- The reset loop of `processaudio_setup` runs its body at exactly the
indices of `forIndicesFrom`. -/
theorem resetKeysFrom_indices :
    ∀ (fuel i : Nat) (keys : Keys),
      resetKeysFrom keys fuel i
        = (forIndicesFrom fuel i).foldl
            (fun ks i => if h : i ≤ 5 then
                Function.update ks ⟨i, by omega⟩ (ks ⟨i, by omega⟩).reset else ks) keys := by
  intro fuel
  induction fuel with
  | zero => intro i keys; rfl
  | succ f ih =>
    intro i keys
    rw [resetKeysFrom, forIndicesFrom]
    by_cases h : i ≤ 5
    · rw [dif_pos h, if_pos h, List.foldl_cons, dif_pos h]
      exact ih _ _
    · rw [dif_neg h, if_neg h]
      rfl

end

set_option maxRecDepth 100000 in
/-- C13 (code). The loops of the audio unit leave the array `Keyboard keys[5]`:
`for(i=0; i<=5; i++)` runs its body at `i = 0, ..., 5`, and index 5 designates
no slot of a five-slot pool. The access is not idle: `processaudio_setup` and
the loop of the fourth switch reset the storage at `keys[5]`, and the slot
scan reads it (with a note there alone the Kick step runs). The scans of the
decoder stay within `0..4`. -/
theorem C13_scan_index_out_of_range :
    forIndicesFrom 6 0 = [0, 1, 2, 3, 4, 5] ∧
    slotIndex? 5 = none ∧
    (∀ i ∈ doWhileIndicesFrom 5 0, (slotIndex? i).isSome = true) ∧
    sampleCell5.keys 5 = { midiNote := 60, playing := true } ∧
    (processaudio_setup sampleCell5).keys 5 = { midiNote := 0, playing := false } ∧
    samplePanic.keys 5 = { midiNote := 60, playing := true } ∧
    (processaudio_background_loop samplePanic).keys 5 = { midiNote := 0, playing := false } ∧
    (∀ j : Fin 6, j.val < 5 → sampleCell5.keys j = { midiNote := 0, playing := false }) ∧
    sampleCell5.Kickdrum.counter = 0 ∧
    (processSample sampleEnv sampleCell5).Kickdrum.counter = 1 := by
  decide

/-! ## The amplitude envelopes -/

section
variable {R : Type} [LinearOrderedField R]

theorem Kickdrum_A_t_eq (env : Env R) (s : Synth R) :
    Kickdrum_A_t env s = Kickdrum_envelope env.exp s.Kickdrum.A_t (Kickdrum_t_r env s) := rfl

theorem Snaredrum_A_t_eq (env : Env R) (s : Synth R) :
    Snaredrum_A_t env s = Snaredrum_envelope env.exp s.Snaredrum.A_t (Snaredrum_t_r env s) := rfl

theorem Midtom_A_t_eq (env : Env R) (s : Synth R) :
    Midtom_A_t env s = Midtom_envelope env.exp s.Midtom.A_t (Midtom_t_r env s) := rfl

theorem Hightom_A_t_eq (env : Env R) (s : Synth R) :
    Hightom_A_t env s = Hightom_envelope env.exp s.Hightom.A_t (Hightom_t_r env s) := rfl

theorem Hihat_A_t_eq (env : Env R) (s : Synth R) :
    Hihat_A_t env s = Hihat_envelope env.exp s.Hihat.A_t (Hihat_t_r env s) := rfl

theorem envelope3_attack (slope A TimePeak tau r : R) (exp : R → R) (a0 t : R)
    (hTr : TimePeak ≤ r) (h : t ≤ TimePeak) :
    envelope3 slope A TimePeak tau r exp a0 t = slope * t := by
  unfold envelope3
  dsimp only
  rw [if_neg (not_lt.2 (h.trans hTr)), if_neg (fun hc => absurd hc.1 (not_lt.2 h)), if_pos h]

theorem envelope3_decay (slope A TimePeak tau r : R) (exp : R → R) (a0 t : R)
    (h1 : TimePeak < t) (h2 : t ≤ r) :
    envelope3 slope A TimePeak tau r exp a0 t = A * exp (-(t - TimePeak) / tau) := by
  unfold envelope3
  dsimp only
  rw [if_neg (not_lt.2 h2), if_pos ⟨h1, h2⟩]

theorem envelope3_end (slope A TimePeak tau r : R) (exp : R → R) (a0 t : R) (h : r < t) :
    envelope3 slope A TimePeak tau r exp a0 t = 0 := by
  unfold envelope3
  dsimp only
  rw [if_pos h]

/-- Exactly one of the three envelope conditions holds. -/
theorem envelope3_one_branch (TimePeak r t : R) (hTr : TimePeak ≤ r) :
    (t ≤ TimePeak ∧ ¬ (t > TimePeak ∧ t ≤ r) ∧ ¬ t > r) ∨
    (¬ t ≤ TimePeak ∧ (t > TimePeak ∧ t ≤ r) ∧ ¬ t > r) ∨
    (¬ t ≤ TimePeak ∧ ¬ (t > TimePeak ∧ t ≤ r) ∧ t > r) := by
  rcases le_or_lt t TimePeak with h1 | h1
  · exact Or.inl ⟨h1, fun hc => absurd hc.1 (not_lt.2 h1), not_lt.2 (h1.trans hTr)⟩
  · rcases le_or_lt t r with h2 | h2
    · exact Or.inr (Or.inl ⟨not_le.2 h1, ⟨h1, h2⟩, not_lt.2 h2⟩)
    · exact Or.inr (Or.inr ⟨not_le.2 h1, fun hc => absurd hc.2 (not_le.2 h2), h2⟩)

/-- The envelope does not depend on the value `A_t` held before. -/
theorem envelope3_indep (slope A TimePeak tau r : R) (exp : R → R) (a0 b0 t : R)
    (hTr : TimePeak ≤ r) :
    envelope3 slope A TimePeak tau r exp a0 t = envelope3 slope A TimePeak tau r exp b0 t := by
  rcases le_or_lt t TimePeak with h1 | h1
  · rw [envelope3_attack _ _ _ _ _ _ _ _ hTr h1, envelope3_attack _ _ _ _ _ _ _ _ hTr h1]
  · rcases le_or_lt t r with h2 | h2
    · rw [envelope3_decay _ _ _ _ _ _ _ _ h1 h2, envelope3_decay _ _ _ _ _ _ _ _ h1 h2]
    · rw [envelope3_end _ _ _ _ _ _ _ _ h2, envelope3_end _ _ _ _ _ _ _ _ h2]

/-- The envelope is non-negative up to `r` and 0 after `r`. -/
theorem envelope3_sign (slope A TimePeak tau r : R) (exp : R → R) (a0 t : R)
    (hs : 0 ≤ slope) (hA : 0 ≤ A) (hTr : TimePeak ≤ r) (hexp : ∀ x, 0 ≤ exp x) (ht : 0 ≤ t) :
    (t ≤ r → 0 ≤ envelope3 slope A TimePeak tau r exp a0 t) ∧
    (r < t → envelope3 slope A TimePeak tau r exp a0 t = 0) := by
  refine ⟨?_, envelope3_end _ _ _ _ _ _ _ _⟩
  intro h2
  rcases le_or_lt t TimePeak with h1 | h1
  · rw [envelope3_attack _ _ _ _ _ _ _ _ hTr h1]
    exact mul_nonneg hs ht
  · rw [envelope3_decay _ _ _ _ _ _ _ _ h1 h2]
    exact mul_nonneg hA (hexp _)

end

/-! ## The amplitude envelopes over the reals -/

theorem envelope3_continuousOn_attack (slope A TimePeak tau r a0 : ℝ) (hTr : TimePeak ≤ r) :
    ContinuousOn (envelope3 slope A TimePeak tau r Real.exp a0) (Set.Icc 0 TimePeak) := by
  have hc : Continuous (fun t : ℝ => slope * t) := continuous_const.mul continuous_id
  exact hc.continuousOn.congr (fun _ ht => envelope3_attack _ _ _ _ _ _ _ _ hTr ht.2)

theorem decay_continuous (A TimePeak tau : ℝ) :
    Continuous (fun t : ℝ => A * Real.exp (-(t - TimePeak) / tau)) := by
  fun_prop

theorem envelope3_continuousOn_decay (slope A TimePeak tau r a0 : ℝ) :
    ContinuousOn (envelope3 slope A TimePeak tau r Real.exp a0) (Set.Ioc TimePeak r) :=
  (decay_continuous A TimePeak tau).continuousOn.congr
    (fun _ ht => envelope3_decay _ _ _ _ _ _ _ _ ht.1 ht.2)

/-- When the ramp reaches exactly `A` at `TimePeak` the envelope is continuous
on `[0, r]`. -/
theorem envelope3_continuousOn (slope A TimePeak tau r a0 : ℝ) (hTr : TimePeak ≤ r)
    (hmeet : slope * TimePeak = A) :
    ContinuousOn (envelope3 slope A TimePeak tau r Real.exp a0) (Set.Icc 0 r) := by
  have hglue : Continuous (fun t : ℝ =>
      if t ≤ TimePeak then slope * t else A * Real.exp (-(t - TimePeak) / tau)) := by
    refine Continuous.if_le (continuous_const.mul continuous_id) (decay_continuous A TimePeak tau)
      continuous_id continuous_const ?_
    intro t ht
    simp only [id_eq] at ht
    subst ht
    simp [hmeet]
  refine hglue.continuousOn.congr ?_
  intro t ht
  by_cases h1 : t ≤ TimePeak
  · simp only [if_pos h1]
    exact envelope3_attack _ _ _ _ _ _ _ _ hTr h1
  · simp only [if_neg h1]
    exact envelope3_decay _ _ _ _ _ _ _ _ (not_le.1 h1) ht.2

/-- When the ramp misses `A` at `TimePeak` the envelope jumps there. -/
theorem envelope3_not_continuousOn (slope A TimePeak tau r a0 : ℝ) (h0 : 0 ≤ TimePeak)
    (hTr : TimePeak < r) (hmiss : slope * TimePeak ≠ A) :
    ¬ ContinuousOn (envelope3 slope A TimePeak tau r Real.exp a0) (Set.Icc 0 r) := by
  intro hc
  have hmem : TimePeak ∈ Set.Icc (0 : ℝ) r := ⟨h0, hTr.le⟩
  have hw : ContinuousWithinAt (envelope3 slope A TimePeak tau r Real.exp a0)
      (Set.Ioc TimePeak r) TimePeak :=
    (hc TimePeak hmem).mono (fun t ht => ⟨h0.trans ht.1.le, ht.2⟩)
  have hval : envelope3 slope A TimePeak tau r Real.exp a0 TimePeak = slope * TimePeak :=
    envelope3_attack _ _ _ _ _ _ _ _ hTr.le (le_refl _)
  have ht1 : Filter.Tendsto (envelope3 slope A TimePeak tau r Real.exp a0)
      (nhdsWithin TimePeak (Set.Ioc TimePeak r)) (nhds (slope * TimePeak)) := by
    have := hw.tendsto
    rwa [hval] at this
  have hg : Filter.Tendsto (fun t : ℝ => A * Real.exp (-(t - TimePeak) / tau))
      (nhdsWithin TimePeak (Set.Ioc TimePeak r)) (nhds A) := by
    have h := (decay_continuous A TimePeak tau).continuousWithinAt
      (s := Set.Ioc TimePeak r) (x := TimePeak)
    have h' := h.tendsto
    simpa using h'
  have heq : (fun t : ℝ => A * Real.exp (-(t - TimePeak) / tau))
      =ᶠ[nhdsWithin TimePeak (Set.Ioc TimePeak r)]
        envelope3 slope A TimePeak tau r Real.exp a0 := by
    filter_upwards [self_mem_nhdsWithin] with t ht
    exact (envelope3_decay _ _ _ _ _ _ _ _ ht.1 ht.2).symm
  have ht2 := hg.congr' heq
  haveI : (nhdsWithin TimePeak (Set.Ioc TimePeak r)).NeBot := by
    rw [nhdsWithin_Ioc_eq_nhdsWithin_Ioi hTr]
    infer_instance
  exact hmiss (tendsto_nhds_unique ht1 ht2)

/-- C18. Amplitude envelope sign and cut-off: for each of the five drum types
and every elapsed time `t >= 0`, exactly one of the three envelope branches
applies, the envelope is non-negative for `t` in `[0, r]` and is 0 for every
`t > r` (`r` = 0.3 Kick, 0.25 Snare, 0.4 MidTom and HighTom, 0.3 HiHat); this
holds in every ordered field for every non-negative `exp`, in particular over
the reals with the exponential function. -/
theorem C18_envelope_sign_cutoff {R : Type} [LinearOrderedField R] (exp : R → R)
    (hexp : ∀ x, 0 ≤ exp x) (a0 t : R) (ht : 0 ≤ t) :
    (ExactlyOneBranch 0.005 0.3 t ∧ (t ≤ 0.3 → 0 ≤ Kickdrum_envelope exp a0 t) ∧
      (0.3 < t → Kickdrum_envelope exp a0 t = 0)) ∧
    (ExactlyOneBranch 0.00152 0.25 t ∧ (t ≤ 0.25 → 0 ≤ Snaredrum_envelope exp a0 t) ∧
      (0.25 < t → Snaredrum_envelope exp a0 t = 0)) ∧
    (ExactlyOneBranch 0.00642 0.4 t ∧ (t ≤ 0.4 → 0 ≤ Midtom_envelope exp a0 t) ∧
      (0.4 < t → Midtom_envelope exp a0 t = 0)) ∧
    (ExactlyOneBranch 0.0144 0.4 t ∧ (t ≤ 0.4 → 0 ≤ Hightom_envelope exp a0 t) ∧
      (0.4 < t → Hightom_envelope exp a0 t = 0)) ∧
    (ExactlyOneBranch 0.00122 0.3 t ∧ (t ≤ 0.3 → 0 ≤ Hihat_envelope exp a0 t) ∧
      (0.3 < t → Hihat_envelope exp a0 t = 0)) := by
  refine ⟨⟨?_, ?_⟩, ⟨?_, ?_⟩, ⟨?_, ?_⟩, ⟨?_, ?_⟩, ⟨?_, ?_⟩⟩
  · exact envelope3_one_branch _ _ t (by norm_num)
  · exact envelope3_sign _ _ _ _ _ exp a0 t (by norm_num) (by norm_num) (by norm_num) hexp ht
  · exact envelope3_one_branch _ _ t (by norm_num)
  · exact envelope3_sign _ _ _ _ _ exp a0 t (by norm_num) (by norm_num) (by norm_num) hexp ht
  · exact envelope3_one_branch _ _ t (by norm_num)
  · exact envelope3_sign _ _ _ _ _ exp a0 t (by norm_num) (by norm_num) (by norm_num) hexp ht
  · exact envelope3_one_branch _ _ t (by norm_num)
  · exact envelope3_sign _ _ _ _ _ exp a0 t (by norm_num) (by norm_num) (by norm_num) hexp ht
  · exact envelope3_one_branch _ _ t (by norm_num)
  · exact envelope3_sign _ _ _ _ _ exp a0 t (by norm_num) (by norm_num) (by norm_num) hexp ht

theorem C18_envelope_sign_cutoff_witness :
    ExactlyOneBranch (0.005 : ℝ) 0.3 0.1 ∧
    ((0.1 : ℝ) ≤ 0.3 → 0 ≤ Kickdrum_envelope Real.exp 0 0.1) ∧
    ((0.3 : ℝ) < 0.1 → Kickdrum_envelope Real.exp 0 0.1 = 0) :=
  (C18_envelope_sign_cutoff Real.exp (fun x => (Real.exp_pos x).le) 0 0.1 (by norm_num)).1

/-- C17 (as stated) fails: read as exact reals, the Kick ramp reaches
`199.826*0.005 = 0.99913` at `TimePeak`, not the sustain amplitude `0.999`, so
the envelope jumps there and is not continuous on `[0, 0.3]`; the Snare, MidTom
and HiHat ramps miss their amplitudes as well. -/
theorem C17_envelope_continuity_counterexample :
    Kickdrum_envelope Real.exp 0 0.005 = 0.99913 ∧
    ¬ ContinuousOn (Kickdrum_envelope Real.exp 0) (Set.Icc 0 0.3) ∧
    ¬ ContinuousOn (Snaredrum_envelope Real.exp 0) (Set.Icc 0 0.25) ∧
    ¬ ContinuousOn (Midtom_envelope Real.exp 0) (Set.Icc 0 0.4) ∧
    ¬ ContinuousOn (Hihat_envelope Real.exp 0) (Set.Icc 0 0.3) := by
  refine ⟨?_, ?_, ?_, ?_, ?_⟩
  · unfold Kickdrum_envelope
    rw [envelope3_attack _ _ _ _ _ _ _ _ (by norm_num) (le_refl _)]
    norm_num
  · exact envelope3_not_continuousOn _ _ _ _ _ _ (by norm_num) (by norm_num) (by norm_num)
  · exact envelope3_not_continuousOn _ _ _ _ _ _ (by norm_num) (by norm_num) (by norm_num)
  · exact envelope3_not_continuousOn _ _ _ _ _ _ (by norm_num) (by norm_num) (by norm_num)
  · exact envelope3_not_continuousOn _ _ _ _ _ _ (by norm_num) (by norm_num) (by norm_num)

/-- C17 (amended). Read as exact reals, the HighTom envelope is continuous on
`[0, 0.4]`, its ramp reaching exactly `69.375*0.0144 = 0.999` at `TimePeak`.
Each of the other four envelopes is continuous on `[0, TimePeak]` and on
`(TimePeak, r]`, and at `TimePeak` its ramp stands at `0.99913` (Kick),
`0.99900024` (Snare), `0.99899694` (MidTom) and `0.99999984` (HiHat), within
`0.00014` of the sustain amplitude. -/
theorem C17_envelope_piecewise_continuity (a0 : ℝ) :
    (ContinuousOn (Hightom_envelope Real.exp a0) (Set.Icc 0 0.4) ∧
      Hightom_envelope Real.exp a0 0.0144 = 0.999) ∧
    (ContinuousOn (Kickdrum_envelope Real.exp a0) (Set.Icc 0 0.005) ∧
      ContinuousOn (Kickdrum_envelope Real.exp a0) (Set.Ioc 0.005 0.3) ∧
      Kickdrum_envelope Real.exp a0 0.005 = 0.99913) ∧
    (ContinuousOn (Snaredrum_envelope Real.exp a0) (Set.Icc 0 0.00152) ∧
      ContinuousOn (Snaredrum_envelope Real.exp a0) (Set.Ioc 0.00152 0.25) ∧
      Snaredrum_envelope Real.exp a0 0.00152 = 0.99900024) ∧
    (ContinuousOn (Midtom_envelope Real.exp a0) (Set.Icc 0 0.00642) ∧
      ContinuousOn (Midtom_envelope Real.exp a0) (Set.Ioc 0.00642 0.4) ∧
      Midtom_envelope Real.exp a0 0.00642 = 0.99899694) ∧
    (ContinuousOn (Hihat_envelope Real.exp a0) (Set.Icc 0 0.00122) ∧
      ContinuousOn (Hihat_envelope Real.exp a0) (Set.Ioc 0.00122 0.3) ∧
      Hihat_envelope Real.exp a0 0.00122 = 0.99999984) := by
  refine ⟨⟨?_, ?_⟩, ⟨?_, ?_, ?_⟩, ⟨?_, ?_, ?_⟩, ⟨?_, ?_, ?_⟩, ⟨?_, ?_, ?_⟩⟩
  · exact envelope3_continuousOn _ _ _ _ _ a0 (by norm_num) (by norm_num)
  · unfold Hightom_envelope
    rw [envelope3_attack _ _ _ _ _ _ _ _ (by norm_num) (le_refl _)]
    norm_num
  · exact envelope3_continuousOn_attack _ _ _ _ _ a0 (by norm_num)
  · exact envelope3_continuousOn_decay _ _ _ _ _ a0
  · unfold Kickdrum_envelope
    rw [envelope3_attack _ _ _ _ _ _ _ _ (by norm_num) (le_refl _)]
    norm_num
  · exact envelope3_continuousOn_attack _ _ _ _ _ a0 (by norm_num)
  · exact envelope3_continuousOn_decay _ _ _ _ _ a0
  · unfold Snaredrum_envelope
    rw [envelope3_attack _ _ _ _ _ _ _ _ (by norm_num) (le_refl _)]
    norm_num
  · exact envelope3_continuousOn_attack _ _ _ _ _ a0 (by norm_num)
  · exact envelope3_continuousOn_decay _ _ _ _ _ a0
  · unfold Midtom_envelope
    rw [envelope3_attack _ _ _ _ _ _ _ _ (by norm_num) (le_refl _)]
    norm_num
  · exact envelope3_continuousOn_attack _ _ _ _ _ a0 (by norm_num)
  · exact envelope3_continuousOn_decay _ _ _ _ _ a0
  · unfold Hihat_envelope
    rw [envelope3_attack _ _ _ _ _ _ _ _ (by norm_num) (le_refl _)]
    norm_num

/-! ## Different drum types: frame lemmas -/

section
variable {R : Type} [LinearOrderedField R]

theorem slotBody_eq_branchOf (env : Env R) (j : Fin 6) (s : Synth R) :
    slotBody env j s
      = writeOut (branchOf .hihat env j (branchOf .hightom env j (branchOf .midtom env j
          (branchOf .snare env j (branchOf .kick env j s))))) := rfl

theorem ctl_branchOf (d : DrumId) (env : Env R) (j : Fin 6) (s : Synth R) :
    (branchOf d env j s).ctl = Ctl.branch d j s.ctl := by
  cases d
  · exact ctl_kickBranch env j s
  · exact ctl_snareBranch env j s
  · exact ctl_midtomBranch env j s
  · exact ctl_hightomBranch env j s
  · exact ctl_hihatBranch env j s

theorem branchOf_of_ne (d : DrumId) (env : Env R) (j : Fin 6) (s : Synth R)
    (h : (s.keys j).midiNote ≠ d.note) : branchOf d env j s = s := by
  cases d <;> exact if_neg h

theorem kickBranch_frame (env : Env R) (j : Fin 6) (s : Synth R) :
    (∀ d, (kickBranch env j s).shift d = s.shift d) ∧
    (∀ d, (kickBranch env j s).variant d = s.variant d) ∧
    (∀ d, d ≠ DrumId.kick → (kickBranch env j s).acc d = s.acc d) ∧
    (∀ d, (kickBranch env j s).randPos d = s.randPos d) := by
  unfold kickBranch
  dsimp only
  split_ifs <;> refine ⟨?_, ?_, ?_, ?_⟩ <;> intro d <;> cases d <;>
    first | rfl | (intro _; rfl) | (intro h; exact absurd rfl h)

theorem snareBranch_frame (env : Env R) (j : Fin 6) (s : Synth R) :
    (∀ d, (snareBranch env j s).shift d = s.shift d) ∧
    (∀ d, (snareBranch env j s).variant d = s.variant d) ∧
    (∀ d, d ≠ DrumId.snare → (snareBranch env j s).acc d = s.acc d) ∧
    (∀ d, d ≠ DrumId.snare → d ≠ DrumId.hihat →
      (snareBranch env j s).randPos d = s.randPos d) := by
  unfold snareBranch
  dsimp only
  split_ifs <;> refine ⟨?_, ?_, ?_, ?_⟩ <;> intro d <;> cases d <;>
    first | rfl | (intro _; rfl) | (intro h; exact absurd rfl h) | (intro _ _; rfl) |
      (intro _ h; exact absurd rfl h)

theorem midtomBranch_frame (env : Env R) (j : Fin 6) (s : Synth R) :
    (∀ d, (midtomBranch env j s).shift d = s.shift d) ∧
    (∀ d, (midtomBranch env j s).variant d = s.variant d) ∧
    (∀ d, d ≠ DrumId.midtom → (midtomBranch env j s).acc d = s.acc d) ∧
    (∀ d, (midtomBranch env j s).randPos d = s.randPos d) := by
  unfold midtomBranch
  dsimp only
  split_ifs <;> refine ⟨?_, ?_, ?_, ?_⟩ <;> intro d <;> cases d <;>
    first | rfl | (intro _; rfl) | (intro h; exact absurd rfl h)

theorem hightomBranch_frame (env : Env R) (j : Fin 6) (s : Synth R) :
    (∀ d, (hightomBranch env j s).shift d = s.shift d) ∧
    (∀ d, (hightomBranch env j s).variant d = s.variant d) ∧
    (∀ d, d ≠ DrumId.hightom → (hightomBranch env j s).acc d = s.acc d) ∧
    (∀ d, (hightomBranch env j s).randPos d = s.randPos d) := by
  unfold hightomBranch
  dsimp only
  split_ifs <;> refine ⟨?_, ?_, ?_, ?_⟩ <;> intro d <;> cases d <;>
    first | rfl | (intro _; rfl) | (intro h; exact absurd rfl h)

theorem hihatBranch_frame (env : Env R) (j : Fin 6) (s : Synth R) :
    (∀ d, (hihatBranch env j s).shift d = s.shift d) ∧
    (∀ d, (hihatBranch env j s).variant d = s.variant d) ∧
    (∀ d, d ≠ DrumId.hihat → (hihatBranch env j s).acc d = s.acc d) ∧
    (∀ d, d ≠ DrumId.snare → d ≠ DrumId.hihat →
      (hihatBranch env j s).randPos d = s.randPos d) := by
  unfold hihatBranch
  dsimp only
  split_ifs <;> refine ⟨?_, ?_, ?_, ?_⟩ <;> intro d <;> cases d <;>
    first | rfl | (intro _; rfl) | (intro h; exact absurd rfl h) | (intro _ _; rfl) |
      (intro _ h; exact absurd rfl h)

end

/-! ## The control skeleton through the eyes of one drum type -/

theorem cellOf_reset (d : DrumId) (k : Keyboard) : cellOf d k.reset = none := by
  unfold cellOf Keyboard.reset
  exact if_neg (fun h => DrumId.note_ne_zero d h.symm)

theorem cellOf_of_ne (d : DrumId) (k : Keyboard) (h : k.midiNote ≠ d.note) :
    cellOf d k = none := if_neg h

theorem cellOf_of_eq (d : DrumId) (k : Keyboard) (h : k.midiNote = d.note) :
    cellOf d k = some k.playing := if_pos h

theorem cellOf_nextKey (d : DrumId) (L n : Nat) (k : Keyboard) (h : k.midiNote = d.note) :
    cellOf d (nextKey L n k)
      = if (n = L ∨ n = L + 1) ∧ k.playing = false then none else some k.playing := by
  unfold nextKey
  split
  · exact cellOf_reset d k
  · exact cellOf_of_eq d k h

/-- A branch of another drum type leaves what drum `d` sees of the cells. -/
theorem Ctl.branch_cellOf_other (d e : DrumId) (j i : Fin 6) (c : Ctl) (h : e ≠ d) :
    cellOf d ((Ctl.branch e j c).keys i) = cellOf d (c.keys i) := by
  by_cases hn : (c.keys j).midiNote = e.note
  · rw [Ctl.branch_keys e j c hn]
    by_cases hi : i = j
    · subst hi
      rw [Function.update_same]
      have hd : (c.keys i).midiNote ≠ d.note := by
        rw [hn]; exact fun hc => h (DrumId.note_injective _ _ hc)
      rw [cellOf_of_ne d _ hd]
      unfold nextKey
      split
      · exact cellOf_reset d _
      · exact cellOf_of_ne d _ hd
    · rw [Function.update_noteq hi]
  · rw [Ctl.branch_of_ne e j c hn]

/-- A branch changes the transient-layer counter of another drum type only
when it runs and shares that counter. -/
theorem Ctl.branch_sub_other (d e : DrumId) (j : Fin 6) (c : Ctl)
    (h : (c.keys j).midiNote = e.note → d.shares e = false) (hne : e ≠ d) :
    (Ctl.branch e j c).sub d = c.sub d := by
  by_cases hn : (c.keys j).midiNote = e.note
  · have hs := h hn
    unfold Ctl.branch Ctl.retrigger Ctl.release Ctl.count
    cases d <;> cases e <;>
      first
        | exact absurd rfl hne
        | exact absurd hs (by decide)
        | (simp only [Ctl.cnt, Ctl.bump, Ctl.restart]; split_ifs <;> rfl)
  · rw [Ctl.branch_of_ne e j c hn]

/-- The transient-layer counter after a branch that runs, as a function of
what the drum type sees. -/
theorem Ctl.branch_sub_self (d : DrumId) (j : Fin 6) :
    ∃ f : Nat → Nat → Bool → Nat, ∀ c : Ctl, (c.keys j).midiNote = d.note →
      (Ctl.branch d j c).sub d = f (c.cnt d) (c.sub d) (c.keys j).playing := by
  cases d
  · refine ⟨fun n m p => if n ≤ 14400 then (if n = 14400 ∧ p = true then 0 else m + 1)
        else (if n = 14401 ∧ p = true then 0 else m), fun c hn => ?_⟩
    unfold Ctl.branch Ctl.retrigger Ctl.release Ctl.count
    rw [if_pos hn]
    simp only [Ctl.cnt, Ctl.bump, Ctl.restart, Ctl.sub, DrumId.limit]
    by_cases h1 : c.kick ≤ 14400
    · by_cases h2 : c.kick = 14400
      · cases hp : (c.keys j).playing <;> simp [h2, hp, Keyboard.reset]
      · have h3 : ¬ c.kick + 1 = 14401 := by omega
        simp [h1, h2, h3]
    · by_cases h2 : c.kick = 14401
      · cases hp : (c.keys j).playing <;> simp [h2, hp, Keyboard.reset]
      · simp [h1, h2]
  · exact ⟨fun _ _ _ => 0, fun _ _ => rfl⟩
  · refine ⟨fun n m p => if n ≤ 19200 then (if n = 19200 ∧ p = true then 0 else m + 1)
        else (if n = 19201 ∧ p = true then 0 else m), fun c hn => ?_⟩
    unfold Ctl.branch Ctl.retrigger Ctl.release Ctl.count
    rw [if_pos hn]
    simp only [Ctl.cnt, Ctl.bump, Ctl.restart, Ctl.sub, DrumId.limit]
    by_cases h1 : c.midtom ≤ 19200
    · by_cases h2 : c.midtom = 19200
      · cases hp : (c.keys j).playing <;> simp [h2, hp, Keyboard.reset]
      · have h3 : ¬ c.midtom + 1 = 19201 := by omega
        simp [h1, h2, h3]
    · by_cases h2 : c.midtom = 19201
      · cases hp : (c.keys j).playing <;> simp [h2, hp, Keyboard.reset]
      · simp [h1, h2]
  · refine ⟨fun n m p => if n ≤ 19200 then (if n = 19200 ∧ p = true then 0 else m + 1)
        else (if n = 19201 ∧ p = true then 0 else m), fun c hn => ?_⟩
    unfold Ctl.branch Ctl.retrigger Ctl.release Ctl.count
    rw [if_pos hn]
    simp only [Ctl.cnt, Ctl.bump, Ctl.restart, Ctl.sub, DrumId.limit]
    by_cases h1 : c.hightom ≤ 19200
    · by_cases h2 : c.hightom = 19200
      · cases hp : (c.keys j).playing <;> simp [h2, hp, Keyboard.reset]
      · have h3 : ¬ c.hightom + 1 = 19201 := by omega
        simp [h1, h2, h3]
    · by_cases h2 : c.hightom = 19201
      · cases hp : (c.keys j).playing <;> simp [h2, hp, Keyboard.reset]
      · simp [h1, h2]
  · exact ⟨fun _ _ _ => 0, fun _ _ => rfl⟩

/-- The own branch acts alike on two skeletons that drum `d` cannot tell
apart. -/
theorem Ctl.branch_agree (d : DrumId) (j : Fin 6) (c1 c2 : Ctl)
    (hc : c1.cnt d = c2.cnt d) (hs : c1.sub d = c2.sub d)
    (hk : ∀ i, cellOf d (c1.keys i) = cellOf d (c2.keys i)) :
    (Ctl.branch d j c1).cnt d = (Ctl.branch d j c2).cnt d ∧
    (Ctl.branch d j c1).sub d = (Ctl.branch d j c2).sub d ∧
    ∀ i, cellOf d ((Ctl.branch d j c1).keys i) = cellOf d ((Ctl.branch d j c2).keys i) := by
  by_cases hn : (c1.keys j).midiNote = d.note
  · have hkj := hk j
    rw [cellOf_of_eq d _ hn] at hkj
    have hn2 : (c2.keys j).midiNote = d.note := by
      by_contra hc2
      rw [cellOf_of_ne d _ hc2] at hkj
      exact Option.noConfusion hkj
    rw [cellOf_of_eq d _ hn2] at hkj
    have hp : (c1.keys j).playing = (c2.keys j).playing := Option.some.inj hkj
    refine ⟨?_, ?_, ?_⟩
    · rw [Ctl.branch_cnt_self d j c1 hn, Ctl.branch_cnt_self d j c2 hn2, hc, hp]
    · obtain ⟨f, hf⟩ := Ctl.branch_sub_self d j
      rw [hf c1 hn, hf c2 hn2, hc, hs, hp]
    · intro i
      rw [Ctl.branch_keys d j c1 hn, Ctl.branch_keys d j c2 hn2]
      by_cases hi : i = j
      · subst hi
        rw [Function.update_same, Function.update_same, cellOf_nextKey d _ _ _ hn,
          cellOf_nextKey d _ _ _ hn2, hc, hp]
      · rw [Function.update_noteq hi, Function.update_noteq hi]; exact hk i
  · have hkj := hk j
    rw [cellOf_of_ne d _ hn] at hkj
    have hn2 : (c2.keys j).midiNote ≠ d.note := by
      intro hc2
      rw [cellOf_of_eq d _ hc2] at hkj
      exact Option.noConfusion hkj
    rw [Ctl.branch_of_ne d j c1 hn, Ctl.branch_of_ne d j c2 hn2]
    exact ⟨hc, hs, hk⟩

/-! ## The own branch of a drum type -/

section
variable {R : Type} [LinearOrderedField R]

theorem Kickdrum_A_t_congr (env : Env R) (s1 s2 : Synth R)
    (hc : s1.Kickdrum.counter = s2.Kickdrum.counter) : Kickdrum_A_t env s1 = Kickdrum_A_t env s2 := by
  rw [Kickdrum_A_t_eq, Kickdrum_A_t_eq]
  unfold Kickdrum_t_r Kickdrum_envelope
  rw [hc]
  exact envelope3_indep _ _ _ _ _ _ _ _ _ (by norm_num)

theorem Snaredrum_A_t_congr (env : Env R) (s1 s2 : Synth R)
    (hc : s1.Snaredrum.counter = s2.Snaredrum.counter) : Snaredrum_A_t env s1 = Snaredrum_A_t env s2 := by
  rw [Snaredrum_A_t_eq, Snaredrum_A_t_eq]
  unfold Snaredrum_t_r Snaredrum_envelope
  rw [hc]
  exact envelope3_indep _ _ _ _ _ _ _ _ _ (by norm_num)

theorem Midtom_A_t_congr (env : Env R) (s1 s2 : Synth R)
    (hc : s1.Midtom.counter = s2.Midtom.counter) : Midtom_A_t env s1 = Midtom_A_t env s2 := by
  rw [Midtom_A_t_eq, Midtom_A_t_eq]
  unfold Midtom_t_r Midtom_envelope
  rw [hc]
  exact envelope3_indep _ _ _ _ _ _ _ _ _ (by norm_num)

theorem Hightom_A_t_congr (env : Env R) (s1 s2 : Synth R)
    (hc : s1.Hightom.counter = s2.Hightom.counter) : Hightom_A_t env s1 = Hightom_A_t env s2 := by
  rw [Hightom_A_t_eq, Hightom_A_t_eq]
  unfold Hightom_t_r Hightom_envelope
  rw [hc]
  exact envelope3_indep _ _ _ _ _ _ _ _ _ (by norm_num)

theorem Hihat_A_t_congr (env : Env R) (s1 s2 : Synth R)
    (hc : s1.Hihat.counter = s2.Hihat.counter) : Hihat_A_t env s1 = Hihat_A_t env s2 := by
  rw [Hihat_A_t_eq, Hihat_A_t_eq]
  unfold Hihat_t_r Hihat_envelope
  rw [hc]
  exact envelope3_indep _ _ _ _ _ _ _ _ _ (by norm_num)

/-- The value a branch computes depends only on what the drum type reads. -/
theorem Synth.value_congr (env : Env R) (d : DrumId) (s1 s2 : Synth R)
    (hc : s1.counter d = s2.counter d) (hs : s1.subCounter d = s2.subCounter d)
    (hf : s1.shift d = s2.shift d) (hv : s1.variant d = s2.variant d)
    (hr : s1.randPos d = s2.randPos d) : s1.value env d = s2.value env d := by
  cases d <;> simp only [Synth.counter, Synth.subCounter, Synth.shift, Synth.variant,
    Synth.randPos] at hc hs hf hv hr <;> simp only [Synth.value]
  · unfold SubKick_DrumSynth Kickdrum_DrumSynth
    rw [Kickdrum_A_t_congr env s1 s2 hc]
    unfold SubKick_A_t SubKick_t_r Kickdrum_I_t Kickdrum_t_r
    rw [hc, hf, hs, hv]
  · unfold Snaredrum_DrumSynth Snaredrum_dither
    rw [Snaredrum_A_t_congr env s1 s2 hc]
    unfold Snaredrum_I_t Snaredrum_t_r randFactor
    rw [hc, hf, hv, hr]
  · unfold SubTom_DrumSynth Midtom_DrumSynth
    rw [Midtom_A_t_congr env s1 s2 hc]
    unfold SubTom_A_t SubTom_t_r Midtom_I_t Midtom_t_r
    rw [hc, hf, hs, hv]
  · unfold SubTom_DrumSynth Hightom_DrumSynth
    rw [Hightom_A_t_congr env s1 s2 hc]
    unfold SubTom_A_t SubTom_t_r Hightom_I_t Hightom_t_r
    rw [hc, hf, hs, hv]
  · unfold Hihat_DrumSynth Hihat_dither
    rw [Hihat_A_t_congr env s1 s2 hc]
    unfold Hihat_I_t Hihat_t_r randFactor
    rw [hc, hr]

/-- The accumulator of a drum type after its own branch has run. -/
theorem branchOf_acc (d : DrumId) (env : Env R) (j : Fin 6) (s : Synth R)
    (hn : (s.keys j).midiNote = d.note) :
    (branchOf d env j s).acc d
      = accNext d.limit (s.counter d) (s.keys j).playing (s.value env d) (s.acc d) := by
  cases d <;> simp only [DrumId.note] at hn <;>
    simp only [branchOf, Synth.acc, Synth.counter, Synth.value, DrumId.limit, accNext]
  · unfold kickBranch
    rw [if_pos hn]
    dsimp only
    by_cases hle : s.Kickdrum.counter ≤ 14400
    · simp only [if_pos hle]
      by_cases hb : s.Kickdrum.counter = 14400
      · cases hp : (s.keys j).playing <;> simp [hb, hp, Keyboard.reset]
      · have hb2 : ¬ s.Kickdrum.counter + 1 = 14401 := by omega
        simp [hb, hb2]
    · simp only [if_neg hle]
      by_cases hb : s.Kickdrum.counter = 14401
      · cases hp : (s.keys j).playing <;> simp [hb, hp, Keyboard.reset]
      · simp [hb]
  · unfold snareBranch
    rw [if_pos hn]
    dsimp only
    by_cases hle : s.Snaredrum.counter ≤ 12000
    · simp only [if_pos hle]
      by_cases hb : s.Snaredrum.counter = 12000
      · cases hp : (s.keys j).playing <;> simp [hb, hp, Keyboard.reset]
      · have hb2 : ¬ s.Snaredrum.counter + 1 = 12001 := by omega
        simp [hb, hb2]
    · simp only [if_neg hle]
      by_cases hb : s.Snaredrum.counter = 12001
      · cases hp : (s.keys j).playing <;> simp [hb, hp, Keyboard.reset]
      · simp [hb]
  · unfold midtomBranch
    rw [if_pos hn]
    dsimp only
    by_cases hle : s.Midtom.counter ≤ 19200
    · simp only [if_pos hle]
      by_cases hb : s.Midtom.counter = 19200
      · cases hp : (s.keys j).playing <;> simp [hb, hp, Keyboard.reset]
      · have hb2 : ¬ s.Midtom.counter + 1 = 19201 := by omega
        simp [hb, hb2]
    · simp only [if_neg hle]
      by_cases hb : s.Midtom.counter = 19201
      · cases hp : (s.keys j).playing <;> simp [hb, hp, Keyboard.reset]
      · simp [hb]
  · unfold hightomBranch
    rw [if_pos hn]
    dsimp only
    by_cases hle : s.Hightom.counter ≤ 19200
    · simp only [if_pos hle]
      by_cases hb : s.Hightom.counter = 19200
      · cases hp : (s.keys j).playing <;> simp [hb, hp, Keyboard.reset]
      · have hb2 : ¬ s.Hightom.counter + 1 = 19201 := by omega
        simp [hb, hb2]
    · simp only [if_neg hle]
      by_cases hb : s.Hightom.counter = 19201
      · cases hp : (s.keys j).playing <;> simp [hb, hp, Keyboard.reset]
      · simp [hb]
  · unfold hihatBranch
    rw [if_pos hn]
    dsimp only
    by_cases hle : s.Hihat.counter ≤ 14400
    · simp only [if_pos hle]
      by_cases hb : s.Hihat.counter = 14400
      · cases hp : (s.keys j).playing <;> simp [hb, hp, Keyboard.reset]
      · have hb2 : ¬ s.Hihat.counter + 1 = 14401 := by omega
        simp [hb, hb2]
    · simp only [if_neg hle]
      by_cases hb : s.Hihat.counter = 14401
      · cases hp : (s.keys j).playing <;> simp [hb, hp, Keyboard.reset]
      · simp [hb]

/-- The position in the `rand()` sequence after the own branch has run. -/
theorem branchOf_randPos_self (d : DrumId) (env : Env R) (j : Fin 6) :
    ∃ f : Nat → Nat, ∀ s : Synth R, (s.keys j).midiNote = d.note →
      (branchOf d env j s).randPos d = f (s.randPos d) := by
  cases d
  · exact ⟨fun n => n, fun s _ => (kickBranch_frame env j s).2.2.2 _⟩
  · refine ⟨fun n => n + 1, fun s hn => ?_⟩
    simp only [branchOf, Synth.randPos]
    unfold snareBranch
    rw [if_pos (show (s.keys j).midiNote = 61 from hn)]
    dsimp only
    split_ifs <;> rfl
  · exact ⟨fun n => n, fun s _ => (midtomBranch_frame env j s).2.2.2 _⟩
  · exact ⟨fun n => n, fun s _ => (hightomBranch_frame env j s).2.2.2 _⟩
  · refine ⟨fun n => n + 1, fun s hn => ?_⟩
    simp only [branchOf, Synth.randPos]
    unfold hihatBranch
    rw [if_pos (show (s.keys j).midiNote = 64 from hn)]
    dsimp only
    split_ifs <;> rfl

end

/-! ## Different drum types do not interfere, shared state apart -/

section
variable {R : Type} [LinearOrderedField R]

theorem Synth.AgreeOn.symm {d : DrumId} {s1 s2 : Synth R} (h : Synth.AgreeOn d s1 s2) :
    Synth.AgreeOn d s2 s1 :=
  ⟨h.1.symm, h.2.1.symm, h.2.2.1.symm, h.2.2.2.1.symm, h.2.2.2.2.1.symm,
    fun j => (h.2.2.2.2.2 j).symm⟩

theorem Synth.AgreeOn.trans {d : DrumId} {s1 s2 s3 : Synth R} (h : Synth.AgreeOn d s1 s2)
    (g : Synth.AgreeOn d s2 s3) : Synth.AgreeOn d s1 s3 :=
  ⟨h.1.trans g.1, h.2.1.trans g.2.1, h.2.2.1.trans g.2.2.1, h.2.2.2.1.trans g.2.2.2.1,
    h.2.2.2.2.1.trans g.2.2.2.2.1, fun j => (h.2.2.2.2.2 j).trans (g.2.2.2.2.2 j)⟩

omit [LinearOrderedField R] in
theorem Synth.subCounter_eq_ctl (s : Synth R) (d : DrumId) : s.subCounter d = s.ctl.sub d := by
  cases d <;> rfl

/-- No branch writes a `freqShift` or a variant counter, and only the own
branch writes an accumulator. -/
theorem branchOf_frame (e : DrumId) (env : Env R) (j : Fin 6) (s : Synth R) (d : DrumId) :
    (branchOf e env j s).shift d = s.shift d ∧ (branchOf e env j s).variant d = s.variant d ∧
    (d ≠ e → (branchOf e env j s).acc d = s.acc d) := by
  cases e
  · exact ⟨(kickBranch_frame env j s).1 d, (kickBranch_frame env j s).2.1 d,
      (kickBranch_frame env j s).2.2.1 d⟩
  · exact ⟨(snareBranch_frame env j s).1 d, (snareBranch_frame env j s).2.1 d,
      (snareBranch_frame env j s).2.2.1 d⟩
  · exact ⟨(midtomBranch_frame env j s).1 d, (midtomBranch_frame env j s).2.1 d,
      (midtomBranch_frame env j s).2.2.1 d⟩
  · exact ⟨(hightomBranch_frame env j s).1 d, (hightomBranch_frame env j s).2.1 d,
      (hightomBranch_frame env j s).2.2.1 d⟩
  · exact ⟨(hihatBranch_frame env j s).1 d, (hihatBranch_frame env j s).2.1 d,
      (hihatBranch_frame env j s).2.2.1 d⟩

/-- The branch of another drum type moves the position in the `rand()`
sequence that `d` reads only when it runs and shares it. -/
theorem branchOf_randPos_other (e d : DrumId) (env : Env R) (j : Fin 6) (s : Synth R)
    (h : (s.keys j).midiNote = e.note → d.shares e = false) (hne : e ≠ d) :
    (branchOf e env j s).randPos d = s.randPos d := by
  by_cases hn : (s.keys j).midiNote = e.note
  · have hs := h hn
    cases e
    · exact (kickBranch_frame env j s).2.2.2 d
    · refine (snareBranch_frame env j s).2.2.2 d (fun hd => hne hd.symm) ?_
      intro hd; subst hd; exact absurd hs (by decide)
    · exact (midtomBranch_frame env j s).2.2.2 d
    · exact (hightomBranch_frame env j s).2.2.2 d
    · refine (hihatBranch_frame env j s).2.2.2 d ?_ (fun hd => hne hd.symm)
      intro hd; subst hd; exact absurd hs (by decide)
  · rw [branchOf_of_ne e env j s hn]

/-- The branch of another drum type that does not run, or does not share state
with `d`, leaves everything the branch of `d` reads, and the accumulator of
`d`. -/
theorem branchOf_other (e d : DrumId) (env : Env R) (j : Fin 6) (s : Synth R)
    (h : (s.keys j).midiNote = e.note → d.shares e = false) (hne : e ≠ d) :
    Synth.AgreeOn d (branchOf e env j s) s ∧ (branchOf e env j s).acc d = s.acc d := by
  have hf := branchOf_frame e env j s d
  refine ⟨⟨?_, ?_, hf.1, hf.2.1, branchOf_randPos_other e d env j s h hne, ?_⟩,
    hf.2.2 (fun hd => hne hd.symm)⟩
  · rw [Synth.counter_eq_ctl, Synth.counter_eq_ctl, ctl_branchOf]
    exact Ctl.branch_cnt_other e d j _ (fun hd => hne hd.symm)
  · rw [Synth.subCounter_eq_ctl, Synth.subCounter_eq_ctl, ctl_branchOf]
    exact Ctl.branch_sub_other d e j _ h hne
  · intro i
    have hk : (branchOf e env j s).keys = (Ctl.branch e j s.ctl).keys :=
      congrArg Ctl.keys (ctl_branchOf e env j s)
    rw [hk]
    exact Ctl.branch_cellOf_other d e j i s.ctl hne

/-- The own branch acts alike on two states that agree on what it reads. -/
theorem branchOf_self (d : DrumId) (env : Env R) (j : Fin 6) (s1 s2 : Synth R)
    (h : Synth.AgreeOn d s1 s2) (ha : s1.acc d = s2.acc d) :
    Synth.AgreeOn d (branchOf d env j s1) (branchOf d env j s2) ∧
      (branchOf d env j s1).acc d = (branchOf d env j s2).acc d := by
  obtain ⟨hc, hs, hf, hv, hr, hk⟩ := h
  have hctl := Ctl.branch_agree d j s1.ctl s2.ctl
    (by rw [← Synth.counter_eq_ctl, ← Synth.counter_eq_ctl]; exact hc)
    (by rw [← Synth.subCounter_eq_ctl, ← Synth.subCounter_eq_ctl]; exact hs) hk
  have hf1 := branchOf_frame d env j s1 d
  have hf2 := branchOf_frame d env j s2 d
  have hcnt : (branchOf d env j s1).counter d = (branchOf d env j s2).counter d := by
    rw [Synth.counter_eq_ctl, Synth.counter_eq_ctl, ctl_branchOf, ctl_branchOf]; exact hctl.1
  have hsub : (branchOf d env j s1).subCounter d = (branchOf d env j s2).subCounter d := by
    rw [Synth.subCounter_eq_ctl, Synth.subCounter_eq_ctl, ctl_branchOf, ctl_branchOf]
    exact hctl.2.1
  have hcells : ∀ i, cellOf d ((branchOf d env j s1).keys i)
      = cellOf d ((branchOf d env j s2).keys i) := by
    intro i
    have hk1 : (branchOf d env j s1).keys = (Ctl.branch d j s1.ctl).keys :=
      congrArg Ctl.keys (ctl_branchOf d env j s1)
    have hk2 : (branchOf d env j s2).keys = (Ctl.branch d j s2.ctl).keys :=
      congrArg Ctl.keys (ctl_branchOf d env j s2)
    rw [hk1, hk2]; exact hctl.2.2 i
  by_cases hn : (s1.keys j).midiNote = d.note
  · have hkj := hk j
    rw [cellOf_of_eq d _ hn] at hkj
    have hn2 : (s2.keys j).midiNote = d.note := by
      by_contra hc2
      rw [cellOf_of_ne d _ hc2] at hkj
      exact Option.noConfusion hkj
    rw [cellOf_of_eq d _ hn2] at hkj
    have hp : (s1.keys j).playing = (s2.keys j).playing := Option.some.inj hkj
    obtain ⟨f, hfr⟩ := branchOf_randPos_self d env j
    refine ⟨⟨hcnt, hsub, hf1.1.trans (hf.trans hf2.1.symm), hf1.2.1.trans (hv.trans hf2.2.1.symm),
      ?_, hcells⟩, ?_⟩
    · rw [hfr s1 hn, hfr s2 hn2, hr]
    · rw [branchOf_acc d env j s1 hn, branchOf_acc d env j s2 hn2, hc, hp, ha,
        Synth.value_congr env d s1 s2 hc hs hf hv hr]
  · have hkj := hk j
    rw [cellOf_of_ne d _ hn] at hkj
    have hn2 : (s2.keys j).midiNote ≠ d.note := by
      intro hc2
      rw [cellOf_of_eq d _ hc2] at hkj
      exact Option.noConfusion hkj
    rw [branchOf_of_ne d env j s1 hn, branchOf_of_ne d env j s2 hn2]
    exact ⟨⟨hc, hs, hf, hv, hr, hk⟩, ha⟩

end

section
variable {R : Type} [LinearOrderedField R]

/-- One branch of the slot step keeps the agreement on drum type `d`, as long
as `keys[j]` holds no note of a drum type sharing state with `d`. -/
theorem branchOf_agree (e d : DrumId) (env : Env R) (j : Fin 6) (s1 s2 : Synth R)
    (h : Synth.AgreeOn d s1 s2) (ha : s1.acc d = s2.acc d)
    (h1 : ∀ x : DrumId, d.shares x = true → (s1.keys j).midiNote ≠ x.note)
    (h2 : ∀ x : DrumId, d.shares x = true → (s2.keys j).midiNote ≠ x.note) :
    Synth.AgreeOn d (branchOf e env j s1) (branchOf e env j s2) ∧
    (branchOf e env j s1).acc d = (branchOf e env j s2).acc d ∧
    (∀ x : DrumId, d.shares x = true → ((branchOf e env j s1).keys j).midiNote ≠ x.note) ∧
    (∀ x : DrumId, d.shares x = true → ((branchOf e env j s2).keys j).midiNote ≠ x.note) := by
  have hk : ∀ s : Synth R, (∀ x : DrumId, d.shares x = true → (s.keys j).midiNote ≠ x.note) →
      ∀ x : DrumId, d.shares x = true → ((branchOf e env j s).keys j).midiNote ≠ x.note := by
    intro s hs x hx
    have hkeys : (branchOf e env j s).keys = (Ctl.branch e j s.ctl).keys :=
      congrArg Ctl.keys (ctl_branchOf e env j s)
    rw [hkeys]
    exact Ctl.branch_then_ne e x j s.ctl (hs x hx)
  have hsh : ∀ s : Synth R, (∀ x : DrumId, d.shares x = true → (s.keys j).midiNote ≠ x.note) →
      (s.keys j).midiNote = e.note → d.shares e = false := by
    intro s hs hn
    cases hb : d.shares e
    · rfl
    · exact absurd hn (hs e hb)
  by_cases hed : e = d
  · subst hed
    have hself := branchOf_self e env j s1 s2 h ha
    exact ⟨hself.1, hself.2, hk s1 h1, hk s2 h2⟩
  · have ho1 := branchOf_other e d env j s1 (hsh s1 h1) hed
    have ho2 := branchOf_other e d env j s2 (hsh s2 h2) hed
    exact ⟨ho1.1.trans (h.trans ho2.1.symm), ho1.2.trans (ha.trans ho2.2.symm),
      hk s1 h1, hk s2 h2⟩

theorem writeOut_agree (d : DrumId) (s1 s2 : Synth R) (h : Synth.AgreeOn d s1 s2)
    (ha : s1.acc d = s2.acc d) :
    Synth.AgreeOn d (writeOut s1) (writeOut s2) ∧ (writeOut s1).acc d = (writeOut s2).acc d := by
  cases d <;> exact ⟨h, ha⟩

theorem zeroAccumulators_agree (d : DrumId) (s1 s2 : Synth R) (h : Synth.AgreeOn d s1 s2) :
    Synth.AgreeOn d (zeroAccumulators s1) (zeroAccumulators s2) ∧
      (zeroAccumulators s1).acc d = (zeroAccumulators s2).acc d := by
  cases d <;> exact ⟨h, rfl⟩

theorem slotBody_noSharer (d : DrumId) (env : Env R) (j : Fin 6) (s : Synth R)
    (h : Synth.NoSharer d s) : Synth.NoSharer d (slotBody env j s) := by
  intro i x hx
  rw [slotBody_keys]
  exact Ctl.slot_note_ne x j i s.ctl (h i x hx)

/-- The slot step keeps the agreement on drum type `d`. -/
theorem slotBody_agree (d : DrumId) (env : Env R) (j : Fin 6) (s1 s2 : Synth R)
    (h : Synth.AgreeOn d s1 s2) (ha : s1.acc d = s2.acc d)
    (h1 : Synth.NoSharer d s1) (h2 : Synth.NoSharer d s2) :
    Synth.AgreeOn d (slotBody env j s1) (slotBody env j s2) ∧
    (slotBody env j s1).acc d = (slotBody env j s2).acc d ∧
    Synth.NoSharer d (slotBody env j s1) ∧ Synth.NoSharer d (slotBody env j s2) := by
  have a1 := branchOf_agree .kick d env j s1 s2 h ha (h1 j) (h2 j)
  have a2 := branchOf_agree .snare d env j _ _ a1.1 a1.2.1 a1.2.2.1 a1.2.2.2
  have a3 := branchOf_agree .midtom d env j _ _ a2.1 a2.2.1 a2.2.2.1 a2.2.2.2
  have a4 := branchOf_agree .hightom d env j _ _ a3.1 a3.2.1 a3.2.2.1 a3.2.2.2
  have a5 := branchOf_agree .hihat d env j _ _ a4.1 a4.2.1 a4.2.2.1 a4.2.2.2
  have a6 := writeOut_agree d _ _ a5.1 a5.2.1
  rw [slotBody_eq_branchOf, slotBody_eq_branchOf] at *
  exact ⟨a6.1, a6.2, slotBody_noSharer d env j s1 h1, slotBody_noSharer d env j s2 h2⟩

/-- C20 (amended): drum types that share no state do not interfere. Let two
states agree on what the branch of drum type `X` reads (counter, transient-layer
counter, `freqShift`, variant counter, position in the `rand()` sequence, and
which cells hold the note of `X` with which `playing` flag), and let no cell of
either state hold the note of a drum type that shares state with `X` (the other
Tom for a Tom, the other of Snare and Hi-hat for those two). Then one sample,
under the same `sin`, `exp` and `rand`, gives the same accumulator for `X`, the
same new counter and transient-layer counter, and the two states still agree:
whatever other notes the cells hold. -/
theorem C20_no_interference_without_shared_state (env : Env R) (X : DrumId) (s1 s2 : Synth R)
    (h : Synth.AgreeOn X s1 s2) (h1 : Synth.NoSharer X s1) (h2 : Synth.NoSharer X s2) :
    (processSample env s1).acc X = (processSample env s2).acc X ∧
    (processSample env s1).counter X = (processSample env s2).counter X ∧
    (processSample env s1).subCounter X = (processSample env s2).subCounter X ∧
    Synth.AgreeOn X (processSample env s1) (processSample env s2) := by
  have a0 := zeroAccumulators_agree X s1 s2 h
  have b0 := slotBody_agree X env 0 _ _ a0.1 a0.2 h1 h2
  have b1 := slotBody_agree X env 1 _ _ b0.1 b0.2.1 b0.2.2.1 b0.2.2.2
  have b2 := slotBody_agree X env 2 _ _ b1.1 b1.2.1 b1.2.2.1 b1.2.2.2
  have b3 := slotBody_agree X env 3 _ _ b2.1 b2.2.1 b2.2.2.1 b2.2.2.2
  have b4 := slotBody_agree X env 4 _ _ b3.1 b3.2.1 b3.2.2.1 b3.2.2.2
  have b5 := slotBody_agree X env 5 _ _ b4.1 b4.2.1 b4.2.2.1 b4.2.2.2
  rw [processSample_eq, processSample_eq]
  exact ⟨b5.2.1, b5.1.1, b5.1.2.1, b5.1⟩

end

set_option maxRecDepth 100000 in
set_option maxHeartbeats 1000000 in
/-- C20 (as stated) fails for the two Toms, which share `SubTom`: the states
`sampleTwoToms` and `sampleMidtomAlone` agree on the Mid-tom counter, on the
counter of its transient layer and on which cells hold note 62 with which
flag, and differ in slot 0 holding the High-tom note 63. After one sample the
Mid-tom counter is 1 in both, but the transient-layer counter the Mid-tom
reads is 2 in the one and 1 in the other, and the Mid-tom accumulator (with
the stand-in `sin x = x` of `sampleEnv`) is positive in the one and 0 in the
other. -/
theorem C20_interference_counterexample :
    sampleTwoToms.Midtom.counter = sampleMidtomAlone.Midtom.counter ∧
    sampleTwoToms.SubTom.counter = sampleMidtomAlone.SubTom.counter ∧
    (∀ j : Fin 6, cellOf .midtom (sampleTwoToms.keys j)
      = cellOf .midtom (sampleMidtomAlone.keys j)) ∧
    (processSample sampleEnv sampleTwoToms).Midtom.counter = 1 ∧
    (processSample sampleEnv sampleMidtomAlone).Midtom.counter = 1 ∧
    (processSample sampleEnv sampleTwoToms).SubTom.counter = 2 ∧
    (processSample sampleEnv sampleMidtomAlone).SubTom.counter = 1 ∧
    0 < (processSample sampleEnv sampleTwoToms).tempAudio3 ∧
    (processSample sampleEnv sampleMidtomAlone).tempAudio3 = 0 := by
  refine ⟨by decide, by decide, by decide, by decide, by decide, by decide, by decide, ?_, ?_⟩
  · rw [processSample_eq]
    simp [slotBody, writeOut, zeroAccumulators, kickBranch, snareBranch, midtomBranch,
      hightomBranch, hihatBranch, sampleTwoToms, Synth.zero, Drums.zero, sampleEnv,
      SubTom_DrumSynth, Midtom_DrumSynth, Midtom_A_t, SubTom_A_t, SubTom_t_r, Midtom_t_r,
      Midtom_I_t, Hightom_A_t, Hightom_DrumSynth, Hightom_t_r, Hightom_I_t]
    norm_num
  · rw [processSample_eq]
    simp [slotBody, writeOut, zeroAccumulators, kickBranch, snareBranch, midtomBranch,
      hightomBranch, hihatBranch, sampleMidtomAlone, Synth.zero, Drums.zero, sampleEnv,
      SubTom_DrumSynth, Midtom_DrumSynth, Midtom_A_t, SubTom_A_t, SubTom_t_r, Midtom_t_r,
      Midtom_I_t]

theorem C20_no_interference_without_shared_state_witness :
    (processSample sampleEnv sampleKickAndMidtom).acc .midtom
      = (processSample sampleEnv sampleMidtomAlone).acc .midtom ∧
    (processSample sampleEnv sampleKickAndMidtom).counter .midtom
      = (processSample sampleEnv sampleMidtomAlone).counter .midtom ∧
    (processSample sampleEnv sampleKickAndMidtom).subCounter .midtom
      = (processSample sampleEnv sampleMidtomAlone).subCounter .midtom ∧
    Synth.AgreeOn .midtom (processSample sampleEnv sampleKickAndMidtom)
      (processSample sampleEnv sampleMidtomAlone) :=
  C20_no_interference_without_shared_state sampleEnv .midtom sampleKickAndMidtom
    sampleMidtomAlone ⟨rfl, rfl, rfl, rfl, rfl, by decide⟩
    (by intro j e; cases e <;> revert j <;> decide)
    (by intro j e; cases e <;> revert j <;> decide)

/-! ## The noise term -/

section
variable {R : Type} [LinearOrderedField R]

omit [LinearOrderedField R] in
theorem randFactor_cases (env : Env R) (s : Synth R) :
    randFactor env s = -1 ∨ randFactor env s = 0 := by
  unfold randFactor
  have h : env.rand s.randCalls % 2 = 0 ∨ env.rand s.randCalls % 2 = 1 := by omega
  rcases h with h | h
  · left; rw [h]; rfl
  · right; rw [h]; rfl

/-- C26. The noise term is one-sided: whatever `rand()` returns, the factor
`rand() % 2 - 1` is -1 (even value) or 0 (odd value), so the Snare dither is
0 or `-0.035 * A_t` and the Hi-hat dither is 0 or `-0.2 * A_t`, and with
`A_t >= 0` neither is positive. -/
theorem C26_noise_one_sided (env : Env R) (s : Synth R) :
    (randFactor env s = -1 ∨ randFactor env s = 0) ∧
    (env.rand s.randCalls % 2 = 0 → randFactor env s = -1) ∧
    (env.rand s.randCalls % 2 = 1 → randFactor env s = 0) ∧
    (Snaredrum_dither env s = 0 ∨ Snaredrum_dither env s = -0.035 * Snaredrum_A_t env s) ∧
    (Hihat_dither env s = 0 ∨ Hihat_dither env s = -0.2 * Hihat_A_t env s) ∧
    (0 ≤ Snaredrum_A_t env s → Snaredrum_dither env s ≤ 0) ∧
    (0 ≤ Hihat_A_t env s → Hihat_dither env s ≤ 0) := by
  have hs : Snaredrum_dither env s = 0 ∨
      Snaredrum_dither env s = -0.035 * Snaredrum_A_t env s := by
    unfold Snaredrum_dither
    rcases randFactor_cases env s with h | h
    · right; rw [h]; push_cast; ring
    · left; rw [h]; push_cast; ring
  have hh : Hihat_dither env s = 0 ∨ Hihat_dither env s = -0.2 * Hihat_A_t env s := by
    unfold Hihat_dither
    rcases randFactor_cases env s with h | h
    · right; rw [h]; push_cast; ring
    · left; rw [h]; push_cast; ring
  refine ⟨randFactor_cases env s, ?_, ?_, hs, hh, ?_, ?_⟩
  · intro h; unfold randFactor; rw [h]; rfl
  · intro h; unfold randFactor; rw [h]; rfl
  · intro hA
    rcases hs with h | h
    · rw [h]
    · rw [h]
      have : (0:R) ≤ 0.035 := by norm_num
      nlinarith
  · intro hA
    rcases hh with h | h
    · rw [h]
    · rw [h]
      have : (0:R) ≤ 0.2 := by norm_num
      nlinarith

end

theorem C26_noise_one_sided_witness :
    randFactor sampleEnv sampleNoise = -1 ∧
    Snaredrum_dither sampleEnv sampleNoise ≤ 0 ∧ Hihat_dither sampleEnv sampleNoise ≤ 0 :=
  ⟨(C26_noise_one_sided sampleEnv sampleNoise).2.1 (by decide),
    (C26_noise_one_sided sampleEnv sampleNoise).2.2.2.2.2.1
      (by norm_num [Snaredrum_A_t, Snaredrum_t_r, sampleNoise, sampleEnv]),
    (C26_noise_one_sided sampleEnv sampleNoise).2.2.2.2.2.2
      (by norm_num [Hihat_A_t, Hihat_t_r, sampleNoise, sampleEnv])⟩

/-! ## Notes outside 60..64 -/

section
variable {R : Type} [LinearOrderedField R]

theorem not_drum_note (x : Int) (h : x < 60 ∨ 64 < x) (d : DrumId) : x ≠ d.note := by
  cases d <;> simp only [DrumId.note] <;> omega

omit [LinearOrderedField R] in
theorem Synth.ctl_eq_iff (s t : Synth R) (h : s.ctl = t.ctl) :
    s.keys = t.keys ∧ (∀ d : DrumId, s.counter d = t.counter d) ∧
    s.SubKick.counter = t.SubKick.counter ∧ s.SubTom.counter = t.SubTom.counter := by
  refine ⟨congrArg Ctl.keys h, ?_, congrArg Ctl.subKick h, congrArg Ctl.subTom h⟩
  intro d
  rw [Synth.counter_eq_ctl, Synth.counter_eq_ctl, h]

/-- Samples processed while no cell holds a drum note leave the cells and the
counters. -/
theorem samples_idle_ctl (env : Env R) (m : Machine R)
    (h : ∀ (i : Fin 6) (d : DrumId), (m.synth.keys i).midiNote ≠ d.note) (k : Nat) :
    (Machine.samples env k m).synth.ctl = m.synth.ctl := by
  induction k with
  | zero => rfl
  | succ n ih =>
    rw [Machine.samples_succ]
    show (processSample env (Machine.samples env n m).synth).ctl = _
    rw [ctl_processSample, ih]
    exact Ctl.scanFrom_idle 6 0 m.synth.ctl h

/-- The pool after NoteOn(n) from the initial state: slot 0 sounds `n`, every
other cell is reset. -/
theorem noteOn_init_keys (env : Env R) (n v : Byte) (j : Fin 6) :
    (Machine.run env Machine.init (midiBytes [0x90, n, v])).synth.keys j
      = if j = 0 then { midiNote := (n.val : Int), playing := true }
        else { midiNote := 0, playing := false } := by
  have e0 : (Machine.run env Machine.init (midiBytes [0x90, n, v])).synth.keys 0
      = { midiNote := toInt32 n.val, playing := true } := rfl
  by_cases hj : j = 0
  · subst hj
    rw [if_pos rfl, e0, toInt32_byte]
  · rw [if_neg hj]
    fin_cases j
    · exact absurd rfl hj
    all_goals rfl

/-- C22. Notes outside `60..64` are silent and free of side effects: when no
cell the scan reads holds one of the notes 60, 61, 62, 63, 64, one sample
writes 0 to both output channels and leaves every cell and every counter
(the five fundamental counters, `SubKick.counter` and `SubTom.counter`)
unchanged. So after a NoteOn for such a note from the initial state, slot 0
stays occupied with `playing = true` after any number of samples, every
counter stays 0 and every sample writes 0 to both channels. -/
theorem C22_unrecognised_notes_silent (env : Env R) :
    (∀ s : Synth R, (∀ j : Fin 6, (s.keys j).midiNote < 60 ∨ 64 < (s.keys j).midiNote) →
      (processSample env s).left_out = 0 ∧ (processSample env s).right_out = 0 ∧
      (processSample env s).keys = s.keys ∧
      (∀ d : DrumId, (processSample env s).counter d = s.counter d) ∧
      (processSample env s).SubKick.counter = s.SubKick.counter ∧
      (processSample env s).SubTom.counter = s.SubTom.counter) ∧
    (∀ (n v : Byte) (k : Nat), (n.val < 60 ∨ 64 < n.val) →
      (Machine.samples env k (Machine.run env Machine.init (midiBytes [0x90, n, v]))).synth.keys 0
        = { midiNote := (n.val : Int), playing := true } ∧
      (∀ d : DrumId,
        (Machine.samples env k
          (Machine.run env Machine.init (midiBytes [0x90, n, v]))).synth.counter d = 0) ∧
      (1 ≤ k →
        (Machine.samples env k
          (Machine.run env Machine.init (midiBytes [0x90, n, v]))).synth.left_out = 0 ∧
        (Machine.samples env k
          (Machine.run env Machine.init (midiBytes [0x90, n, v]))).synth.right_out = 0)) := by
  constructor
  · intro s h
    have hall : ∀ (i : Fin 6) (d : DrumId), (s.keys i).midiNote ≠ d.note :=
      fun i d => not_drum_note _ (h i) d
    have hctl : (processSample env s).ctl = s.ctl := by
      rw [ctl_processSample]
      exact Ctl.scanFrom_idle 6 0 s.ctl hall
    have hc := Synth.ctl_eq_iff _ _ hctl
    exact ⟨(processSample_out_idle env s hall).1, (processSample_out_idle env s hall).2,
      hc.1, hc.2.1, hc.2.2.1, hc.2.2.2⟩
  · intro n v k hn
    have hall : ∀ (i : Fin 6) (d : DrumId),
        ((Machine.run env Machine.init (midiBytes [0x90, n, v])).synth.keys i).midiNote
          ≠ d.note := by
      intro i d
      rw [noteOn_init_keys]
      split
      · exact not_drum_note _ (by simp only; omega) d
      · exact fun hc => DrumId.note_ne_zero d hc.symm
    have hctl := samples_idle_ctl env _ hall
    have hc := Synth.ctl_eq_iff _ _ (hctl k)
    refine ⟨?_, ?_, ?_⟩
    · rw [hc.1, noteOn_init_keys, if_pos rfl]
    · intro d
      rw [hc.2.1 d]
      cases d <;> rfl
    · intro hk
      obtain ⟨k0, rfl⟩ : ∃ k0, k = k0 + 1 := ⟨k - 1, by omega⟩
      rw [Machine.samples_succ]
      have hk0 := Synth.ctl_eq_iff _ _ (hctl k0)
      exact processSample_out_idle env _ (fun i d => by rw [hk0.1]; exact hall i d)

end

theorem C22_unrecognised_notes_silent_witness :
    (processSample sampleEnv sampleOtherNotes).left_out = 0 ∧
    (processSample sampleEnv sampleOtherNotes).right_out = 0 ∧
    (processSample sampleEnv sampleOtherNotes).keys = sampleOtherNotes.keys ∧
    (∀ d : DrumId,
      (processSample sampleEnv sampleOtherNotes).counter d = sampleOtherNotes.counter d) ∧
    (processSample sampleEnv sampleOtherNotes).SubKick.counter
      = sampleOtherNotes.SubKick.counter ∧
    (processSample sampleEnv sampleOtherNotes).SubTom.counter
      = sampleOtherNotes.SubTom.counter :=
  (C22_unrecognised_notes_silent sampleEnv).1 sampleOtherNotes (by decide)

/-! ## Invariants of the counters -/

section
variable {R : Type} [LinearOrderedField R]

/-- The loop of the fourth switch leaves the two transient-layer counters. -/
theorem panicFrom_sub :
    ∀ (fuel i : Nat) (s : Synth R),
      (panicFrom fuel i s).SubKick.counter = s.SubKick.counter ∧
      (panicFrom fuel i s).SubTom.counter = s.SubTom.counter := by
  intro fuel
  induction fuel with
  | zero => intro i s; exact ⟨rfl, rfl⟩
  | succ f ih =>
    intro i s
    rw [panicFrom]
    split
    · exact ih _ _
    · exact ⟨rfl, rfl⟩

theorem background_sub (s : Synth R) :
    (processaudio_background_loop s).SubKick.counter = s.SubKick.counter ∧
    (processaudio_background_loop s).SubTom.counter = s.SubTom.counter := by
  unfold processaudio_background_loop
  dsimp only
  split_ifs <;> first
    | exact ⟨(panicFrom_sub _ _ _).1, (panicFrom_sub _ _ _).2⟩
    | exact ⟨rfl, rfl⟩

/-- Only a processed sample changes a counter. -/
theorem step_counters (env : Env R) (m : Machine R) (e : Event R) (h : e ≠ Event.sample) :
    (∀ d : DrumId, (Machine.step env m e).synth.counter d = m.synth.counter d) ∧
    (Machine.step env m e).synth.SubKick.counter = m.synth.SubKick.counter ∧
    (Machine.step env m e).synth.SubTom.counter = m.synth.SubTom.counter := by
  refine ⟨fun d => step_counter env d m e (fun hc => absurd hc h), ?_⟩
  cases e with
  | midi val => exact ⟨rfl, rfl⟩
  | sample => exact absurd rfl h
  | block => exact ⟨rfl, rfl⟩
  | background => exact background_sub m.synth
  | shared x => exact ⟨rfl, rfl⟩

end

theorem nextCount_le (L n : Nat) (p : Bool) (h : n ≤ L + 1) : nextCount L n p ≤ L + 1 := by
  unfold nextCount
  split_ifs <;> omega

/-- A branch keeps every fundamental counter within its threshold plus one. -/
theorem Ctl.branch_bound (e d : DrumId) (j : Fin 6) (c : Ctl) (h : c.cnt d ≤ d.limit + 1) :
    (Ctl.branch e j c).cnt d ≤ d.limit + 1 := by
  by_cases hn : (c.keys j).midiNote = e.note
  · by_cases hed : d = e
    · subst hed
      rw [Ctl.branch_cnt_self d j c hn]
      exact nextCount_le _ _ _ h
    · rw [Ctl.branch_cnt_other e d j c hed]; exact h
  · rw [Ctl.branch_of_ne e j c hn]; exact h

theorem Ctl.slot_bound (d : DrumId) (j : Fin 6) (c : Ctl) (h : c.cnt d ≤ d.limit + 1) :
    (Ctl.slot j c).cnt d ≤ d.limit + 1 := by
  unfold Ctl.slot
  exact Ctl.branch_bound _ d j _ (Ctl.branch_bound _ d j _ (Ctl.branch_bound _ d j _
    (Ctl.branch_bound _ d j _ (Ctl.branch_bound _ d j _ h))))

theorem Ctl.sample_bound (d : DrumId) (c : Ctl) (h : c.cnt d ≤ d.limit + 1) :
    (Ctl.sample c).cnt d ≤ d.limit + 1 := by
  rw [Ctl.sample_eq]
  exact Ctl.slot_bound d _ _ (Ctl.slot_bound d _ _ (Ctl.slot_bound d _ _
    (Ctl.slot_bound d _ _ (Ctl.slot_bound d _ _ (Ctl.slot_bound d _ _ h)))))

section
variable {R : Type} [LinearOrderedField R]

/-- An invariant of every event holds after every run from the initial
state. -/
theorem run_induction (env : Env R) (P : Machine R → Prop) (h0 : P Machine.init)
    (hstep : ∀ (m : Machine R) (e : Event R), P m → P (Machine.step env m e))
    (evs : List (Event R)) : P (Machine.run env Machine.init evs) :=
  reachable_induction env P h0 hstep _ ⟨evs, rfl⟩

theorem run_counter_bound (env : Env R) (evs : List (Event R)) (d : DrumId) :
    (Machine.run env Machine.init evs).synth.counter d ≤ d.limit + 1 := by
  refine run_induction env (fun m => m.synth.counter d ≤ d.limit + 1) ?_ ?_ evs
  · cases d <;> exact Nat.zero_le _
  · intro m e h
    by_cases he : e = Event.sample
    · subst he
      show (processSample env m.synth).counter d ≤ _
      rw [processSample_counter]
      exact Ctl.sample_bound d _ (by rw [← Synth.counter_eq_ctl]; exact h)
    · show (Machine.step env m e).synth.counter d ≤ _
      rw [(step_counters env m e he).1 d]; exact h

/-- C25. Counter bounds: after any sequence of events from the initial state
(MIDI bytes, processed samples, block starts, runs of the background loop,
writes of the other core to the shared data, in any order) every fundamental
counter, a natural number in the model, is at most its threshold plus one:
Kick 14401, Snare 12001, MidTom 19201, HighTom 19201, HiHat 14401. -/
theorem C25_counter_bounds (env : Env R) (evs : List (Event R)) :
    (Machine.run env Machine.init evs).synth.Kickdrum.counter ≤ 14401 ∧
    (Machine.run env Machine.init evs).synth.Snaredrum.counter ≤ 12001 ∧
    (Machine.run env Machine.init evs).synth.Midtom.counter ≤ 19201 ∧
    (Machine.run env Machine.init evs).synth.Hightom.counter ≤ 19201 ∧
    (Machine.run env Machine.init evs).synth.Hihat.counter ≤ 14401 :=
  ⟨run_counter_bound env evs .kick, run_counter_bound env evs .snare,
    run_counter_bound env evs .midtom, run_counter_bound env evs .hightom,
    run_counter_bound env evs .hihat⟩

theorem run_subKick (env : Env R) (evs : List (Event R)) :
    (Machine.run env Machine.init evs).synth.SubKick.counter
      = (Machine.run env Machine.init evs).synth.Kickdrum.counter := by
  refine run_induction env
    (fun m => m.synth.SubKick.counter = m.synth.Kickdrum.counter) rfl ?_ evs
  intro m e h
  by_cases he : e = Event.sample
  · subst he
    have hs := Ctl.sample_subKick m.synth.ctl h
    rw [← ctl_processSample env] at hs
    exact hs
  · show (Machine.step env m e).synth.SubKick.counter = (Machine.step env m e).synth.counter .kick
    rw [(step_counters env m e he).2.1, (step_counters env m e he).1 .kick]
    exact h

/-- C27. The Kick transient counter tracks the fundamental: after any sequence
of events from the initial state `SubKick.counter` equals `Kickdrum.counter`,
so the two elapsed times are equal and the test `Kickdrum.t_r <= SubKick.r`
that gates the transient holds exactly when the transient's own elapsed time
is at most `SubKick.r = 0.03`. -/
theorem C27_subkick_tracks_kick (env : Env R) (evs : List (Event R)) :
    (Machine.run env Machine.init evs).synth.SubKick.counter
      = (Machine.run env Machine.init evs).synth.Kickdrum.counter ∧
    SubKick_t_r env (Machine.run env Machine.init evs).synth
      = Kickdrum_t_r env (Machine.run env Machine.init evs).synth ∧
    (Kickdrum_t_r env (Machine.run env Machine.init evs).synth ≤ 0.03 ↔
      SubKick_t_r env (Machine.run env Machine.init evs).synth ≤ 0.03) ∧
    SubKick_DrumSynth env (Machine.run env Machine.init evs).synth
      = if SubKick_t_r env (Machine.run env Machine.init evs).synth ≤ 0.03 then
          SubKick_A_t env (Machine.run env Machine.init evs).synth *
            env.sin (2 * env.PI * 200 * SubKick_t_r env (Machine.run env Machine.init evs).synth
              + 5 * SubKick_A_t env (Machine.run env Machine.init evs).synth *
                env.sin (2 * env.PI * 350 *
                  SubKick_t_r env (Machine.run env Machine.init evs).synth))
        else 0 := by
  have h := run_subKick env evs
  have ht : SubKick_t_r env (Machine.run env Machine.init evs).synth
      = Kickdrum_t_r env (Machine.run env Machine.init evs).synth := by
    unfold SubKick_t_r Kickdrum_t_r
    rw [h]
  refine ⟨h, ht, by rw [ht], ?_⟩
  unfold SubKick_DrumSynth
  simp only [ht]

end

/-! ## Several cells holding the note of one drum type -/

theorem holdsNote_reset (d : DrumId) :
    holdsNote d { midiNote := 0, playing := false } = 0 :=
  if_neg (fun h => DrumId.note_ne_zero d h.symm)

/-- A slot step below the threshold adds 1 to the counter of `d` when the cell
holds the note of `d`, and no cell starts or stops holding that note. -/
theorem Ctl.slot_count (d : DrumId) (j : Fin 6) (c : Ctl)
    (h : (c.keys j).midiNote = d.note → c.cnt d < d.limit) :
    (Ctl.slot j c).cnt d = c.cnt d + holdsNote d (c.keys j) ∧
    ∀ i : Fin 6, holdsNote d ((Ctl.slot j c).keys i) = holdsNote d (c.keys i) := by
  by_cases hn : (c.keys j).midiNote = d.note
  · have hlt := h hn
    have hkey : nextKey d.limit (c.cnt d) (c.keys j) = c.keys j := by
      unfold nextKey
      rw [if_neg]
      intro hc
      omega
    have hcnt : nextCount d.limit (c.cnt d) (c.keys j).playing = c.cnt d + 1 := by
      unfold nextCount
      rw [if_pos hlt]
    rw [Ctl.slot_of_note d j c hn, Ctl.branch_cnt_self d j c hn, Ctl.branch_keys d j c hn, hkey,
      hcnt, Function.update_eq_self]
    exact ⟨by unfold holdsNote; rw [if_pos hn], fun _ => rfl⟩
  · refine ⟨?_, ?_⟩
    · rw [Ctl.slot_cnt_of_ne d j c hn]
      unfold holdsNote
      rw [if_neg hn, Nat.add_zero]
    · intro i
      by_cases hi : i = j
      · subst hi
        rcases Ctl.slot_keys_self i c with h1 | h1
        · rw [h1]
        · rw [h1, holdsNote_reset]
          unfold holdsNote
          rw [if_neg hn]
      · rw [Ctl.slot_keys_other j i c hi]

theorem holdsNote_le (d : DrumId) (k : Keyboard) : holdsNote d k ≤ 1 := by
  unfold holdsNote
  split <;> omega

theorem holdsNote_pos (d : DrumId) (k : Keyboard) (h : k.midiNote = d.note) :
    holdsNote d k = 1 := if_pos h

/-- One sample below the threshold adds to the counter of `d` the number of
cells the scan reads that hold the note of `d`. -/
theorem Ctl.sample_count (d : DrumId) (c : Ctl)
    (h : c.cnt d + (holdsNote d (c.keys 0) + holdsNote d (c.keys 1) + holdsNote d (c.keys 2)
      + holdsNote d (c.keys 3) + holdsNote d (c.keys 4) + holdsNote d (c.keys 5)) ≤ d.limit) :
    (Ctl.sample c).cnt d
      = c.cnt d + (holdsNote d (c.keys 0) + holdsNote d (c.keys 1) + holdsNote d (c.keys 2)
        + holdsNote d (c.keys 3) + holdsNote d (c.keys 4) + holdsNote d (c.keys 5)) := by
  have step : ∀ (j : Fin 6) (x : Ctl), (holdsNote d (x.keys j) = 1 → x.cnt d < d.limit) →
      (Ctl.slot j x).cnt d = x.cnt d + holdsNote d (x.keys j) ∧
      ∀ i : Fin 6, holdsNote d ((Ctl.slot j x).keys i) = holdsNote d (x.keys i) :=
    fun j x hx => Ctl.slot_count d j x (fun hn => hx (holdsNote_pos d _ hn))
  have b0 := holdsNote_le d (c.keys 0)
  have b1 := holdsNote_le d (c.keys 1)
  have b2 := holdsNote_le d (c.keys 2)
  have b3 := holdsNote_le d (c.keys 3)
  have b4 := holdsNote_le d (c.keys 4)
  have b5 := holdsNote_le d (c.keys 5)
  have s0 := step 0 c (by intro h1; omega)
  have s1 := step 1 (Ctl.slot 0 c) (by
    intro h1; rw [s0.2 1] at h1; rw [s0.1]; omega)
  have k1 : ∀ i, holdsNote d ((Ctl.slot 1 (Ctl.slot 0 c)).keys i) = holdsNote d (c.keys i) :=
    fun i => (s1.2 i).trans (s0.2 i)
  have c1 : (Ctl.slot 1 (Ctl.slot 0 c)).cnt d
      = c.cnt d + holdsNote d (c.keys 0) + holdsNote d (c.keys 1) := by
    rw [s1.1, s0.1, s0.2 1]
  have s2 := step 2 _ (by intro h1; rw [k1 2] at h1; rw [c1]; omega)
  have k2 : ∀ i, holdsNote d ((Ctl.slot 2 (Ctl.slot 1 (Ctl.slot 0 c))).keys i)
      = holdsNote d (c.keys i) := fun i => (s2.2 i).trans (k1 i)
  have c2 : (Ctl.slot 2 (Ctl.slot 1 (Ctl.slot 0 c))).cnt d
      = c.cnt d + holdsNote d (c.keys 0) + holdsNote d (c.keys 1) + holdsNote d (c.keys 2) := by
    rw [s2.1, c1, k1 2]
  have s3 := step 3 _ (by intro h1; rw [k2 3] at h1; rw [c2]; omega)
  have k3 : ∀ i, holdsNote d ((Ctl.slot 3 (Ctl.slot 2 (Ctl.slot 1 (Ctl.slot 0 c)))).keys i)
      = holdsNote d (c.keys i) := fun i => (s3.2 i).trans (k2 i)
  have c3 : (Ctl.slot 3 (Ctl.slot 2 (Ctl.slot 1 (Ctl.slot 0 c)))).cnt d
      = c.cnt d + holdsNote d (c.keys 0) + holdsNote d (c.keys 1) + holdsNote d (c.keys 2)
        + holdsNote d (c.keys 3) := by
    rw [s3.1, c2, k2 3]
  have s4 := step 4 _ (by intro h1; rw [k3 4] at h1; rw [c3]; omega)
  have k4 : ∀ i,
      holdsNote d ((Ctl.slot 4 (Ctl.slot 3 (Ctl.slot 2 (Ctl.slot 1 (Ctl.slot 0 c))))).keys i)
      = holdsNote d (c.keys i) := fun i => (s4.2 i).trans (k3 i)
  have c4 : (Ctl.slot 4 (Ctl.slot 3 (Ctl.slot 2 (Ctl.slot 1 (Ctl.slot 0 c))))).cnt d
      = c.cnt d + holdsNote d (c.keys 0) + holdsNote d (c.keys 1) + holdsNote d (c.keys 2)
        + holdsNote d (c.keys 3) + holdsNote d (c.keys 4) := by
    rw [s4.1, c3, k3 4]
  have s5 := step 5 _ (by intro h1; rw [k4 5] at h1; rw [c4]; omega)
  rw [Ctl.sample_eq, s5.1, c4, k4 5]
  omega

section
variable {R : Type} [LinearOrderedField R]

/-- C23. Notes of the same type speed up the shared counter: when `k` of the
slots `0..4` hold the note of a drum type (the cell past the end of the array,
which the scan also reads, does not) and the counter `c` of that type
satisfies `c + k <= threshold` at the start of a sample, the counter after
that one sample is `c + k`, whatever the `playing` flags are. This holds for
each of the five drum types with its note and threshold. -/
theorem C23_same_type_notes_add (env : Env R) (d : DrumId) (s : Synth R) (k : Nat)
    (hk : slotsHolding d s.keys = k) (h5 : (s.keys 5).midiNote ≠ d.note)
    (hc : s.counter d + k ≤ d.limit) :
    (processSample env s).counter d = s.counter d + k := by
  have e5 : holdsNote d (s.ctl.keys 5) = 0 := if_neg h5
  have hsum : holdsNote d (s.ctl.keys 0) + holdsNote d (s.ctl.keys 1)
      + holdsNote d (s.ctl.keys 2) + holdsNote d (s.ctl.keys 3) + holdsNote d (s.ctl.keys 4)
      + holdsNote d (s.ctl.keys 5) = k := by
    rw [e5]; exact hk
  rw [processSample_counter, Ctl.sample_count d s.ctl (by
    rw [hsum, ← Synth.counter_eq_ctl]; exact hc), hsum, Synth.counter_eq_ctl]

end

theorem C23_same_type_notes_add_witness :
    (processSample sampleEnv sampleThreeKicks).counter .kick
      = sampleThreeKicks.counter .kick + 3 :=
  C23_same_type_notes_add sampleEnv .kick sampleThreeKicks 3 (by decide) (by decide) (by decide)

/-! ## One cell holding the note of a drum type: the accumulator -/

section
variable {R : Type} [LinearOrderedField R]

theorem Synth.AgreeOn.refl (d : DrumId) (s : Synth R) : Synth.AgreeOn d s s :=
  ⟨rfl, rfl, rfl, rfl, rfl, fun _ => rfl⟩

theorem branchOf_keys (e : DrumId) (env : Env R) (j : Fin 6) (s : Synth R) :
    (branchOf e env j s).keys = (Ctl.branch e j s.ctl).keys :=
  congrArg Ctl.keys (ctl_branchOf e env j s)

/-- For a cell holding the note of drum type `d` the slot step is the branch
of `d` followed by the output statements. -/
theorem slotBody_of_note (d : DrumId) (env : Env R) (j : Fin 6) (s : Synth R)
    (h : (s.keys j).midiNote = d.note) : slotBody env j s = writeOut (branchOf d env j s) := by
  have hne : ∀ e : DrumId, e ≠ d → (s.keys j).midiNote ≠ e.note :=
    fun e he hc => he (DrumId.note_injective e d (hc.symm.trans h))
  have hafter : ∀ e : DrumId, e ≠ d →
      branchOf e env j (branchOf d env j s) = branchOf d env j s := by
    intro e he
    apply branchOf_of_ne
    rw [branchOf_keys]
    exact Ctl.branch_then_ne d e j s.ctl (hne e he)
  rw [slotBody_eq_branchOf]
  cases d
  · rw [hafter .snare (by decide), hafter .midtom (by decide), hafter .hightom (by decide),
      hafter .hihat (by decide)]
  · rw [branchOf_of_ne .kick env j s (hne _ (by decide)),
      hafter .midtom (by decide), hafter .hightom (by decide), hafter .hihat (by decide)]
  · rw [branchOf_of_ne .kick env j s (hne _ (by decide)),
      branchOf_of_ne .snare env j s (hne _ (by decide)),
      hafter .hightom (by decide), hafter .hihat (by decide)]
  · rw [branchOf_of_ne .kick env j s (hne _ (by decide)),
      branchOf_of_ne .snare env j s (hne _ (by decide)),
      branchOf_of_ne .midtom env j s (hne _ (by decide)), hafter .hihat (by decide)]
  · rw [branchOf_of_ne .kick env j s (hne _ (by decide)),
      branchOf_of_ne .snare env j s (hne _ (by decide)),
      branchOf_of_ne .midtom env j s (hne _ (by decide)),
      branchOf_of_ne .hightom env j s (hne _ (by decide))]

theorem writeOut_acc (d : DrumId) (s : Synth R) : (writeOut s).acc d = s.acc d := by
  cases d <;> rfl

theorem writeOut_agree_self (d : DrumId) (s : Synth R) : Synth.AgreeOn d (writeOut s) s := by
  cases d <;> exact ⟨rfl, rfl, rfl, rfl, rfl, fun _ => rfl⟩

/-- The accumulator of `d` after the slot step on a cell holding its note. -/
theorem slotBody_acc_self (d : DrumId) (env : Env R) (j : Fin 6) (s : Synth R)
    (h : (s.keys j).midiNote = d.note) :
    (slotBody env j s).acc d
      = accNext d.limit (s.counter d) (s.keys j).playing (s.value env d) (s.acc d) := by
  rw [slotBody_of_note d env j s h, writeOut_acc, branchOf_acc d env j s h]

/-- A branch on a cell that holds neither the note of `d` nor the note of a
drum type sharing state with `d` leaves what `d` reads, and its accumulator. -/
theorem branchOf_keep (e d : DrumId) (env : Env R) (j : Fin 6) (s : Synth R)
    (hn : (s.keys j).midiNote ≠ d.note)
    (hs : ∀ x : DrumId, d.shares x = true → (s.keys j).midiNote ≠ x.note) :
    Synth.AgreeOn d (branchOf e env j s) s ∧ (branchOf e env j s).acc d = s.acc d ∧
    ((branchOf e env j s).keys j).midiNote ≠ d.note ∧
    ∀ x : DrumId, d.shares x = true → ((branchOf e env j s).keys j).midiNote ≠ x.note := by
  have hk : ∀ x : DrumId, (s.keys j).midiNote ≠ x.note →
      ((branchOf e env j s).keys j).midiNote ≠ x.note := by
    intro x hx
    rw [branchOf_keys]
    exact Ctl.branch_then_ne e x j s.ctl hx
  refine ⟨?_, ?_, hk d hn, fun x hx => hk x (hs x hx)⟩
  · by_cases hed : e = d
    · subst hed
      rw [branchOf_of_ne e env j s hn]
      exact Synth.AgreeOn.refl e s
    · refine (branchOf_other e d env j s ?_ hed).1
      intro he
      cases hb : d.shares e
      · rfl
      · exact absurd he (hs e hb)
  · by_cases hed : e = d
    · subst hed
      rw [branchOf_of_ne e env j s hn]
    · refine (branchOf_other e d env j s ?_ hed).2
      intro he
      cases hb : d.shares e
      · rfl
      · exact absurd he (hs e hb)

/-- The slot step on a cell that holds neither the note of `d` nor the note
of a drum type sharing state with `d` leaves what `d` reads, and its
accumulator. -/
theorem slotBody_keep (d : DrumId) (env : Env R) (j : Fin 6) (s : Synth R)
    (hn : (s.keys j).midiNote ≠ d.note)
    (hs : ∀ x : DrumId, d.shares x = true → (s.keys j).midiNote ≠ x.note) :
    Synth.AgreeOn d (slotBody env j s) s ∧ (slotBody env j s).acc d = s.acc d := by
  have a1 := branchOf_keep .kick d env j s hn hs
  have a2 := branchOf_keep .snare d env j _ a1.2.2.1 a1.2.2.2
  have a3 := branchOf_keep .midtom d env j _ a2.2.2.1 a2.2.2.2
  have a4 := branchOf_keep .hightom d env j _ a3.2.2.1 a3.2.2.2
  have a5 := branchOf_keep .hihat d env j _ a4.2.2.1 a4.2.2.2
  rw [slotBody_eq_branchOf]
  exact ⟨(writeOut_agree_self d _).trans
      (a5.1.trans (a4.1.trans (a3.1.trans (a2.1.trans a1.1)))),
    (writeOut_acc d _).trans
      (a5.2.1.trans (a4.2.1.trans (a3.2.1.trans (a2.2.1.trans a1.2.1))))⟩

/-- The rest of the scan, when none of its cells holds the note of `d`, leaves
the accumulator of `d`. -/
theorem slotScanFrom_acc_keep (d : DrumId) (env : Env R) :
    ∀ (fuel j : Nat) (s : Synth R),
      (∀ k : Fin 6, j ≤ k.val → (s.keys k).midiNote ≠ d.note) →
      Synth.NoSharer d s → (slotScanFrom env fuel j s).acc d = s.acc d := by
  intro fuel
  induction fuel with
  | zero => intro j s _ _; rfl
  | succ f ih =>
    intro j s h hs
    rw [slotScanFrom]
    split
    · rw [ih (j + 1) _ (fun k hk => by
          rw [slotBody_keys]
          exact Ctl.slot_note_ne d _ k s.ctl (h k (by omega))) (slotBody_noSharer d env _ s hs)]
      exact (slotBody_keep d env _ s (h _ (le_refl _)) (hs _)).2
    · rfl

/-- The accumulator of `d` after the scan when exactly the cell `i` holds the
note of `d` and no cell holds the note of a drum type sharing state with
`d`. -/
theorem slotScanFrom_acc_sole (d : DrumId) (env : Env R) (i : Fin 6) :
    ∀ (fuel j : Nat) (s : Synth R), j ≤ i.val → i.val < j + fuel →
      (s.keys i).midiNote = d.note → (∀ k : Fin 6, k ≠ i → (s.keys k).midiNote ≠ d.note) →
      Synth.NoSharer d s →
      (slotScanFrom env fuel j s).acc d
        = accNext d.limit (s.counter d) (s.keys i).playing (s.value env d) (s.acc d) := by
  intro fuel
  induction fuel with
  | zero => intro j s h1 h2; omega
  | succ f ih =>
    intro j s h1 h2 hi ho hs
    rw [slotScanFrom]
    have hj5 : j ≤ 5 := by have := i.isLt; omega
    rw [dif_pos hj5]
    by_cases hji : j = i.val
    · have e : (⟨j, by omega⟩ : Fin 6) = i := Fin.ext hji
      rw [e, slotScanFrom_acc_keep d env f (j + 1) _ (fun k hk => by
          rw [slotBody_keys]
          exact Ctl.slot_note_ne d _ k s.ctl (ho k (fun hc => by rw [hc] at hk; omega)))
        (slotBody_noSharer d env _ s hs)]
      exact slotBody_acc_self d env i s hi
    · have hne : (⟨j, by omega⟩ : Fin 6) ≠ i := fun hc => hji (by rw [← hc])
      have hkeep := slotBody_keep d env ⟨j, by omega⟩ s (ho _ hne) (hs _)
      have hkeys : (slotBody env ⟨j, by omega⟩ s).keys i = s.keys i := by
        rw [slotBody_keys]
        exact Ctl.slot_keys_other _ i s.ctl (Ne.symm hne)
      rw [ih (j + 1) _ (by omega) (by omega) (by rw [hkeys]; exact hi)
        (fun k hk => by
          rw [slotBody_keys]
          exact Ctl.slot_note_ne d _ k s.ctl (ho k hk))
        (slotBody_noSharer d env _ s hs), hkeys, hkeep.2, hkeep.1.1,
        Synth.value_congr env d _ s hkeep.1.1 hkeep.1.2.1 hkeep.1.2.2.1 hkeep.1.2.2.2.1
          hkeep.1.2.2.2.2.1]

/-- One sample when exactly the cell `i` holds the note of `d` and no cell
holds the note of a drum type sharing state with `d`: the accumulator of
`d`. -/
theorem processSample_acc_sole (d : DrumId) (env : Env R) (i : Fin 6) (s : Synth R)
    (hi : (s.keys i).midiNote = d.note) (ho : ∀ k : Fin 6, k ≠ i → (s.keys k).midiNote ≠ d.note)
    (hs : Synth.NoSharer d s) :
    (processSample env s).acc d
      = accNext d.limit (s.counter d) (s.keys i).playing (s.value env d) 0 := by
  have h := slotScanFrom_acc_sole d env i 6 0 (zeroAccumulators s) (by omega)
    (by have := i.isLt; omega) hi ho hs
  have hv : (zeroAccumulators s).value env d = s.value env d :=
    Synth.value_congr env d _ s (by cases d <;> rfl) (by cases d <;> rfl) (by cases d <;> rfl)
      (by cases d <;> rfl) (by cases d <;> rfl)
  have ha : (zeroAccumulators s).acc d = 0 := by cases d <;> rfl
  have hc : (zeroAccumulators s).counter d = s.counter d := by cases d <;> rfl
  rw [hv, ha, hc] at h
  exact h

omit [LinearOrderedField R] in
theorem kick_noSharer (s : Synth R) : Synth.NoSharer .kick s :=
  fun _ e he => by cases e <;> exact absurd he (by decide)

end

/-! ## After a released Kick episode -/

section
variable {R : Type} [LinearOrderedField R]

theorem samples_rx (env : Env R) (m : Machine R) (k : Nat) :
    (Machine.samples env k m).rx = m.rx := by
  induction k with
  | zero => rfl
  | succ n ih => rw [Machine.samples_succ]; exact ih

theorem samples_add (env : Env R) (m : Machine R) (a b : Nat) :
    Machine.samples env (a + b) m = Machine.samples env b (Machine.samples env a m) := by
  unfold Machine.samples
  rw [List.replicate_add, run_append]

/-- While no cell holds note 60, samples leave the Kick counter, the SubKick
counter and the Kick accumulator (0 after each sample), and still no cell
holds note 60. -/
theorem samples_kick_absent (env : Env R) (m : Machine R)
    (h : ∀ j : Fin 6, (m.synth.keys j).midiNote ≠ 60) (k : Nat) :
    (Machine.samples env k m).synth.Kickdrum.counter = m.synth.Kickdrum.counter ∧
    (∀ j : Fin 6, ((Machine.samples env k m).synth.keys j).midiNote ≠ 60) ∧
    (1 ≤ k → (Machine.samples env k m).synth.tempAudio = 0) := by
  induction k with
  | zero => exact ⟨rfl, h, fun hk => absurd hk (by decide)⟩
  | succ n ih =>
    rw [Machine.samples_succ]
    have habs := Ctl.sample_absent .kick (Machine.samples env n m).synth.ctl ih.2.1
    refine ⟨?_, ?_, fun _ => processSample_tempAudio_absent env _ ih.2.1⟩
    · show (processSample env (Machine.samples env n m).synth).counter .kick = _
      rw [processSample_counter, habs.1]
      exact ih.1
    · intro j
      show ((processSample env (Machine.samples env n m).synth).keys j).midiNote ≠ 60
      rw [processSample_keys]
      exact habs.2 j

/-- A NoteOn frame received in the status phase: the first free slot `i`
sounds the note. -/
theorem run_noteOn (env : Env R) (m : Machine R) (i : Fin 6) (n v : Byte)
    (hidle : m.rx.Idle) (hi : i.val < 5) (hfree : (m.synth.keys i).playing = false)
    (hlow : ∀ j : Fin 6, j < i → (m.synth.keys j).playing = true) :
    (Machine.run env m (midiBytes [0x90, n, v])).synth
      = { m.synth with
          keys := Function.update m.synth.keys i { midiNote := (n.val : Int), playing := true } } ∧
    (Machine.run env m (midiBytes [0x90, n, v])).rx.Idle := by
  have h3 := run_midi3 env m 0x90 n v
  have hfeed := feedBytes_noteOn m.rx m.synth.keys n v hidle.1 hidle.2.1 hidle.2.2
  have hf := noteOnLoop_found n.val m.synth.keys i.val hi hfree 5 0 (by omega) (by omega)
    (by omega) (fun j _ hj => hlow j hj)
  simp only [Fin.eta, toInt32_byte] at hf
  constructor
  · show (Machine.run env m [Event.midi 0x90, Event.midi n, Event.midi v]).synth = _
    rw [h3.2, hfeed, hf]
  · show (Machine.run env m [Event.midi 0x90, Event.midi n, Event.midi v]).rx.Idle
    rw [h3.1, hfeed]
    exact hidle

/-- A NoteOff frame received in the status phase: the first sounding slot `i`
with that note is released and keeps its note. -/
theorem run_noteOff (env : Env R) (m : Machine R) (i : Fin 6) (n w : Byte)
    (hidle : m.rx.Idle) (hi : i.val < 5) (hp : (m.synth.keys i).playing = true)
    (hn : (m.synth.keys i).midiNote = (n.val : Int))
    (hlow : ∀ j : Fin 6, j < i → (m.synth.keys j).midiNote ≠ (n.val : Int))
    (hwf : ∀ j : Fin 6, IsInt32 (m.synth.keys j).midiNote) :
    (Machine.run env m (midiBytes [0x80, n, w])).synth
      = { m.synth with
          keys := Function.update m.synth.keys i
            { midiNote := (m.synth.keys i).midiNote, playing := false } } ∧
    (Machine.run env m (midiBytes [0x80, n, w])).rx.Idle := by
  have h3 := run_midi3 env m 0x80 n w
  have hfeed := feedBytes_noteOff m.rx m.synth.keys n w hidle.1 hidle.2.1 hidle.2.2
  have hf := noteOffLoop_found n.val m.synth.keys i.val hi
    ⟨hp, (toUInt32_eq_byte _ (hwf i) n).2 hn⟩ 5 0 (by omega) (by omega) (by omega)
    (fun j _ hj hc => hlow j hj ((toUInt32_eq_byte _ (hwf j) n).1 hc.2))
  simp only [Fin.eta] at hf
  constructor
  · show (Machine.run env m [Event.midi 0x80, Event.midi n, Event.midi w]).synth = _
    rw [h3.2, hfeed, hf]
  · show (Machine.run env m [Event.midi 0x80, Event.midi n, Event.midi w]).rx.Idle
    rw [h3.1, hfeed]
    exact hidle

/-- The value the Kick branch computes at elapsed time 0. -/
theorem kick_value_zero (env : Env R) (s : Synth R) (hc : s.Kickdrum.counter = 0)
    (hs : s.SubKick.counter = 0) :
    s.value env .kick = 0.001 * env.sin (5 * env.sin 0) := by
  simp only [Synth.value, SubKick_DrumSynth, Kickdrum_DrumSynth, Kickdrum_A_t, SubKick_A_t,
    SubKick_t_r, Kickdrum_t_r, hc, hs]
  norm_num

/-- One sample with the Kick counter parked and exactly the cell `i` holding
note 60. -/
theorem parked_sample (env : Env R) (s : Synth R) (i : Fin 6) (p : Bool)
    (hc : s.Kickdrum.counter = 14401)
    (hi : s.keys i = { midiNote := 60, playing := p })
    (ho : ∀ k : Fin 6, k ≠ i → (s.keys k).midiNote ≠ 60) :
    (processSample env s).tempAudio = 0 ∧
    (processSample env s).Kickdrum.counter = (if p = true then 0 else 14401) ∧
    (processSample env s).keys i
      = (if p = true then { midiNote := 60, playing := true }
          else { midiNote := 0, playing := false }) ∧
    ∀ k : Fin 6, k ≠ i → ((processSample env s).keys k).midiNote ≠ 60 := by
  have hn : (s.ctl.keys i).midiNote = DrumId.kick.note := by
    rw [show s.ctl.keys i = _ from hi]; rfl
  have hsole := Ctl.sample_sole .kick i s.ctl hn ho
  have hcnt : s.ctl.cnt .kick = 14401 := hc
  rw [hcnt, show s.ctl.keys i = _ from hi] at hsole
  have hacc := processSample_acc_sole .kick env i s hn ho (kick_noSharer s)
  rw [show s.counter .kick = 14401 from hc, hi] at hacc
  refine ⟨?_, ?_, ?_, ?_⟩
  · show (processSample env s).acc .kick = 0
    rw [hacc]
    cases p <;> simp [accNext, DrumId.limit]
  · show (processSample env s).counter .kick = _
    rw [processSample_counter, hsole.2.1]
    cases p <;> decide
  · rw [processSample_keys, hsole.1]
    cases p <;> decide
  · intro k hk
    rw [processSample_keys]
    exact hsole.2.2 k hk

/-- The first sample of the ramp: Kick and SubKick counters 0, exactly the
cell `i` holds note 60. -/
theorem ramp_first_sample (env : Env R) (s : Synth R) (i : Fin 6)
    (hc : s.Kickdrum.counter = 0) (hs : s.SubKick.counter = 0)
    (hi : (s.keys i).midiNote = 60)
    (ho : ∀ k : Fin 6, k ≠ i → (s.keys k).midiNote ≠ 60) :
    (processSample env s).Kickdrum.counter = 1 ∧
    (processSample env s).tempAudio = 0.001 * env.sin (5 * env.sin 0) := by
  have hsole := Ctl.sample_sole .kick i s.ctl hi ho
  have hcnt : s.ctl.cnt .kick = 0 := hc
  rw [hcnt] at hsole
  have hacc := processSample_acc_sole .kick env i s hi ho (kick_noSharer s)
  rw [show s.counter .kick = 0 from hc, kick_value_zero env s hc hs] at hacc
  refine ⟨?_, ?_⟩
  · show (processSample env s).counter .kick = _
    rw [processSample_counter, hsole.2.1]
    cases (s.ctl.keys i).playing <;> decide
  · show (processSample env s).acc .kick = _
    rw [hacc]
    simp [accNext, DrumId.limit]

omit [LinearOrderedField R] in
/-- The scan leaves a cell as it is or resets it. -/
theorem Ctl.scanFrom_keys_cases (i : Fin 6) :
    ∀ (fuel j : Nat) (c : Ctl),
      (Ctl.scanFrom fuel j c).keys i = c.keys i ∨
        (Ctl.scanFrom fuel j c).keys i = { midiNote := 0, playing := false } := by
  intro fuel
  induction fuel with
  | zero => intro j c; exact Or.inl rfl
  | succ f ih =>
    intro j c
    rw [Ctl.scanFrom]
    split
    · rename_i hj
      have hslot : (Ctl.slot ⟨j, by omega⟩ c).keys i = c.keys i ∨
          (Ctl.slot ⟨j, by omega⟩ c).keys i = { midiNote := 0, playing := false } := by
        by_cases hi : i = ⟨j, by omega⟩
        · rw [← hi]; exact Ctl.slot_keys_self i c
        · exact Or.inl (Ctl.slot_keys_other _ i c hi)
      rcases ih (j + 1) (Ctl.slot ⟨j, by omega⟩ c) with h1 | h1
      · rw [h1]; exact hslot
      · exact Or.inr h1
    · exact Or.inl rfl

/-- Samples never fill a reset cell. -/
theorem samples_reset_cell (env : Env R) (m : Machine R) (i : Fin 6)
    (h : m.synth.keys i = { midiNote := 0, playing := false }) (k : Nat) :
    (Machine.samples env k m).synth.keys i = { midiNote := 0, playing := false } := by
  induction k with
  | zero => exact h
  | succ n ih =>
    rw [Machine.samples_succ]
    show (processSample env (Machine.samples env n m).synth).keys i = _
    rw [processSample_keys]
    rcases Ctl.scanFrom_keys_cases i 6 0 (Machine.samples env n m).synth.ctl with h1 | h1
    · exact h1.trans ih
    · exact h1

end

section
variable {R : Type} [LinearOrderedField R]

theorem episode_parked_from (env : Env R) (v w : Byte) (N : Nat) (hN : N = 14401) (n : Nat) :
    Machine.KickParked 0
      (Machine.samples env (N + n)
        (Machine.run env Machine.init (midiBytes [0x90, 60, v, 0x80, 60, w]))) := by
  have h0 := noteOnOff60_state env v w
  have hb := release_boundary env _ h0 N hN
  obtain ⟨p, rfl⟩ : ∃ p, N = p + 1 := ⟨N - 1, by omega⟩
  have hdec := release_decay env _ h0 p (by omega)
  have hrun : ∀ q : Nat, Machine.samples env q
      (Machine.run env Machine.init (midiBytes [0x90, 60, v, 0x80, 60, w]))
        = Machine.run env Machine.init
            (midiBytes [0x90, 60, v, 0x80, 60, w] ++ List.replicate q Event.sample) := by
    intro q
    unfold Machine.samples
    rw [run_append]
  have hcnt : (Machine.samples env (p + 1)
      (Machine.run env Machine.init
        (midiBytes [0x90, 60, v, 0x80, 60, w]))).synth.Kickdrum.counter = 14401 := by
    rw [Machine.samples_succ]
    show (processSample env _).counter .kick = 14401
    rw [processSample_counter,
      (Ctl.sample_sole .kick 0 _ (by rw [hdec.1]; rfl) hdec.2.2).2.1, hdec.2.1, hdec.1,
      nextCount_released, if_pos (by show p ≤ 14400; omega)]
    exact hN
  have hothers : ∀ j : Fin 6, j ≠ 0 →
      (Machine.run env Machine.init (midiBytes [0x90, 60, v, 0x80, 60, w])).synth.keys j
        = { midiNote := 0, playing := false } := by
    intro j hj
    fin_cases j
    · exact absurd rfl hj
    all_goals rfl
  have hkeys : ∀ j : Fin 6, (Machine.samples env (p + 1 + n)
      (Machine.run env Machine.init (midiBytes [0x90, 60, v, 0x80, 60, w]))).synth.keys j
        = { midiNote := 0, playing := false } := by
    intro j
    by_cases hj : j = 0
    · subst hj
      rw [samples_add]
      exact samples_reset_cell env _ 0 hb.1 n
    · exact samples_reset_cell env _ j (hothers j hj) _
  have habs := samples_kick_absent env _ hb.2.1 n
  have hkick : (Machine.samples env (p + 1 + n)
      (Machine.run env Machine.init
        (midiBytes [0x90, 60, v, 0x80, 60, w]))).synth.Kickdrum.counter = 14401 := by
    rw [samples_add, habs.1]
    exact hcnt
  refine ⟨?_, hkick, ?_, ?_, ?_, by decide, ?_, ?_⟩
  · rw [samples_rx]
    exact ⟨rfl, rfl, rfl⟩
  · rw [← hkick, hrun]
    exact run_subKick env _
  · intro j; rw [hkeys j]; decide
  · intro j; rw [hkeys j]; decide
  · rw [hkeys 0]
  · intro j hj
    exact absurd hj (by simp [Fin.lt_def])

/-- After NoteOn(60), NoteOff(60) and at least 14401 samples from the initial
state, the Kick episode has ended with the key released. -/
theorem episode_parked (env : Env R) (v w : Byte) (k : Nat) (hk : 14401 ≤ k) :
    Machine.KickParked 0
      (Machine.samples env k
        (Machine.run env Machine.init (midiBytes [0x90, 60, v, 0x80, 60, w]))) := by
  obtain ⟨n, rfl⟩ : ∃ n, k = 14401 + n := ⟨k - 14401, by omega⟩
  exact episode_parked_from env v w 14401 rfl n

/-- The state after NoteOn(60) received with the Kick parked: slot `i` sounds
note 60, nothing else changes. -/
theorem parked_noteOn (env : Env R) (m : Machine R) (i : Fin 6) (v : Byte)
    (h : Machine.KickParked i m) :
    (Machine.run env m (midiBytes [0x90, 60, v])).synth
      = { m.synth with
          keys := Function.update m.synth.keys i { midiNote := 60, playing := true } } ∧
    (Machine.run env m (midiBytes [0x90, 60, v])).rx.Idle :=
  run_noteOn env m i 60 v h.1 h.2.2.2.2.2.1 h.2.2.2.2.2.2.1 h.2.2.2.2.2.2.2

/-- The state after NoteOn(60), NoteOff(60) received with the Kick parked:
slot `i` holds the released note 60, nothing else changes. -/
theorem parked_noteOnOff (env : Env R) (m : Machine R) (i : Fin 6) (v w : Byte)
    (h : Machine.KickParked i m) :
    (Machine.run env m (midiBytes [0x90, 60, v, 0x80, 60, w])).synth
      = { m.synth with
          keys := Function.update m.synth.keys i { midiNote := 60, playing := false } } := by
  have hon := parked_noteOn env m i v h
  have hsplit : (midiBytes [0x90, 60, v, 0x80, 60, w] : List (Event R))
      = midiBytes [0x90, 60, v] ++ midiBytes [0x80, 60, w] := rfl
  have hk1 : (Machine.run env m (midiBytes [0x90, 60, v])).synth.keys
      = Function.update m.synth.keys i { midiNote := 60, playing := true } := by
    rw [hon.1]
  have hoff := run_noteOff env (Machine.run env m (midiBytes [0x90, 60, v])) i 60 w hon.2
    h.2.2.2.2.2.1 (by rw [hk1, Function.update_same]) (by rw [hk1, Function.update_same]; rfl)
    (fun j hj => by
      rw [hk1, Function.update_noteq (ne_of_lt hj)]
      exact h.2.2.2.1 j)
    (fun j => by
      rw [hk1]
      by_cases hj : j = i
      · rw [hj, Function.update_same]; decide
      · rw [Function.update_noteq hj]; exact h.2.2.2.2.1 j)
  rw [hsplit, run_append, hoff.1, hk1, Function.update_same, Function.update_idem, hon.1]

end

section
variable {R : Type} [LinearOrderedField R]

/-- C24. The Kick counter stays parked after a released episode. After
NoteOn(60), NoteOff(60) and 14401 or more samples from the initial state the
episode has ended: the Kick counter stands at 14401, no cell holds note 60 and
slot 0 is free. From every state in which a Kick episode has ended in this way
(`Machine.KickParked`, slot `i` being the first free slot): the counter stays
14401 while only samples are processed; after NoteOn(60), NoteOff(60) every
sample leaves the counter at 14401 and the Kick accumulator at 0, and the
first one resets slot `i`, so that note never sounds; after NoteOn(60) alone
the first sample leaves the Kick accumulator at 0 and only resets the counter
to 0, slot `i` still sounding note 60, and the second sample is the first of
the ramp: it computes the accumulator at elapsed time 0 and moves the counter
to 1. -/
theorem C24_counter_parked_after_release (env : Env R) :
    (∀ (v w : Byte) (k : Nat), 14401 ≤ k →
      Machine.KickParked 0
        (Machine.samples env k
          (Machine.run env Machine.init (midiBytes [0x90, 60, v, 0x80, 60, w])))) ∧
    (∀ (m : Machine R) (i : Fin 6) (v w : Byte), Machine.KickParked i m →
      (∀ k : Nat, (Machine.samples env k m).synth.Kickdrum.counter = 14401) ∧
      (∀ k : Nat, 1 ≤ k →
        (Machine.samples env k
          (Machine.run env m (midiBytes [0x90, 60, v, 0x80, 60, w]))).synth.Kickdrum.counter
            = 14401 ∧
        (Machine.samples env k
          (Machine.run env m (midiBytes [0x90, 60, v, 0x80, 60, w]))).synth.tempAudio = 0 ∧
        (Machine.samples env k
          (Machine.run env m (midiBytes [0x90, 60, v, 0x80, 60, w]))).synth.keys i
            = { midiNote := 0, playing := false }) ∧
      ((Machine.samples env 1 (Machine.run env m (midiBytes [0x90, 60, v]))).synth.tempAudio = 0 ∧
        (Machine.samples env 1
          (Machine.run env m (midiBytes [0x90, 60, v]))).synth.Kickdrum.counter = 0 ∧
        (Machine.samples env 1 (Machine.run env m (midiBytes [0x90, 60, v]))).synth.keys i
          = { midiNote := 60, playing := true }) ∧
      ((Machine.samples env 2
          (Machine.run env m (midiBytes [0x90, 60, v]))).synth.Kickdrum.counter = 1 ∧
        (Machine.samples env 2 (Machine.run env m (midiBytes [0x90, 60, v]))).synth.tempAudio
          = 0.001 * env.sin (5 * env.sin 0))) := by
  refine ⟨fun v w k hk => episode_parked env v w k hk, ?_⟩
  intro m i v w h
  have hno := h.2.2.2.1
  have hother : ∀ (p : Bool) (k : Fin 6), k ≠ i →
      (Function.update m.synth.keys i { midiNote := 60, playing := p } k).midiNote ≠ 60 := by
    intro p k hk
    rw [Function.update_noteq hk]
    exact hno k
  refine ⟨?_, ?_, ?_, ?_⟩
  · intro k
    rw [(samples_kick_absent env m hno k).1]
    exact h.2.1
  · intro k hk
    obtain ⟨n, rfl⟩ : ∃ n, k = 1 + n := ⟨k - 1, by omega⟩
    have hoff := parked_noteOnOff env m i v w h
    have hs := parked_sample env
      (Machine.run env m (midiBytes [0x90, 60, v, 0x80, 60, w])).synth i false
      (by rw [hoff]; exact h.2.1) (by rw [hoff]; exact Function.update_same _ _ _)
      (by rw [hoff]; exact hother false)
    have e1 : (Machine.samples env 1
        (Machine.run env m (midiBytes [0x90, 60, v, 0x80, 60, w]))).synth
        = processSample env (Machine.run env m (midiBytes [0x90, 60, v, 0x80, 60, w])).synth :=
      rfl
    have hno1 : ∀ j : Fin 6, ((Machine.samples env 1
        (Machine.run env m (midiBytes [0x90, 60, v, 0x80, 60, w]))).synth.keys j).midiNote
          ≠ 60 := by
      intro j
      rw [e1]
      by_cases hj : j = i
      · rw [hj, hs.2.2.1]; decide
      · exact hs.2.2.2 j hj
    have habs := samples_kick_absent env _ hno1 n
    rw [samples_add]
    refine ⟨?_, ?_, ?_⟩
    · rw [habs.1, e1, hs.2.1]; rfl
    · cases n with
      | zero => rw [Machine.samples_zero, e1]; exact hs.1
      | succ q => exact habs.2.2 (by omega)
    · exact samples_reset_cell env _ i (by rw [e1, hs.2.2.1]; rfl) n
  · have hon := parked_noteOn env m i v h
    have hs := parked_sample env (Machine.run env m (midiBytes [0x90, 60, v])).synth i true
      (by rw [hon.1]; exact h.2.1) (by rw [hon.1]; exact Function.update_same _ _ _)
      (by rw [hon.1]; exact hother true)
    exact ⟨hs.1, hs.2.1, hs.2.2.1⟩
  · have hon := parked_noteOn env m i v h
    have hs := parked_sample env (Machine.run env m (midiBytes [0x90, 60, v])).synth i true
      (by rw [hon.1]; exact h.2.1) (by rw [hon.1]; exact Function.update_same _ _ _)
      (by rw [hon.1]; exact hother true)
    have hsub : (processSample env (Machine.run env m (midiBytes [0x90, 60, v])).synth).ctl.subKick
        = (processSample env (Machine.run env m (midiBytes [0x90, 60, v])).synth).ctl.kick := by
      rw [ctl_processSample]
      apply Ctl.sample_subKick
      show (Machine.run env m (midiBytes [0x90, 60, v])).synth.SubKick.counter
        = (Machine.run env m (midiBytes [0x90, 60, v])).synth.Kickdrum.counter
      rw [hon.1]
      exact h.2.2.1.trans h.2.1.symm
    have e2 : (Machine.samples env 2 (Machine.run env m (midiBytes [0x90, 60, v]))).synth
        = processSample env
            (processSample env (Machine.run env m (midiBytes [0x90, 60, v])).synth) := rfl
    rw [e2]
    exact ramp_first_sample env _ i hs.2.1 (hsub.trans hs.2.1) (by rw [hs.2.2.1]; rfl)
      hs.2.2.2

end

theorem C24_counter_parked_after_release_witness :
    (Machine.samples sampleEnv 1
      (Machine.run sampleEnv sampleParked (midiBytes [0x90, 60, 100]))).synth.tempAudio = 0 ∧
    (Machine.samples sampleEnv 1
      (Machine.run sampleEnv sampleParked (midiBytes [0x90, 60, 100]))).synth.Kickdrum.counter
        = 0 ∧
    (Machine.samples sampleEnv 1
      (Machine.run sampleEnv sampleParked (midiBytes [0x90, 60, 100]))).synth.keys 1
        = { midiNote := 60, playing := true } :=
  ((C24_counter_parked_after_release sampleEnv).2 sampleParked 1 100 0
    (by unfold Machine.KickParked MidiRx.Idle; decide)).2.2.1

/-! ## The shared Tom transient counter -/

/-- While `keys[j]` does not hold the note of the other Tom, a branch keeps
`SubTom.counter` equal to the counter of the Tom `d`. -/
theorem Ctl.branch_subTom (d o e : DrumId) (j : Fin 6) (c : Ctl)
    (hd : (d = .midtom ∧ o = .hightom) ∨ (d = .hightom ∧ o = .midtom))
    (hno : (c.keys j).midiNote ≠ o.note) (h : c.subTom = c.cnt d) :
    (Ctl.branch e j c).subTom = (Ctl.branch e j c).cnt d := by
  by_cases heo : e = o
  · subst heo
    rw [Ctl.branch_of_ne e j c hno]; exact h
  · rcases hd with ⟨rfl, rfl⟩ | ⟨rfl, rfl⟩
    · unfold Ctl.branch Ctl.retrigger Ctl.release Ctl.count
      cases e <;> first
        | exact absurd rfl heo
        | (simp only [Ctl.cnt, Ctl.bump, Ctl.restart] at h ⊢; split_ifs <;> simp [h])
    · unfold Ctl.branch Ctl.retrigger Ctl.release Ctl.count
      cases e <;> first
        | exact absurd rfl heo
        | (simp only [Ctl.cnt, Ctl.bump, Ctl.restart] at h ⊢; split_ifs <;> simp [h])

theorem Ctl.slot_subTom (d o : DrumId) (j : Fin 6) (c : Ctl)
    (hd : (d = .midtom ∧ o = .hightom) ∨ (d = .hightom ∧ o = .midtom))
    (hno : (c.keys j).midiNote ≠ o.note) (h : c.subTom = c.cnt d) :
    (Ctl.slot j c).subTom = (Ctl.slot j c).cnt d := by
  unfold Ctl.slot
  have n1 := Ctl.branch_then_ne .kick o j c hno
  have n2 := Ctl.branch_then_ne .snare o j _ n1
  have n3 := Ctl.branch_then_ne .midtom o j _ n2
  have n4 := Ctl.branch_then_ne .hightom o j _ n3
  exact Ctl.branch_subTom d o _ j _ hd n4 (Ctl.branch_subTom d o _ j _ hd n3
    (Ctl.branch_subTom d o _ j _ hd n2 (Ctl.branch_subTom d o _ j _ hd n1
      (Ctl.branch_subTom d o _ j _ hd hno h))))

theorem Ctl.scanFrom_subTom (d o : DrumId)
    (hd : (d = .midtom ∧ o = .hightom) ∨ (d = .hightom ∧ o = .midtom)) :
    ∀ (fuel j : Nat) (c : Ctl), (∀ i : Fin 6, (c.keys i).midiNote ≠ o.note) →
      c.subTom = c.cnt d → (Ctl.scanFrom fuel j c).subTom = (Ctl.scanFrom fuel j c).cnt d := by
  intro fuel
  induction fuel with
  | zero => intro j c _ h; exact h
  | succ f ih =>
    intro j c hno h
    rw [Ctl.scanFrom]
    split
    · exact ih (j + 1) _ (fun i => Ctl.slot_note_ne o _ i c (hno i))
        (Ctl.slot_subTom d o _ c hd (hno _) h)
    · exact h

/-! ## The gate of the transient layers -/

/-- One sample with both Toms held, below the threshold. -/
theorem twoToms_sample (n : Nat) (hn : n < 19200) :
    Ctl.sample (twoTomsCtl n) = twoTomsCtl (n + 1) := by
  have h1 : ¬ n + 1 = 19201 := by omega
  have h2 : n ≤ 19200 := by omega
  have h3 : 2 * n + 1 + 1 = 2 * (n + 1) := by omega
  simp [Ctl.sample_eq, Ctl.slot, Ctl.branch, Ctl.count, Ctl.release, Ctl.retrigger, Ctl.bump,
    Ctl.restart, Ctl.cnt, DrumId.note, DrumId.limit, twoTomsCtl, h1, h2, h3]

section
variable {R : Type} [LinearOrderedField R]

/-- Both Toms held from the initial state: after `n` samples both Tom counters
are `n` and `SubTom.counter` is `2 * n`. -/
theorem twoToms_samples (env : Env R) (v w : Byte) (n : Nat) (hn : n ≤ 19200) :
    (Machine.samples env n
      (Machine.run env Machine.init (midiBytes [0x90, 62, v, 0x90, 63, w]))).synth.ctl
      = twoTomsCtl n := by
  induction n with
  | zero =>
    have hk : (Machine.run env Machine.init (midiBytes [0x90, 62, v, 0x90, 63, w])).synth.keys
        = (twoTomsCtl 0).keys := by
      funext j
      fin_cases j <;> rfl
    show Ctl.mk (Machine.run env Machine.init
      (midiBytes [0x90, 62, v, 0x90, 63, w])).synth.keys 0 0 0 0 0 0 0 = _
    rw [hk]
    rfl
  | succ k ih =>
    rw [Machine.samples_succ]
    show (processSample env _).ctl = _
    rw [ctl_processSample, ih (by omega)]
    exact twoToms_sample k (by omega)

end

section
variable {R : Type} [LinearOrderedField R]

/-- The transient amplitude `-(1/0.03)*t + 1` is `1 - t/0.03`, not negative
while `t` is at most 0.03. -/
theorem ramp_nonneg (t : R) :
    -(1 / 0.03) * t + 1 = 1 - t / 0.03 ∧ (t ≤ 0.03 → 0 ≤ -(1 / 0.03) * t + 1) := by
  have e : -(1 / 0.03) * t + 1 = 1 - t / 0.03 := by ring
  refine ⟨e, fun h => ?_⟩
  rw [e]
  have h3 : (0 : R) < 0.03 := by norm_num
  have h1 : t / 0.03 ≤ 1 := (div_le_one h3).2 h
  linarith

/-- Equal counters make the gate of a transient layer an own-time gate. -/
theorem ownTimeGate_of_eq (env : Env R) (t_fund : R) (n : Nat) (A_sub term : R)
    (ht : (n : R) / env.AUDIO_SAMPLE_RATE = t_fund)
    (hA : A_sub = -(1 / 0.03) * ((n : R) / env.AUDIO_SAMPLE_RATE) + 1)
    (hterm : term = if t_fund ≤ 0.03 then
      transientBurst env A_sub ((n : R) / env.AUDIO_SAMPLE_RATE) else 0) :
    OwnTimeGate env t_fund n A_sub term := by
  refine ⟨by rw [ht], ?_, ?_, ?_⟩
  · rw [hA]; exact (ramp_nonneg _).1
  · intro h; rw [hA]; exact (ramp_nonneg _).2 h
  · rw [hterm, ht]

/-- While no sample is processed with a cell holding the note of the other
Tom, `SubTom.counter` stays equal to the counter of the Tom `d`. -/
theorem run_subTom (env : Env R) (d o : DrumId)
    (hd : (d = .midtom ∧ o = .hightom) ∨ (d = .hightom ∧ o = .midtom)) :
    ∀ (evs : List (Event R)) (m : Machine R), Machine.Unsounded env o m evs →
      m.synth.SubTom.counter = m.synth.counter d →
      (Machine.run env m evs).synth.SubTom.counter = (Machine.run env m evs).synth.counter d := by
  intro evs
  induction evs with
  | nil => intro m _ h; exact h
  | cons e rest ih =>
    intro m hu h
    rw [run_cons]
    have hother : ∀ x : Event R, x ≠ Event.sample →
        (Machine.step env m x).synth.SubTom.counter = (Machine.step env m x).synth.counter d := by
      intro x hx
      have hc := step_counters env m x hx
      rw [hc.2.2, hc.1 d]; exact h
    cases e with
    | sample =>
      refine ih _ hu.2 ?_
      show (processSample env m.synth).ctl.subTom = (processSample env m.synth).counter d
      rw [Synth.counter_eq_ctl, ctl_processSample]
      exact Ctl.scanFrom_subTom d o hd 6 0 m.synth.ctl hu.1
        (by rw [← Synth.counter_eq_ctl]; exact h)
    | midi val => exact ih _ hu (hother _ (fun hc => by cases hc))
    | block => exact ih _ hu (hother _ (fun hc => by cases hc))
    | background => exact ih _ hu (hother _ (fun hc => by cases hc))
    | shared x => exact ih _ hu (hother _ (fun hc => by cases hc))

end

section
variable {R : Type} [LinearOrderedField R]

/-- C21 (amended). The gate of a transient layer tests the elapsed time of the
fundamental, `Kickdrum.t_r`, `Midtom.t_r` or `Hightom.t_r`. For the Kick this
is a gate on the transient's own elapsed time after any sequence of events
from the initial state: the gate is open exactly when
`SubKick.counter/AUDIO_SAMPLE_RATE <= 0.03`, the term `SubKick.DrumSynth` is
the burst at that time while it is at most 0.03 and 0 otherwise, and the
amplitude `1 - t_sub/0.03` is not negative while the gate is open. For a Tom
the same holds in every state in which `SubTom.counter` equals the counter of
that Tom; the equality holds in the initial state and is kept, from any state
in which it holds, by every sequence of events (MIDI bytes included) in which
no sample is processed while a cell holds the note of the other Tom. -/
theorem C21_transient_gate_own_time (env : Env R) :
    (∀ evs : List (Event R),
      OwnTimeGate env (Kickdrum_t_r env (Machine.run env Machine.init evs).synth)
        (Machine.run env Machine.init evs).synth.SubKick.counter
        (SubKick_A_t env (Machine.run env Machine.init evs).synth)
        (SubKick_DrumSynth env (Machine.run env Machine.init evs).synth)) ∧
    (∀ s : Synth R, s.SubTom.counter = s.Midtom.counter →
      OwnTimeGate env (Midtom_t_r env s) s.SubTom.counter (SubTom_A_t env s)
        (SubTom_DrumSynth env (Midtom_t_r env s) s)) ∧
    (∀ s : Synth R, s.SubTom.counter = s.Hightom.counter →
      OwnTimeGate env (Hightom_t_r env s) s.SubTom.counter (SubTom_A_t env s)
        (SubTom_DrumSynth env (Hightom_t_r env s) s)) ∧
    (∀ (m : Machine R) (evs : List (Event R)),
      (m = Machine.init ∨ m.synth.SubTom.counter = m.synth.Midtom.counter) →
      Machine.Unsounded env .hightom m evs →
      (Machine.run env m evs).synth.SubTom.counter
        = (Machine.run env m evs).synth.Midtom.counter) ∧
    (∀ (m : Machine R) (evs : List (Event R)),
      (m = Machine.init ∨ m.synth.SubTom.counter = m.synth.Hightom.counter) →
      Machine.Unsounded env .midtom m evs →
      (Machine.run env m evs).synth.SubTom.counter
        = (Machine.run env m evs).synth.Hightom.counter) := by
  refine ⟨?_, ?_, ?_, ?_, ?_⟩
  · intro evs
    apply ownTimeGate_of_eq
    · unfold Kickdrum_t_r
      rw [run_subKick]
    · rfl
    · rfl
  · intro s h
    apply ownTimeGate_of_eq
    · unfold Midtom_t_r
      rw [h]
    · rfl
    · rfl
  · intro s h
    apply ownTimeGate_of_eq
    · unfold Hightom_t_r
      rw [h]
    · rfl
    · rfl
  · intro m evs hm hu
    refine run_subTom env .midtom .hightom (Or.inl ⟨rfl, rfl⟩) evs m hu ?_
    rcases hm with rfl | h
    · rfl
    · exact h
  · intro m evs hm hu
    refine run_subTom env .hightom .midtom (Or.inr ⟨rfl, rfl⟩) evs m hu ?_
    rcases hm with rfl | h
    · rfl
    · exact h

end

theorem ctl_tom_fields (s : Synth ℚ) (c : Ctl) (h : s.ctl = c) :
    s.Midtom.counter = c.midtom ∧ s.SubTom.counter = c.subTom := by
  subst h
  exact ⟨rfl, rfl⟩

/-- A state with `Midtom.counter = 721` and `SubTom.counter = 1442` at
48 kHz: the gate of the MidTom transient is open beyond the transient's own
window. -/
theorem twoToms_gate (s : Synth ℚ) (hm : s.Midtom.counter = 721)
    (hs : s.SubTom.counter = 1442) :
    Midtom_t_r sampleEnv s ≤ 0.03 ∧ ¬ SubTom_t_r sampleEnv s ≤ 0.03 ∧
    SubTom_A_t sampleEnv s < 0 ∧
    SubTom_DrumSynth sampleEnv (Midtom_t_r sampleEnv s) s
      = transientBurst sampleEnv (SubTom_A_t sampleEnv s) (SubTom_t_r sampleEnv s) ∧
    ¬ OwnTimeGate sampleEnv (Midtom_t_r sampleEnv s) s.SubTom.counter (SubTom_A_t sampleEnv s)
      (SubTom_DrumSynth sampleEnv (Midtom_t_r sampleEnv s) s) := by
  have h1 : Midtom_t_r sampleEnv s ≤ 0.03 := by
    unfold Midtom_t_r
    rw [hm]
    norm_num [sampleEnv]
  have h2 : ¬ SubTom_t_r sampleEnv s ≤ 0.03 := by
    unfold SubTom_t_r
    rw [hs]
    norm_num [sampleEnv]
  have h3 : SubTom_A_t sampleEnv s < 0 := by
    unfold SubTom_A_t SubTom_t_r
    rw [hs]
    norm_num [sampleEnv]
  refine ⟨h1, h2, h3, ?_, fun hg => h2 (hg.1.1 h1)⟩
  unfold SubTom_DrumSynth
  exact if_pos h1

/-- C21 (as stated) fails for the Toms, which share `SubTom.counter`. From the
initial state, NoteOn(62), NoteOn(63) and 721 samples at 48 kHz lead to a state
with `Midtom.counter = 721` and `SubTom.counter = 1442`: the gate of the MidTom
transient is open (`Midtom.t_r <= 0.03`) although the transient's own elapsed
time `SubTom.t_r` exceeds 0.03, the transient amplitude `SubTom.A_t` is
negative, and the transient term is the burst, not 0. -/
theorem C21_transient_gate_counterexample :
    (Machine.samples sampleEnv 721
      (Machine.run sampleEnv Machine.init
        (midiBytes [0x90, 62, 100, 0x90, 63, 100]))).synth.Midtom.counter = 721 ∧
    (Machine.samples sampleEnv 721
      (Machine.run sampleEnv Machine.init
        (midiBytes [0x90, 62, 100, 0x90, 63, 100]))).synth.SubTom.counter = 1442 ∧
    Midtom_t_r sampleEnv (Machine.samples sampleEnv 721
      (Machine.run sampleEnv Machine.init
        (midiBytes [0x90, 62, 100, 0x90, 63, 100]))).synth ≤ 0.03 ∧
    ¬ SubTom_t_r sampleEnv (Machine.samples sampleEnv 721
      (Machine.run sampleEnv Machine.init
        (midiBytes [0x90, 62, 100, 0x90, 63, 100]))).synth ≤ 0.03 ∧
    SubTom_A_t sampleEnv (Machine.samples sampleEnv 721
      (Machine.run sampleEnv Machine.init
        (midiBytes [0x90, 62, 100, 0x90, 63, 100]))).synth < 0 ∧
    SubTom_DrumSynth sampleEnv
      (Midtom_t_r sampleEnv (Machine.samples sampleEnv 721
        (Machine.run sampleEnv Machine.init
          (midiBytes [0x90, 62, 100, 0x90, 63, 100]))).synth)
      (Machine.samples sampleEnv 721
        (Machine.run sampleEnv Machine.init
          (midiBytes [0x90, 62, 100, 0x90, 63, 100]))).synth
      = transientBurst sampleEnv
          (SubTom_A_t sampleEnv (Machine.samples sampleEnv 721
            (Machine.run sampleEnv Machine.init
              (midiBytes [0x90, 62, 100, 0x90, 63, 100]))).synth)
          (SubTom_t_r sampleEnv (Machine.samples sampleEnv 721
            (Machine.run sampleEnv Machine.init
              (midiBytes [0x90, 62, 100, 0x90, 63, 100]))).synth) ∧
    ¬ OwnTimeGate sampleEnv
      (Midtom_t_r sampleEnv (Machine.samples sampleEnv 721
        (Machine.run sampleEnv Machine.init
          (midiBytes [0x90, 62, 100, 0x90, 63, 100]))).synth)
      (Machine.samples sampleEnv 721
        (Machine.run sampleEnv Machine.init
          (midiBytes [0x90, 62, 100, 0x90, 63, 100]))).synth.SubTom.counter
      (SubTom_A_t sampleEnv (Machine.samples sampleEnv 721
        (Machine.run sampleEnv Machine.init
          (midiBytes [0x90, 62, 100, 0x90, 63, 100]))).synth)
      (SubTom_DrumSynth sampleEnv
        (Midtom_t_r sampleEnv (Machine.samples sampleEnv 721
          (Machine.run sampleEnv Machine.init
            (midiBytes [0x90, 62, 100, 0x90, 63, 100]))).synth)
        (Machine.samples sampleEnv 721
          (Machine.run sampleEnv Machine.init
            (midiBytes [0x90, 62, 100, 0x90, 63, 100]))).synth) := by
  have h := twoToms_samples sampleEnv 100 100 721 (by omega)
  have hm : (Machine.samples sampleEnv 721
      (Machine.run sampleEnv Machine.init
        (midiBytes [0x90, 62, 100, 0x90, 63, 100]))).synth.Midtom.counter = 721 :=
    (ctl_tom_fields _ _ h).1
  have hs : (Machine.samples sampleEnv 721
      (Machine.run sampleEnv Machine.init
        (midiBytes [0x90, 62, 100, 0x90, 63, 100]))).synth.SubTom.counter = 1442 :=
    (ctl_tom_fields _ _ h).2
  exact ⟨hm, hs, twoToms_gate _ hm hs⟩

set_option maxRecDepth 100000 in
theorem C21_transient_gate_own_time_witness :
    OwnTimeGate sampleEnv
      (Midtom_t_r sampleEnv (Machine.run sampleEnv Machine.init
        (midiBytes [0x90, 62, 63] ++ [Event.sample, Event.sample])).synth)
      (Machine.run sampleEnv Machine.init
        (midiBytes [0x90, 62, 63] ++ [Event.sample, Event.sample])).synth.SubTom.counter
      (SubTom_A_t sampleEnv (Machine.run sampleEnv Machine.init
        (midiBytes [0x90, 62, 63] ++ [Event.sample, Event.sample])).synth)
      (SubTom_DrumSynth sampleEnv
        (Midtom_t_r sampleEnv (Machine.run sampleEnv Machine.init
          (midiBytes [0x90, 62, 63] ++ [Event.sample, Event.sample])).synth)
        (Machine.run sampleEnv Machine.init
          (midiBytes [0x90, 62, 63] ++ [Event.sample, Event.sample])).synth) :=
  (C21_transient_gate_own_time sampleEnv).2.1 _
    ((C21_transient_gate_own_time sampleEnv).2.2.2.1 Machine.init
      (midiBytes [0x90, 62, 63] ++ [Event.sample, Event.sample]) (Or.inl rfl)
      ⟨by decide, by decide, trivial⟩)

end Drum
